import Mathlib

/-!
# Model Interface Gateway (MIG v0.1): service core

A shallow embedding of `core/pkg/mig` (`types.go`, `service.go`, `auth.go`) and
theorems about it.

Conventions of the embedding.

* Go maps `map[string]V` are association lists (`GoMap V`) with at most one
  binding per key; a missing key reads as `none` (or as the zero value through
  `GoMap.count`).  A map that may be `nil` (`Meta`, `Payload`) is an `Option`.
* `map[string]interface{}` values are JSON values (`Value`).
* Go `int`/`int64` are `Int`.  The int64 usage counters only ever grow by one
  per appended audit record, so they never come near `2^63`.
* The wall clock, the random source and the outcome of the deadline race of one
  call are explicit inputs (`Env`).
* The service lock is not modelled: an operation is one atomic step
  `Service → Service × result`.  `Invoke` is split at the point where the source
  releases the read lock (`invokeGate`) and later takes the write lock
  (`invokeCommit`).
* `recordError` only feeds the attached metrics recorder, an external counter
  sink; it touches no field of `Service` and is left out.
* Headers and payloads are values: the sharing of the `Meta` and `Payload` maps
  between a request and the header or record built from it is not tracked.
-/

namespace Mig

/-! ## JSON values and Go maps -/

/-- A dynamically typed `interface{}` value as it occurs in `meta` and payloads. -/
inductive Value where
  | null
  | bool (b : Bool)
  | num (n : Int)
  | str (s : String)
  | arr (xs : List Value)
  | obj (kvs : List (String × Value))

/-- A Go `map[string]V`: association list, first binding of a key wins. -/
def GoMap (V : Type) : Type := List (String × V)

namespace GoMap

/-- The empty map `map[string]V{}`. -/
def empty {V : Type} : GoMap V := ([] : List (String × V))

/-- Lookup `m[key]` with the comma-ok result as an `Option`. -/
def lookup {V : Type} : GoMap V → String → Option V
  | [], _ => none
  | (k, v) :: rest, key => if k = key then some v else lookup rest key

/-- Assignment `m[key] = val`: overwrite the binding or add one. -/
def insert {V : Type} : GoMap V → String → V → GoMap V
  | [], key, val => [(key, val)]
  | (k, v) :: rest, key, val =>
    if k = key then (k, val) :: rest else (k, v) :: insert rest key val

/-- Deletion `delete(m, key)`. -/
def erase {V : Type} : GoMap V → String → GoMap V
  | [], _ => []
  | (k, v) :: rest, key => if k = key then erase rest key else (k, v) :: erase rest key

/-- Whether `key` is bound (`_, ok := m[key]`). -/
def contains {V : Type} (m : GoMap V) (key : String) : Bool := (m.lookup key).isSome

/-- Read of an integer map: a missing key yields the zero value. -/
def count (m : GoMap Int) (key : String) : Int := (m.lookup key).getD 0

/-- The keys in storage order. -/
def keys {V : Type} (m : GoMap V) : List String := List.map Prod.fst m

/-- The values in storage order. -/
def values {V : Type} (m : GoMap V) : List V := List.map Prod.snd m

end GoMap

/-! ## Library functions used by the service -/

/-- Go `unicode.IsSpace`. -/
def isSpace (c : Char) : Bool :=
  c = '\t' || c = '\n' || c.toNat = 0x0B || c.toNat = 0x0C || c = '\r' || c = ' '
    || c.toNat = 0x85 || c.toNat = 0xA0 || c.toNat = 0x1680
    || (0x2000 ≤ c.toNat && c.toNat ≤ 0x200A)
    || c.toNat = 0x2028 || c.toNat = 0x2029 || c.toNat = 0x202F
    || c.toNat = 0x205F || c.toNat = 0x3000

/-- Go `strings.TrimSpace`: drop leading and trailing white space. -/
def TrimSpace (s : String) : String :=
  String.mk (((s.data.dropWhile isSpace).reverse.dropWhile isSpace).reverse)

/-- Go `strings.ToLower`.  Only ASCII letters are mapped; the result is only ever
compared with `grpc`, `nats` and `http`, and no non-ASCII letter lower-cases to
a letter of these words. -/
def ToLower (s : String) : String := String.mk (s.data.map Char.toLower)

/-- Go `strings.Contains(s, ".")`. -/
def containsDot (s : String) : Bool := s.data.contains '.'

/-- Go `strings.ReplaceAll` for one-character patterns. -/
def replaceChar (s : String) (old new : Char) : String :=
  String.mk (s.data.map (fun c => if c = old then new else c))

/-- Decimal digits of `n`, zero-padded on the left to at least `width`. -/
def padDigits (width n : Nat) : String :=
  let d := toString n
  String.mk (List.replicate (width - d.length) '0') ++ d

/-- A wall-clock reading: the UTC civil time and the Unix time in nanoseconds. -/
structure Time where
  year : Nat
  month : Nat
  day : Nat
  hour : Nat
  minute : Nat
  second : Nat
  unixNano : Int

/-- The Go expression `t.UTC().Format(time.RFC3339)`. -/
def formatRFC3339 (t : Time) : String :=
  padDigits 4 t.year ++ "-" ++ padDigits 2 t.month ++ "-" ++ padDigits 2 t.day ++ "T"
    ++ padDigits 2 t.hour ++ ":" ++ padDigits 2 t.minute ++ ":" ++ padDigits 2 t.second ++ "Z"

/-- One use of the system random source: `rand.Read` either fails (`none`) or
fills the buffer with the given bytes. -/
structure Entropy where
  bytes : Option (List Nat)
  clock : Time

/-- Lower-case hexadecimal digit of a nibble. -/
def hexDigit (n : Nat) : Char :=
  if n % 16 < 10 then Char.ofNat (48 + n % 16) else Char.ofNat (87 + n % 16)

/-- Go `hex.EncodeToString`. -/
def hexEncode (buf : List Nat) : String :=
  String.mk (buf.flatMap (fun b => [hexDigit ((b % 256) / 16), hexDigit (b % 16)]))

/-- The 16-byte buffer `make([]byte, 16)` after `rand.Read` filled it. -/
def fillBuffer (src : List Nat) : List Nat :=
  (List.range 16).map (fun i => src.getD i 0 % 256)

/-- Source function `newMessageID` (types.go). -/
def newMessageID (e : Entropy) : String :=
  match e.bytes with
  | none => "msg-" ++ toString e.clock.unixNano
  | some src => hexEncode (fillBuffer src)

/-- The first `n` characters of a string (`s[:n]` on ASCII text). -/
def takeChars (n : Nat) (s : String) : String := String.mk (s.data.take n)

/-! ## Envelope and error model (types.go) -/

/-- The supported protocol version `MIGVersion`. -/
def MIGVersion : String := "0.1"

def ErrorInvalidRequest : String := "MIG_INVALID_REQUEST"
def ErrorUnauthorized : String := "MIG_UNAUTHORIZED"
def ErrorForbidden : String := "MIG_FORBIDDEN"
def ErrorNotFound : String := "MIG_NOT_FOUND"
def ErrorUnsupportedCapability : String := "MIG_UNSUPPORTED_CAPABILITY"
def ErrorVersionMismatch : String := "MIG_VERSION_MISMATCH"
def ErrorTimeout : String := "MIG_TIMEOUT"
def ErrorRateLimited : String := "MIG_RATE_LIMITED"
def ErrorBackpressure : String := "MIG_BACKPRESSURE"
def ErrorUnavailable : String := "MIG_UNAVAILABLE"
def ErrorInternal : String := "MIG_INTERNAL"

/-- The canonical MIG v0.1 message envelope header. -/
structure MessageHeader where
  MIGVersion : String
  MessageID : String
  Timestamp : String
  TenantID : String
  SessionID : String
  Traceparent : String
  IdempotencyKey : String
  DeadlineMS : Int
  Meta : Option (GoMap Value)

/-- The typed error of the engine (the `details` map is never set by the core). -/
structure MigError where
  Code : String
  Message : String
  Retryable : Bool
deriving DecidableEq

/-- The nondeterministic inputs one operation consumes. -/
structure Env where
  /-- The reading of `time.Now()` passed to `Normalize`. -/
  now : Time
  /-- The random source used when `Normalize` generates a message id. -/
  idSource : Entropy
  /-- The second clock reading of an operation (audit or publish timestamp). -/
  later : Time
  /-- The random source used for generated event and entity ids. -/
  auxSource : Entropy
  /-- True when the request context is done (deadline passed or caller gone)
  and the `select` of `Invoke` takes that branch. -/
  ctxDone : Bool

/-- Go `%q` for the version text of the error message (escapes not modelled). -/
def quoted (s : String) : String := "\"" ++ s ++ "\""

/-- Source method `MessageHeader.Normalize` (types.go).  The receiver is updated in
place, also on the error paths, so the header after the call is returned along
with the error (if any). -/
def Normalize (env : Env) (h : MessageHeader) : MessageHeader × Option String :=
  let h1 := if h.MIGVersion = "" then { h with MIGVersion := MIGVersion } else h
  if h1.MIGVersion ≠ MIGVersion then
    (h1, some ("unsupported mig_version " ++ quoted h1.MIGVersion))
  else
    let h2 := if h1.MessageID = "" then { h1 with MessageID := newMessageID env.idSource } else h1
    let h3 := if h2.Timestamp = "" then { h2 with Timestamp := formatRFC3339 env.now } else h2
    if h3.TenantID = "" then
      (h3, some "tenant_id is required")
    else
      let h4 := if h3.DeadlineMS ≤ 0 then { h3 with DeadlineMS := 30000 } else h3
      let h5 := if h4.Meta.isNone then { h4 with Meta := some GoMap.empty } else h4
      (h5, none)

/-- Source method `MessageHeader.AddIDGMeta` (types.go). -/
def AddIDGMeta (h : MessageHeader) (productTier : String) : MessageHeader :=
  let m := match h.Meta with
    | none => GoMap.empty
    | some m => m
  let m := m.insert "idg.product_tier" (Value.str productTier)
  let m := m.insert "idg.meter_key" (Value.str "invocations_capability_tier")
  { h with Meta := some m }

/-- Source function `invalid` (service.go). -/
def invalid (msg : String) : MigError :=
  { Code := ErrorInvalidRequest, Message := msg, Retryable := false }

/-! ## Wire types (types.go) -/

structure QoSProfile where
  MaxPayloadBytes : Int
  SupportsReplay : Bool
  DeliverySemantics : String
  SupportsOrdering : Bool
deriving DecidableEq

structure CapabilityDescriptor where
  ID : String
  Version : String
  Modes : List String
  InputSchemaURI : String
  OutputSchemaURI : String
  EventTopics : List String
  AuthScopes : List String
  QoS : QoSProfile
deriving DecidableEq

structure HelloRequest where
  Header : MessageHeader
  SupportedVersions : List String
  RequestedBindings : List String
  RequestedFeatures : List String

structure HelloResponse where
  Header : MessageHeader
  SelectedVersion : String
  SelectedBinding : String
  EnabledFeatures : List String
  ServerID : String

structure InvokeRequest where
  Header : MessageHeader
  Capability : String
  Payload : Option (GoMap Value)
  StreamPreference : String

structure InvokeResponse where
  Header : MessageHeader
  Capability : String
  Payload : Option (GoMap Value)
  ResultSchemaURI : String

structure PublishRequest where
  Header : MessageHeader
  Topic : String
  Key : String
  Payload : Option (GoMap Value)

structure PublishAck where
  Header : MessageHeader
  Topic : String
  EventID : String
  Sequence : Int
  Accepted : Bool

structure EventMessage where
  Header : MessageHeader
  Topic : String
  EventID : String
  Sequence : Int
  Payload : Option (GoMap Value)
  PublishedAt : String
  Replay : Bool

structure CancelRequest where
  Header : MessageHeader
  TargetMessageID : String
  Reason : String

structure CancelAck where
  Header : MessageHeader
  TargetMessageID : String
  Accepted : Bool
  Status : String

structure HeartbeatRequest where
  Header : MessageHeader
  IntervalMS : Int

structure CapabilityUpsertRequest where
  Descriptor : CapabilityDescriptor

structure SchemaUpsertRequest where
  URI : String
  Schema : Option (GoMap Value)

structure QuotaRequest where
  TenantID : String
  MaxInvocations : Int
deriving DecidableEq

structure QuotaResponse where
  TenantID : String
  MaxInvocations : Int
deriving DecidableEq

structure AuditRecord where
  Actor : String
  TenantID : String
  Capability : String
  Outcome : String
  Timestamp : String
  MessageID : String
deriving DecidableEq

structure ConnectionSnapshot where
  ID : String
  Protocol : String
  Kind : String
  TenantID : String
  Actor : String
  RemoteAddr : String
  StartedAt : String
  Meta : Option (GoMap Value)

structure Org where
  ID : String
  Name : String
deriving DecidableEq

structure Tenant where
  ID : String
  OrgID : String
  Name : String
deriving DecidableEq

structure Gateway where
  ID : String
  TenantID : String
  Region : String
  Binding : String
deriving DecidableEq

/-! ## Principals (auth.go) -/

/-- The authenticated caller; `Scopes` is the set `map[string]struct{}`. -/
structure Principal where
  Subject : String
  TenantID : String
  Scopes : List String
  Authenticated : Bool
deriving DecidableEq

/-- Source function `AnonymousPrincipal` (auth.go). -/
def AnonymousPrincipal : Principal :=
  { Subject := "anonymous", TenantID := "", Scopes := [], Authenticated := false }

/-- Source method `Principal.HasAnyScope` (auth.go). -/
def Principal.HasAnyScope (p : Principal) (required : List String) : Bool :=
  if !p.Authenticated then true
  else if required.length = 0 then true
  else required.any (fun scope => p.Scopes.contains scope)

/-! ## Service state (service.go) -/

/-- A subscriber channel `chan EventMessage` of capacity 32, created by
`Subscribe` for `topic`. -/
structure Chan where
  topic : String
  buf : List EventMessage
  closed : Bool

/-- The capacity of a subscriber channel (`make(chan EventMessage, 32)`). -/
def chanCapacity : Nat := 32

/-- A message handed to the NATS connection by the event mirror. -/
structure NatsMessage where
  subject : String
  event : EventMessage

/-- The state of `Service`.  Channels live in the heap `chans` and are named by
their index; `subscribers` holds, per topic, the set of channel names.
`natsConn` and `auditLog` are `none` when the resource is `nil`, otherwise
they hold what has been written to it.  `metrics` only records whether a
recorder is attached: the recorder itself is an external counter sink. -/
structure Service where
  serverID : String
  metrics : Bool
  capabilities : GoMap CapabilityDescriptor
  schemas : GoMap (Option (GoMap Value))
  events : GoMap (List EventMessage)
  subscribers : GoMap (List Nat)
  idempotency : GoMap InvokeResponse
  cancelled : GoMap String
  quotas : GoMap Int
  audit : List AuditRecord
  connections : GoMap ConnectionSnapshot
  tenantInvocations : GoMap Int
  capabilityInvocations : GoMap Int
  orgs : GoMap Org
  tenants : GoMap Tenant
  gateways : GoMap Gateway
  natsBinding : Bool
  natsConn : Option (List NatsMessage)
  auditLog : Option (List AuditRecord)
  chans : List Chan

structure ServiceOptions where
  NATSURL : String
  AuditLogPath : String

/-- The capability registered by `bootstrapDefaults`. -/
def bootstrapCapability : CapabilityDescriptor :=
  { ID := "observatory.models.infer"
    Version := "1.0.0"
    Modes := ["unary", "server_stream"]
    InputSchemaURI := "schema://observatory/models/infer-input/v1"
    OutputSchemaURI := "schema://observatory/models/infer-output/v1"
    EventTopics := ["observatory.inference.completed"]
    AuthScopes := ["capability:infer"]
    QoS := { MaxPayloadBytes := 1024 * 1024, SupportsReplay := true,
             DeliverySemantics := "at_least_once", SupportsOrdering := true } }

/-- The schema documents registered by `bootstrapDefaults`. -/
def bootstrapSchema (field : String) : Option (GoMap Value) :=
  some [("type", Value.str "object"),
        ("properties", Value.obj [(field, Value.obj [("type", Value.str "string")])]),
        ("required", Value.arr [Value.str field])]

/-- Source function `NewServiceWithOptions` followed by `bootstrapDefaults`;
`natsOk` and `fileOk` say whether connecting to NATS and opening the audit file
succeed. -/
def NewServiceWithOptions (opts : ServiceOptions) (natsOk fileOk : Bool) :
    Except String Service :=
  if opts.NATSURL ≠ "" ∧ natsOk = false then Except.error "connect nats"
  else if opts.AuditLogPath ≠ "" ∧ fileOk = false then Except.error "open audit log"
  else Except.ok
    { serverID := "migd-core"
      metrics := false
      capabilities := (GoMap.empty).insert "observatory.models.infer" bootstrapCapability
      schemas := ((GoMap.empty).insert "schema://observatory/models/infer-input/v1"
          (bootstrapSchema "input")).insert "schema://observatory/models/infer-output/v1"
          (bootstrapSchema "result")
      events := GoMap.empty
      subscribers := GoMap.empty
      idempotency := GoMap.empty
      cancelled := GoMap.empty
      quotas := GoMap.empty
      audit := []
      connections := GoMap.empty
      tenantInvocations := GoMap.empty
      capabilityInvocations := GoMap.empty
      orgs := GoMap.empty
      tenants := GoMap.empty
      gateways := GoMap.empty
      natsBinding := false
      natsConn := if opts.NATSURL ≠ "" then some [] else none
      auditLog := if opts.AuditLogPath ≠ "" then some [] else none
      chans := [] }

/-- Source function `NewService`: the service with empty options. -/
def NewService : Service :=
  { serverID := "migd-core"
    metrics := false
    capabilities := (GoMap.empty).insert "observatory.models.infer" bootstrapCapability
    schemas := ((GoMap.empty).insert "schema://observatory/models/infer-input/v1"
        (bootstrapSchema "input")).insert "schema://observatory/models/infer-output/v1"
        (bootstrapSchema "result")
    events := GoMap.empty
    subscribers := GoMap.empty
    idempotency := GoMap.empty
    cancelled := GoMap.empty
    quotas := GoMap.empty
    audit := []
    connections := GoMap.empty
    tenantInvocations := GoMap.empty
    capabilityInvocations := GoMap.empty
    orgs := GoMap.empty
    tenants := GoMap.empty
    gateways := GoMap.empty
    natsBinding := false
    natsConn := none
    auditLog := none
    chans := [] }

/-! ## Operations (service.go) -/

/-- The first requested binding that is one of `grpc`, `nats`, `http` after
trimming and lower-casing, else `http` (the loop of `Hello`). -/
def selectBinding : List String → String
  | [] => "http"
  | b :: rest =>
    let candidate := ToLower (TrimSpace b)
    if candidate = "grpc" ∨ candidate = "nats" ∨ candidate = "http" then candidate
    else selectBinding rest

/-- Source method `Service.Hello`. -/
def Hello (env : Env) (s : Service) (req : HelloRequest) : Except MigError HelloResponse :=
  match Normalize env req.Header with
  | (_, some err) => Except.error (invalid err)
  | (head, none) =>
    let supported := if req.SupportedVersions.length = 0 then [MIGVersion]
      else req.SupportedVersions
    let compatible := supported.any (fun v => TrimSpace v = MIGVersion)
    if !compatible then
      Except.error { Code := ErrorVersionMismatch, Message := "no compatible MIG version",
                     Retryable := false }
    else
      Except.ok
        { Header := AddIDGMeta head "core"
          SelectedVersion := MIGVersion
          SelectedBinding := selectBinding req.RequestedBindings
          EnabledFeatures := req.RequestedFeatures
          ServerID := s.serverID }

/-- The cache key `fmt.Sprintf("%s:%s:%s", tenant, capability, key)` of `Invoke`. -/
def idempotencyKey (tenant capability key : String) : String :=
  tenant ++ ":" ++ capability ++ ":" ++ key

/-- A nil map stored in an `interface{}` is rendered as JSON null. -/
def payloadValue : Option (GoMap Value) → Value
  | none => Value.null
  | some kvs => Value.obj kvs

/-- The payload produced by the reference dispatcher of `Invoke`. -/
def echoPayload (req : InvokeRequest) (capability : String) (capDesc : CapabilityDescriptor) :
    Option (GoMap Value) :=
  some [("result", Value.str "ok"),
        ("echo", payloadValue req.Payload),
        ("capability", Value.str capability),
        ("delivery_qos", Value.str capDesc.QoS.DeliverySemantics)]

/-- What the first critical section of `Invoke` decides. -/
inductive InvokeDecision where
  | fail (e : MigError)
  | cached (resp : InvokeResponse)
  | proceed (head : MessageHeader) (capability : String) (capDesc : CapabilityDescriptor)

/-- Source method `Service.Invoke`, lines 223-270: header, capability, scope,
cancellation, idempotency cache and quota, in this order. -/
def invokeGate (env : Env) (s : Service) (capability : String) (req : InvokeRequest)
    (principal : Principal) : InvokeDecision :=
  match Normalize env req.Header with
  | (_, some err) => InvokeDecision.fail (invalid err)
  | (head0, none) =>
    let head := AddIDGMeta head0 "core"
    let capability := if capability = "" then req.Capability else capability
    if capability = "" then InvokeDecision.fail (invalid "capability is required")
    else
      match s.capabilities.lookup capability with
      | none => InvokeDecision.fail
          { Code := ErrorUnsupportedCapability, Message := "capability not found",
            Retryable := false }
      | some capDesc =>
        if !principal.HasAnyScope capDesc.AuthScopes then
          InvokeDecision.fail
            { Code := ErrorForbidden, Message := "insufficient capability scope",
              Retryable := false }
        else
          match s.cancelled.lookup head.MessageID with
          | some reason => InvokeDecision.fail
              { Code := ErrorTimeout, Message := "invocation cancelled: " ++ reason,
                Retryable := true }
          | none =>
            let hit := if head.IdempotencyKey ≠ "" then
                s.idempotency.lookup (idempotencyKey head.TenantID capability head.IdempotencyKey)
              else none
            match hit with
            | some cached => InvokeDecision.cached { cached with Header := head }
            | none =>
              match s.quotas.lookup head.TenantID with
              | some quota =>
                if s.tenantInvocations.count head.TenantID ≥ quota then
                  InvokeDecision.fail
                    { Code := ErrorRateLimited, Message := "tenant quota exceeded",
                      Retryable := true }
                else InvokeDecision.proceed head capability capDesc
              | none => InvokeDecision.proceed head capability capDesc

/-- Source method `Service.writeAuditLogLocked`. -/
def writeAuditLogLocked (s : Service) (record : AuditRecord) : Service :=
  match s.auditLog with
  | none => s
  | some written => { s with auditLog := some (written ++ [record]) }

/-- Source method `Service.Invoke`, lines 272-323: the deadline race and, when the
payload wins, the second critical section.  The `select` between the request
context and the payload channel is decided by `env.ctxDone`; the reference
dispatcher never reports an error, so the branch `out.err != nil` is dead. -/
def invokeCommit (env : Env) (s : Service) (head : MessageHeader) (capability : String)
    (capDesc : CapabilityDescriptor) (req : InvokeRequest) (actor : String) :
    Service × Except MigError InvokeResponse :=
  if env.ctxDone then
    (s, Except.error { Code := ErrorTimeout, Message := "deadline exceeded", Retryable := true })
  else
    let resp : InvokeResponse :=
      { Header := head
        Capability := capability
        Payload := echoPayload req capability capDesc
        ResultSchemaURI := capDesc.OutputSchemaURI }
    let s1 := if head.IdempotencyKey ≠ "" then
        { s with idempotency :=
            s.idempotency.insert (idempotencyKey head.TenantID capability head.IdempotencyKey) resp }
      else s
    let s2 := { s1 with tenantInvocations :=
      s1.tenantInvocations.insert head.TenantID (s1.tenantInvocations.count head.TenantID + 1) }
    let s3 := { s2 with capabilityInvocations :=
      s2.capabilityInvocations.insert capability (s2.capabilityInvocations.count capability + 1) }
    let record : AuditRecord :=
      { Actor := actor
        TenantID := head.TenantID
        Capability := capability
        Outcome := "success"
        Timestamp := formatRFC3339 env.later
        MessageID := head.MessageID }
    let s4 := { s3 with audit := s3.audit ++ [record] }
    (writeAuditLogLocked s4 record, Except.ok resp)

/-- Source method `Service.Invoke`. -/
def Invoke (env : Env) (s : Service) (capability : String) (req : InvokeRequest)
    (actor : String) (principal : Principal) : Service × Except MigError InvokeResponse :=
  match invokeGate env s capability req principal with
  | InvokeDecision.fail e => (s, Except.error e)
  | InvokeDecision.cached resp => (s, Except.ok resp)
  | InvokeDecision.proceed head cap capDesc => invokeCommit env s head cap capDesc req actor

/-- Source method `Service.SetQuota`. -/
def SetQuota (s : Service) (req : QuotaRequest) : Service × Except MigError QuotaResponse :=
  if req.TenantID = "" then (s, Except.error (invalid "tenant_id is required"))
  else if req.MaxInvocations ≤ 0 then (s, Except.error (invalid "max_invocations must be > 0"))
  else
    ({ s with quotas := s.quotas.insert req.TenantID req.MaxInvocations },
     Except.ok { TenantID := req.TenantID, MaxInvocations := req.MaxInvocations })

/-- The message id a `Cancel` call targets: the argument, or the request field when
the argument is empty. -/
def effectiveTarget (messageID : String) (req : CancelRequest) : String :=
  if messageID = "" then req.TargetMessageID else messageID

/-- Source method `Service.Cancel`. -/
def Cancel (env : Env) (s : Service) (req : CancelRequest) (messageID : String) :
    Service × Except MigError CancelAck :=
  match Normalize env req.Header with
  | (_, some err) => (s, Except.error (invalid err))
  | (head0, none) =>
    if effectiveTarget messageID req = "" then
      (s, Except.error (invalid "target message id is required"))
    else
      ({ s with cancelled := s.cancelled.insert (effectiveTarget messageID req) req.Reason },
       Except.ok { Header := AddIDGMeta head0 "core"
                   TargetMessageID := effectiveTarget messageID req
                   Accepted := true
                   Status := "cancelled" })

/-- The outcome of an operation that may also end in a runtime panic. -/
inductive Outcome (α : Type) where
  | ok (value : α)
  | error (e : MigError)
  | panic (reason : String)

/-- Source function `sanitizeNATSSubject`. -/
def sanitizeNATSSubject (value : String) : String :=
  replaceChar (replaceChar value ' ' '_') '/' '.'

/-- Source function `sanitizeNATSSegment`. -/
def sanitizeNATSSegment (value : String) : String :=
  let value := TrimSpace value
  if value = "" then "unknown" else sanitizeNATSSubject value

/-- Source method `Service.publishEventToNATS`: hand the event to the connection, if
there is one, on the mirror subject. -/
def publishEventToNATS (s : Service) (event : EventMessage) : Service :=
  match s.natsConn with
  | none => s
  | some sent =>
    let subject := "mig.v0_1." ++ sanitizeNATSSegment event.Header.TenantID ++ ".events."
      ++ sanitizeNATSSubject event.Topic
    { s with natsConn := some (sent ++ [{ subject := subject, event := event }]) }

/-- The non-blocking send `select { case sub <- event: default: }`: a full channel
drops the event, a closed channel panics (`none`). -/
def sendNonBlocking (c : Chan) (e : EventMessage) : Option Chan :=
  if c.closed then none
  else if c.buf.length < chanCapacity then some { c with buf := c.buf ++ [e] }
  else some c

/-- The fan-out loop of `Publish` over the subscriber set of the topic; the flag is
true when a send panicked, which ends the loop. -/
def fanOut : List Chan → List Nat → EventMessage → List Chan × Bool
  | chans, [], _ => (chans, false)
  | chans, id :: rest, e =>
    match chans.get? id with
    | none => fanOut chans rest e
    | some c =>
      match sendNonBlocking c e with
      | none => (chans, true)
      | some c1 => fanOut (chans.set id c1) rest e

/-- Source method `Service.Publish`, lines 345-371: the critical section.  The event
gets the next sequence number of its topic, is appended to the log, offered to
every subscriber of the topic and mirrored to NATS. -/
def publishCommit (env : Env) (s : Service) (head : MessageHeader) (topic : String)
    (req : PublishRequest) : Service × Outcome PublishAck :=
  let log := (s.events.lookup topic).getD []
  let sequence : Int := (log.length : Int) + 1
  let event : EventMessage :=
    { Header := head
      Topic := topic
      EventID := newMessageID env.auxSource
      Sequence := sequence
      Payload := req.Payload
      PublishedAt := formatRFC3339 env.later
      Replay := false }
  let s1 := { s with events := s.events.insert topic (log ++ [event]) }
  match fanOut s1.chans ((s1.subscribers.lookup topic).getD []) event with
  | (chans, true) => ({ s1 with chans := chans }, Outcome.panic "send on closed channel")
  | (chans, false) =>
    (publishEventToNATS { s1 with chans := chans } event,
     Outcome.ok { Header := head, Topic := topic, EventID := event.EventID,
                  Sequence := sequence, Accepted := true })

/-- The topic a `Publish` call addresses: the argument, or the request field when
the argument is empty. -/
def effectiveTopic (topic : String) (req : PublishRequest) : String :=
  if topic = "" then req.Topic else topic

/-- Source method `Service.Publish`. -/
def Publish (env : Env) (s : Service) (topic : String) (req : PublishRequest) :
    Service × Outcome PublishAck :=
  match Normalize env req.Header with
  | (_, some err) => (s, Outcome.error (invalid err))
  | (head0, none) =>
    if effectiveTopic topic req = "" then (s, Outcome.error (invalid "topic is required"))
    else if !containsDot (effectiveTopic topic req) then
      (s, Outcome.error (invalid "topic names must be namespaced"))
    else publishCommit env s (AddIDGMeta head0 "core") (effectiveTopic topic req) req

/-- Go `strconv.Atoi`: an optional sign followed by one or more decimal digits, in
the range of a 64-bit `int`; `none` is the error result. -/
def Atoi (s : String) : Option Int :=
  let body := match s.data with
    | '-' :: r => r
    | '+' :: r => r
    | r => r
  if body.length = 0 ∨ !(body.all Char.isDigit) then none
  else
    let n : Nat := body.foldl (fun acc c => acc * 10 + (c.toNat - 48)) 0
    let v : Int := if s.data.head? = some '-' then -(n : Int) else (n : Int)
    if v < -(2 : Int) ^ 63 ∨ v > (2 : Int) ^ 63 - 1 then none else some v

/-- The start index `Subscribe` derives from `resume_cursor`: 0 for the empty text,
else the `Atoi` value when it is not negative; `none` is the error result. -/
def parseCursor (resumeCursor : String) : Option Int :=
  if resumeCursor ≠ "" then
    match Atoi resumeCursor with
    | none => none
    | some i => if i < 0 then none else some i
  else some 0

/-- Source method `Service.Subscribe`, lines 393-417: the critical section.  Returns
the replay slice (a copy of the log from `start`, clamped to the tail, with
`Replay` set) and the name of the new channel, registered for `topic`. -/
def subscribeCommit (s : Service) (topic : String) (start0 : Int) :
    Service × (List EventMessage × Nat) :=
  let all := (s.events.lookup topic).getD []
  let start : Nat := if start0.toNat > all.length then all.length else start0.toNat
  let snapshot := (all.drop start).map (fun e => { e with Replay := true })
  let ch := s.chans.length
  let subs := (s.subscribers.lookup topic).getD []
  ({ s with subscribers := s.subscribers.insert topic (subs ++ [ch])
            chans := s.chans ++ [{ topic := topic, buf := [], closed := false }] },
   (snapshot, ch))

/-- Source method `Service.Subscribe`: the replay slice and the new channel; the
unsubscribe closure is the operation `Unsubscribe` on that channel. -/
def Subscribe (s : Service) (topic resumeCursor : String) :
    Service × Except MigError (List EventMessage × Nat) :=
  if topic = "" then (s, Except.error (invalid "topic is required"))
  else if !containsDot topic then (s, Except.error (invalid "topic names must be namespaced"))
  else
    match parseCursor resumeCursor with
    | none => (s, Except.error (invalid "resume_cursor must be a non-negative integer"))
    | some start0 => ((subscribeCommit s topic start0).1, Except.ok (subscribeCommit s topic start0).2)

/-- The closure `unsub` returned by `Subscribe` for channel `ch`: remove the channel
from the subscriber set of its topic, then `close(ch)`; closing a closed channel
panics (result `true`).  A name that no `Subscribe` returned has no closure. -/
def Unsubscribe (s : Service) (ch : Nat) : Service × Bool :=
  match s.chans.get? ch with
  | none => (s, false)
  | some c =>
    let s1 := match s.subscribers.lookup c.topic with
      | none => s
      | some subs =>
        { s with subscribers := s.subscribers.insert c.topic (subs.filter (fun x => x ≠ ch)) }
    if c.closed then (s1, true)
    else ({ s1 with chans := s1.chans.set ch { c with closed := true } }, false)

/-- A subscriber takes the next event from its channel, if one is buffered. -/
def Receive (s : Service) (ch : Nat) : Service × Option EventMessage :=
  match s.chans.get? ch with
  | none => (s, none)
  | some c =>
    match c.buf with
    | [] => (s, none)
    | e :: rest => ({ s with chans := s.chans.set ch { c with buf := rest } }, some e)

/-- Source method `Service.AddCapability`. -/
def AddCapability (s : Service) (req : CapabilityUpsertRequest) : Service × Option MigError :=
  if req.Descriptor.ID = "" ∨ req.Descriptor.Version = "" then
    (s, some (invalid "descriptor.id and descriptor.version are required"))
  else if req.Descriptor.InputSchemaURI = "" ∨ req.Descriptor.OutputSchemaURI = "" then
    (s, some (invalid "schema URIs are required"))
  else
    ({ s with capabilities := s.capabilities.insert req.Descriptor.ID req.Descriptor }, none)

/-- Source method `Service.AddSchema`. -/
def AddSchema (s : Service) (req : SchemaUpsertRequest) : Service × Option MigError :=
  if req.URI = "" then (s, some (invalid "uri is required"))
  else
    match req.Schema with
    | none => (s, some (invalid "schema is required"))
    | some [] => (s, some (invalid "schema is required"))
    | some doc => ({ s with schemas := s.schemas.insert req.URI (some doc) }, none)

/-- Source method `Service.CreateOrg`. -/
def CreateOrg (env : Env) (s : Service) (org : Org) : Service × Except MigError Org :=
  if org.Name = "" then (s, Except.error (invalid "name is required"))
  else
    let org := if org.ID = "" then
        { org with ID := "org-" ++ takeChars 12 (newMessageID env.auxSource) }
      else org
    ({ s with orgs := s.orgs.insert org.ID org }, Except.ok org)

/-- Source method `Service.CreateTenant`. -/
def CreateTenant (env : Env) (s : Service) (tenant : Tenant) :
    Service × Except MigError Tenant :=
  if tenant.Name = "" ∨ tenant.OrgID = "" then
    (s, Except.error (invalid "name and org_id are required"))
  else
    let tenant := if tenant.ID = "" then
        { tenant with ID := "tenant-" ++ takeChars 12 (newMessageID env.auxSource) }
      else tenant
    if !s.orgs.contains tenant.OrgID then
      (s, Except.error { Code := ErrorNotFound, Message := "org not found", Retryable := false })
    else ({ s with tenants := s.tenants.insert tenant.ID tenant }, Except.ok tenant)

/-- Source method `Service.CreateGateway`. -/
def CreateGateway (env : Env) (s : Service) (gw : Gateway) :
    Service × Except MigError Gateway :=
  if gw.TenantID = "" ∨ gw.Region = "" ∨ gw.Binding = "" then
    (s, Except.error (invalid "tenant_id, region, and binding are required"))
  else
    let gw := if gw.ID = "" then
        { gw with ID := "gw-" ++ takeChars 12 (newMessageID env.auxSource) }
      else gw
    if !s.tenants.contains gw.TenantID then
      (s, Except.error { Code := ErrorNotFound, Message := "tenant not found", Retryable := false })
    else ({ s with gateways := s.gateways.insert gw.ID gw }, Except.ok gw)

/-- Source method `Service.RegisterConnection` (connections.go): the new state and
the connection id; the returned closure is `UnregisterConnection` on that id. -/
def RegisterConnection (env : Env) (s : Service) (conn : ConnectionSnapshot) :
    Service × String :=
  let conn := if conn.ID = "" then
      { conn with ID := "conn-" ++ takeChars 12 (newMessageID env.auxSource) }
    else conn
  let conn := if conn.StartedAt = "" then { conn with StartedAt := formatRFC3339 env.now }
    else conn
  let conn := if conn.Meta.isNone then { conn with Meta := some GoMap.empty } else conn
  ({ s with connections := s.connections.insert conn.ID conn }, conn.ID)

/-- The closure returned by `RegisterConnection` for connection id `id`. -/
def UnregisterConnection (s : Service) (id : String) : Service :=
  { s with connections := s.connections.erase id }

/-- Source method `Service.SetMetrics`. -/
def SetMetrics (s : Service) (attached : Bool) : Service := { s with metrics := attached }

/-- Source method `Service.Close`. -/
def Close (s : Service) : Service :=
  { s with natsBinding := false, natsConn := none, auditLog := none }

/-- Source method `Service.StartNATSBinding` (nats_binding.go); `subscribeOk` says
whether every subject subscription succeeds. -/
def StartNATSBinding (s : Service) (subscribeOk : Bool) : Service × Bool :=
  if s.natsBinding then (s, true)
  else if s.natsConn.isNone then (s, false)
  else if !subscribeOk then (s, false)
  else ({ s with natsBinding := true }, true)

/-! ## The service as a state machine -/

/-- One call of the service API (or of a closure it returned).  The read-only
calls (`Hello`, `Discover`, `Heartbeat`, `ListCapabilities`, `ValidatePolicy`,
`AuditExport`, `Usage`, `Connections`, `ConformanceHealth`) are the constructor
`query`. -/
inductive Op where
  | query
  | invoke (env : Env) (capability : String) (req : InvokeRequest) (actor : String)
      (principal : Principal)
  | publish (env : Env) (topic : String) (req : PublishRequest)
  | subscribe (topic resumeCursor : String)
  | unsubscribe (ch : Nat)
  | receive (ch : Nat)
  | cancel (env : Env) (req : CancelRequest) (messageID : String)
  | setQuota (req : QuotaRequest)
  | addCapability (req : CapabilityUpsertRequest)
  | addSchema (req : SchemaUpsertRequest)
  | createOrg (env : Env) (org : Org)
  | createTenant (env : Env) (tenant : Tenant)
  | createGateway (env : Env) (gw : Gateway)
  | registerConnection (env : Env) (conn : ConnectionSnapshot)
  | unregisterConnection (id : String)
  | setMetrics (attached : Bool)
  | startNATSBinding (subscribeOk : Bool)
  | close

/-- The state after one call. -/
def step (s : Service) : Op → Service
  | Op.query => s
  | Op.invoke env capability req actor principal => (Invoke env s capability req actor principal).1
  | Op.publish env topic req => (Publish env s topic req).1
  | Op.subscribe topic resumeCursor => (Subscribe s topic resumeCursor).1
  | Op.unsubscribe ch => (Unsubscribe s ch).1
  | Op.receive ch => (Receive s ch).1
  | Op.cancel env req messageID => (Cancel env s req messageID).1
  | Op.setQuota req => (SetQuota s req).1
  | Op.addCapability req => (AddCapability s req).1
  | Op.addSchema req => (AddSchema s req).1
  | Op.createOrg env org => (CreateOrg env s org).1
  | Op.createTenant env tenant => (CreateTenant env s tenant).1
  | Op.createGateway env gw => (CreateGateway env s gw).1
  | Op.registerConnection env conn => (RegisterConnection env s conn).1
  | Op.unregisterConnection id => UnregisterConnection s id
  | Op.setMetrics attached => SetMetrics s attached
  | Op.startNATSBinding subscribeOk => (StartNATSBinding s subscribeOk).1
  | Op.close => Close s

/-- The state after a sequence of calls. -/
def run (s : Service) (ops : List Op) : Service := ops.foldl step s

/-- The states reachable from `NewService`. -/
def Reachable (s : Service) : Prop := ∃ ops : List Op, run NewService ops = s

/-! ## Read-only operations (service.go) -/

/-- Go string comparison `a < b` on the characters: lexicographic by code point,
which on valid UTF-8 text is the byte-wise order Go uses. -/
def lessChars : List Char → List Char → Bool
  | _, [] => false
  | [], _ :: _ => true
  | a :: as, b :: bs =>
    if a.toNat < b.toNat then true
    else if b.toNat < a.toNat then false
    else lessChars as bs

/-- Go string comparison `a < b`. -/
def strLess (a b : String) : Bool := lessChars a.data b.data

/-- Go `strings.Contains(s, substr)`. -/
def Contains (s substr : String) : Bool := decide (substr.data <:+: s.data)

/-- Go `sort.Slice(xs, less)`: the slice reordered so that no element is less than
an element before it.  The library sort is not stable; the model is insertion
sort, which agrees with every correct sort whenever no two elements are
equivalent. -/
def sortSlice {α : Type} (less : α → α → Bool) (xs : List α) : List α :=
  xs.insertionSort (fun a b => less b a = false)

structure DiscoverRequest where
  Header : MessageHeader
  Query : String
  IncludeSchemaRefs : Bool
  IncludeQoS : Bool

structure DiscoverResponse where
  Header : MessageHeader
  Capabilities : List CapabilityDescriptor

/-- The loop body of `Discover`: whether a descriptor is appended to the result. -/
def discoverKeeps (query : String) (principal : Principal) (capDesc : CapabilityDescriptor) :
    Bool :=
  if query ≠ "" ∧ !Contains capDesc.ID query then false
  else if !principal.HasAnyScope capDesc.AuthScopes then false
  else true

/-- Source method `Service.Discover`.  The map is iterated in storage order; the
result is sorted by id afterwards. -/
def Discover (env : Env) (s : Service) (req : DiscoverRequest) (principal : Principal) :
    Service × Except MigError DiscoverResponse :=
  match Normalize env req.Header with
  | (_, some err) => (s, Except.error (invalid err))
  | (head0, none) =>
    (s, Except.ok
      { Header := AddIDGMeta head0 "core"
        Capabilities := sortSlice (fun a b => strLess a.ID b.ID)
          (s.capabilities.values.filter (discoverKeeps req.Query principal)) })

structure HeartbeatAck where
  Header : MessageHeader
  SuggestedIntervalMS : Int
  LoadFactor : Rat

/-- Source method `Service.Heartbeat`; the load factor is the exact quotient, float
rounding is not modelled. -/
def Heartbeat (env : Env) (s : Service) (req : HeartbeatRequest) :
    Service × Except MigError HeartbeatAck :=
  match Normalize env req.Header with
  | (_, some err) => (s, Except.error (invalid err))
  | (head0, none) =>
    (s, Except.ok
      { Header := AddIDGMeta head0 "core"
        SuggestedIntervalMS := if req.IntervalMS ≤ 0 then 5000 else req.IntervalMS
        LoadFactor := (s.audit.length : Rat) / 1000 })

structure PolicyValidateRequest where
  TenantID : String
  Capability : String
  Action : String

structure PolicyValidateResponse where
  Allowed : Bool
  Reason : String
deriving DecidableEq

/-- Source method `Service.ValidatePolicy`. -/
def ValidatePolicy (s : Service) (req : PolicyValidateRequest) :
    Service × Except MigError PolicyValidateResponse :=
  if req.TenantID = "" ∨ req.Capability = "" ∨ req.Action = "" then
    (s, Except.error (invalid "tenant_id, capability, and action are required"))
  else if req.Action ≠ "invoke" then
    (s, Except.ok { Allowed := false, Reason := "unsupported action" })
  else if !s.capabilities.contains req.Capability then
    (s, Except.ok { Allowed := false, Reason := "capability does not exist" })
  else (s, Except.ok { Allowed := true, Reason := "" })

/-! ## gRPC status mapping (grpc_server.go) -/

/-- The gRPC status codes used by the binding. -/
inductive GrpcCode where
  | InvalidArgument
  | Unauthenticated
  | PermissionDenied
  | NotFound
  | FailedPrecondition
  | DeadlineExceeded
  | ResourceExhausted
  | Unavailable
  | Internal
deriving DecidableEq

/-- The status code chosen by the `switch` of `grpcStatusFromMigError`. -/
def grpcCodeOf (code : String) : GrpcCode :=
  if code = ErrorInvalidRequest then GrpcCode.InvalidArgument
  else if code = ErrorUnauthorized then GrpcCode.Unauthenticated
  else if code = ErrorForbidden then GrpcCode.PermissionDenied
  else if code = ErrorNotFound ∨ code = ErrorUnsupportedCapability then GrpcCode.NotFound
  else if code = ErrorVersionMismatch then GrpcCode.FailedPrecondition
  else if code = ErrorTimeout then GrpcCode.DeadlineExceeded
  else if code = ErrorRateLimited ∨ code = ErrorBackpressure then GrpcCode.ResourceExhausted
  else if code = ErrorUnavailable then GrpcCode.Unavailable
  else if code = ErrorInternal then GrpcCode.Internal
  else GrpcCode.Internal

/-- Source function `grpcStatusFromMigError`: `none` for a nil error, else the status
code with the message `code: message`. -/
def grpcStatusFromMigError (err : Option MigError) : Option (GrpcCode × String) :=
  match err with
  | none => none
  | some e => some (grpcCodeOf e.Code, e.Code ++ ": " ++ e.Message)

/-! ## The connection registry (connections.go) -/

structure ConnectionFilters where
  TenantID : String
  Kind : String
  Protocol : String
deriving DecidableEq

structure ConnectionSummary where
  Total : Int
  ByProtocol : GoMap Int
  ByKind : GoMap Int
  ByTenant : GoMap Int
  NATSBindingActive : Bool

structure ConnectionsResponse where
  GeneratedAt : String
  Summary : ConnectionSummary
  Connections : List ConnectionSnapshot
  FilterTenant : String
  FilterKind : String
  FilterProto : String

/-- The statement `m[key]++` on a `map[string]int`. -/
def increment (m : GoMap Int) (key : String) : GoMap Int := m.insert key (m.count key + 1)

/-- One iteration of the loop of `Connections` over the registry: a connection
that fails a filter is skipped (`continue`), any other is appended and counted. -/
def connectionsVisit (tenant kind protocol : String)
    (acc : List ConnectionSnapshot × ConnectionSummary) (conn : ConnectionSnapshot) :
    List ConnectionSnapshot × ConnectionSummary :=
  if tenant ≠ "" ∧ conn.TenantID ≠ tenant then acc
  else if kind ≠ "" ∧ conn.Kind ≠ kind then acc
  else if protocol ≠ "" ∧ conn.Protocol ≠ protocol then acc
  else
    let summary := { acc.2 with Total := acc.2.Total + 1 }
    let summary := if conn.Protocol ≠ "" then
        { summary with ByProtocol := increment summary.ByProtocol conn.Protocol }
      else summary
    let summary := if conn.Kind ≠ "" then
        { summary with ByKind := increment summary.ByKind conn.Kind }
      else summary
    let summary := if conn.TenantID ≠ "" then
        { summary with ByTenant := increment summary.ByTenant conn.TenantID }
      else summary
    (acc.1 ++ [conn], summary)

/-- Source method `Service.Connections` (connections.go).  The registry is visited
in storage order and the selection is sorted by `StartedAt`, latest first. -/
def Connections (env : Env) (s : Service) (filters : ConnectionFilters) :
    Service × ConnectionsResponse :=
  let tenant := TrimSpace filters.TenantID
  let kind := TrimSpace filters.Kind
  let protocol := TrimSpace filters.Protocol
  let acc := s.connections.values.foldl (connectionsVisit tenant kind protocol)
    ([], { Total := 0, ByProtocol := GoMap.empty, ByKind := GoMap.empty,
           ByTenant := GoMap.empty, NATSBindingActive := s.natsBinding })
  (s, { GeneratedAt := formatRFC3339 env.now
        Summary := acc.2
        Connections := sortSlice (fun a b => strLess b.StartedAt a.StartedAt) acc.1
        FilterTenant := tenant
        FilterKind := kind
        FilterProto := protocol })

/-! ## Auth projection (auth.go, grpc_server.go, http.go) -/

/-- Go `slices.Sort` on a `[]string`. -/
def sortStrings (xs : List String) : List String := sortSlice strLess xs

/-- Source method `Principal.ScopesList` (auth.go): the keys of the scope set, each
once, sorted. -/
def Principal.ScopesList (p : Principal) : List String := sortStrings p.Scopes.dedup

/-- Source function `tenantFromRequest` (http.go); `tenantHeader` is the value of
the request header `X-Tenant-ID`. -/
def tenantFromRequest (tenantHeader : String) : String :=
  if tenantHeader ≠ "" then TrimSpace tenantHeader else "unknown"

/-- The first statements shared by both reconcilers: `meta` is created when nil and
receives the subject and the sorted scope list of the principal. -/
def annotatePrincipal (head : MessageHeader) (principal : Principal) : MessageHeader :=
  let m := match head.Meta with
    | none => GoMap.empty
    | some m => m
  let m := m.insert "idg.principal_subject" (Value.str principal.Subject)
  let m := m.insert "idg.principal_scopes" (Value.arr (principal.ScopesList.map Value.str))
  { head with Meta := some m }

/-- Source function `applyPrincipalHeader` (auth.go), used by the HTTP and WebSocket
handlers.  The header is updated in place, so it is returned along with the
error (if any); `tenantHeader` is the `X-Tenant-ID` header of the request. -/
def applyPrincipalHeader (head : MessageHeader) (principal : Principal)
    (tenantHeader : String) : MessageHeader × Option MigError :=
  let head := annotatePrincipal head principal
  let head := if head.TenantID = "" then
      (if principal.TenantID ≠ "" then { head with TenantID := principal.TenantID }
       else { head with TenantID := tenantFromRequest tenantHeader })
    else head
  if principal.TenantID ≠ "" ∧ head.TenantID ≠ principal.TenantID then
    (head, some { Code := ErrorForbidden,
                  Message := "tenant_id does not match authenticated principal",
                  Retryable := false })
  else if head.TenantID = "unknown" then
    (head, some { Code := ErrorInvalidRequest, Message := "tenant_id is required",
                  Retryable := false })
  else (head, none)

/-- Source function `applyPrincipalHeaderFromPrincipal` (grpc_server.go), used by the
gRPC handlers. -/
def applyPrincipalHeaderFromPrincipal (head : MessageHeader) (principal : Principal) :
    MessageHeader × Option MigError :=
  let head := annotatePrincipal head principal
  let head := if head.TenantID = "" ∧ principal.TenantID ≠ "" then
      { head with TenantID := principal.TenantID }
    else head
  if principal.TenantID ≠ "" ∧ head.TenantID ≠ principal.TenantID then
    (head, some { Code := ErrorForbidden,
                  Message := "tenant_id does not match authenticated principal",
                  Retryable := false })
  else if head.TenantID = "" then
    (head, some { Code := ErrorInvalidRequest, Message := "tenant_id is required",
                  Retryable := false })
  else (head, none)

/-- Go `strings.HasPrefix`. -/
def HasPrefix (s pre : String) : Bool := pre.data.isPrefixOf s.data

/-- Go `strings.TrimPrefix`. -/
def TrimPrefix (s pre : String) : String :=
  if HasPrefix s pre then String.mk (s.data.drop pre.data.length) else s

/-- The scanner of `strings.Fields`: `cur` holds the characters of the current field
in reverse. -/
def fieldsFrom : List Char → List Char → List String
  | [], cur => if cur.isEmpty then [] else [String.mk cur.reverse]
  | c :: rest, cur =>
    if isSpace c then
      (if cur.isEmpty then fieldsFrom rest [] else String.mk cur.reverse :: fieldsFrom rest [])
    else fieldsFrom rest (c :: cur)

/-- Go `strings.Fields`: the maximal runs of characters that are not white space. -/
def Fields (s : String) : List String := fieldsFrom s.data []

/-- A Go `error` as the auth layer meets it: the sentinel
`context.DeadlineExceeded`, or an error made by `fmt.Errorf` with its text. -/
inductive GoError where
  | deadlineExceeded
  | errorf (msg : String)
deriving DecidableEq

/-- The method `Error()` of an error. -/
def GoError.Error : GoError → String
  | GoError.deadlineExceeded => "context deadline exceeded"
  | GoError.errorf msg => msg

def AuthModeNone : String := "none"
def AuthModeJWT : String := "jwt"

structure AuthConfig where
  Mode : String
  JWTSecret : String
  RequireTenant : Bool
deriving DecidableEq

/-- The JWT library call `jwt.ParseWithClaims` with the key function of
`PrincipalFromAuthHeaders`: from the token text and the secret, the claims of a
token that is valid and signed with HS256, `none` for every other token. -/
def TokenVerifier : Type := String → String → Option (GoMap Value)

/-- Source function `asStringClaim` (auth.go). -/
def asStringClaim (claims : GoMap Value) (key fallback : String) : String :=
  match claims.lookup key with
  | some (Value.str s) => TrimSpace s
  | _ => fallback

/-- The statement `out[scope] = struct{}{}` on a scope set. -/
def addScope (out : List String) (scope : String) : List String :=
  if out.contains scope then out else out ++ [scope]

/-- Source function `scopesFromClaims` (auth.go). -/
def scopesFromClaims (claims : GoMap Value) : List String :=
  let out := match claims.lookup "scope" with
    | some (Value.str scopeString) => (Fields scopeString).foldl addScope []
    | _ => []
  match claims.lookup "scopes" with
  | some (Value.arr typed) =>
    typed.foldl (fun out value =>
      match value with
      | Value.str scope => addScope out (TrimSpace scope)
      | _ => out) out
  | _ => out

/-- Source function `PrincipalFromAuthHeaders` (auth.go); `verify` is the JWT
library. -/
def PrincipalFromAuthHeaders (verify : TokenVerifier) (authorizationHeader tenantHeader : String)
    (cfg : AuthConfig) : Except GoError Principal :=
  let principal := AnonymousPrincipal
  let headerTenant := TrimSpace tenantHeader
  if cfg.Mode = AuthModeNone then
    let principal := { principal with TenantID := headerTenant }
    if cfg.RequireTenant = true ∧ principal.TenantID = "" then
      Except.error (GoError.errorf "tenant header is required")
    else Except.ok principal
  else if cfg.Mode = AuthModeJWT then
    let authorization := TrimSpace authorizationHeader
    if !HasPrefix authorization "Bearer " then
      Except.error (GoError.errorf "missing bearer token")
    else
      let tokenString := TrimSpace (TrimPrefix authorization "Bearer ")
      match verify tokenString cfg.JWTSecret with
      | none => Except.error (GoError.errorf "invalid bearer token")
      | some claims =>
        let principal := { principal with Authenticated := true }
        let principal := { principal with Subject := asStringClaim claims "sub" "unknown" }
        let principal := { principal with TenantID := asStringClaim claims "tenant_id" "" }
        let principal := if principal.TenantID = "" then
            { principal with TenantID := asStringClaim claims "tenant" "" }
          else principal
        if principal.TenantID = "" then
          Except.error (GoError.errorf "token is missing tenant claim")
        else
          let principal := { principal with Scopes := scopesFromClaims claims }
          if cfg.RequireTenant = true ∧ headerTenant = "" then
            Except.error (GoError.errorf "tenant header is required")
          else if headerTenant ≠ "" ∧ headerTenant ≠ principal.TenantID then
            Except.error (GoError.errorf "tenant header does not match token tenant")
          else Except.ok principal
  else Except.error (GoError.errorf ("unsupported auth mode " ++ quoted cfg.Mode))

/-- Source function `httpStatusForError` (auth.go). -/
def httpStatusForError (err : GoError) : Nat :=
  match err with
  | GoError.deadlineExceeded => 504
  | _ => if Contains err.Error "tenant" then 403 else 401

/-- Source function `migCodeForAuthErr` (auth.go). -/
def migCodeForAuthErr (err : GoError) : String :=
  if Contains err.Error "tenant" then ErrorForbidden else ErrorUnauthorized

/-! ## NATS binding (nats_binding.go) -/

/-- The pieces of a text between occurrences of the separator: never empty, the
empty text has the one piece `""`. -/
def splitOnChar (sep : Char) : List Char → List (List Char)
  | [] => [[]]
  | c :: rest =>
    if c = sep then [] :: splitOnChar sep rest
    else
      match splitOnChar sep rest with
      | [] => [[c]]
      | t :: ts => (c :: t) :: ts

/-- The pieces written one after the other with the separator in between. -/
def joinChars (sep : Char) : List (List Char) → List Char
  | [] => []
  | [t] => t
  | t :: rest => t ++ sep :: joinChars sep rest

/-- Go `strings.Split(s, sep)` for a separator of one character. -/
def Split (s : String) (sep : Char) : List String := (splitOnChar sep s.data).map String.mk

/-- Go `strings.Join(elems, sep)` for a separator of one character. -/
def Join (elems : List String) (sep : Char) : String :=
  String.mk (joinChars sep (elems.map String.data))

/-- Source function `subjectTokens` (nats_binding.go). -/
def subjectTokens (subject : String) : List String :=
  if subject = "" then [] else Split subject '.'

/-- Source function `subjectToken` (nats_binding.go). -/
def subjectToken (subject : String) (index : Int) : String :=
  if index < 0 ∨ index ≥ ((subjectTokens subject).length : Int) then ""
  else ((subjectTokens subject).get? index.toNat).getD ""

/-- The slice expression `tokens[n:]`: `none` is the runtime panic for a bound out of
range. -/
def sliceFrom (tokens : List String) (n : Nat) : Option (List String) :=
  if n ≤ tokens.length then some (tokens.drop n) else none

/-- The tenant and the capability `handleInvoke` reads from the subject of a message
(its first two statements); `none` when the slice panics. -/
def invokeSubject (subject : String) : Option (String × String) :=
  (sliceFrom (subjectTokens subject) 4).map
    (fun rest => (subjectToken subject 2, Join rest '.'))

/-- The tenant and the topic `handlePublish` reads from the subject of a message. -/
def publishSubject (subject : String) : Option (String × String) :=
  (sliceFrom (subjectTokens subject) 4).map
    (fun rest => (subjectToken subject 2, Join rest '.'))

/-- The tenant and the message id `handleCancel` reads from the subject of a
message. -/
def cancelSubject (subject : String) : Option (String × String) :=
  (sliceFrom (subjectTokens subject) 5).map
    (fun rest => (subjectToken subject 2, Join rest '.'))

/-- The handlers of the binding. -/
inductive NatsHandler where
  | handleHello
  | handleDiscover
  | handleInvoke
  | handlePublish
  | handleCancel
  | handleHeartbeat
deriving DecidableEq

/-- The table `subjectHandlers` of `StartNATSBinding`: the subscribed subject
patterns with their handlers. -/
def subjectHandlers : List (String × NatsHandler) :=
  [("mig.v0_1.*.hello", NatsHandler.handleHello),
   ("mig.v0_1.*.discover", NatsHandler.handleDiscover),
   ("mig.v0_1.*.invoke.>", NatsHandler.handleInvoke),
   ("mig.v0_1.*.events.>", NatsHandler.handlePublish),
   ("mig.v0_1.*.control.cancel.>", NatsHandler.handleCancel),
   ("mig.v0_1.*.control.heartbeat", NatsHandler.handleHeartbeat)]

/-- Subject matching of the NATS server, token by token: a literal token matches
itself, `*` matches exactly one token, and `>` as the last token of the
pattern matches one or more remaining tokens. -/
def matchTokens : List String → List String → Bool
  | [], [] => true
  | [], _ :: _ => false
  | _ :: _, [] => false
  | p :: ps, t :: ts =>
    if p = ">" ∧ ps = [] then true
    else (p = "*" || p = t) && matchTokens ps ts

/-- Whether the NATS server delivers a message published on `subject` to a
subscription on `pattern`. -/
def subjectMatches (pattern subject : String) : Bool :=
  matchTokens (Split pattern '.') (Split subject '.')

/-- The handlers of the binding that receive a message published on `subject`. -/
def dispatch (subject : String) : List NatsHandler :=
  (subjectHandlers.filter (fun entry => subjectMatches entry.1 subject)).map Prod.snd

/-- The subject on which `publishEventToNATS` mirrors an event. -/
def mirrorSubject (event : EventMessage) : String :=
  "mig.v0_1." ++ sanitizeNATSSegment event.Header.TenantID ++ ".events."
    ++ sanitizeNATSSubject event.Topic

/-- What `decodeNATS` yields when the body `json.Marshal(event)` of a mirrored event
is decoded into a `PublishRequest`: both types share the JSON fields `header`,
`topic` and `payload`; the other fields of the event are ignored and `key` is
absent. -/
def decodeMirrored (event : EventMessage) : PublishRequest :=
  { Header := event.Header, Topic := event.Topic, Key := "", Payload := event.Payload }

/-- Source method `NATSBinding.handlePublish` on a message whose body decodes to
`decoded` (`none` when `decodeNATS` fails): the tenant and the topic default to
the subject tokens, then `Publish` is called.  The reply on the inbox is not
part of the state; `none` is the panic of an out-of-range slice. -/
def handlePublish (env : Env) (s : Service) (subject : String)
    (decoded : Option PublishRequest) : Option (Service × Outcome PublishAck) :=
  match publishSubject subject with
  | none => none
  | some (tenant, topic) =>
    match decoded with
    | none => some (s, Outcome.error (invalid "invalid publish request"))
    | some req =>
      let req := if req.Header.TenantID = "" then
          { req with Header := { req.Header with TenantID := tenant } }
        else req
      let req := if req.Topic = "" then { req with Topic := topic } else req
      some (Publish env s req.Topic req)

/-! ## Audit export and usage (service.go) -/

structure UsageSnapshot where
  TenantInvocations : GoMap Int
  CapabilityInvocations : GoMap Int
  TotalInvocations : Int

/-- Source method `Service.AuditExport`: the whole trail for the empty tenant id,
else the records of the tenant. -/
def AuditExport (s : Service) (tenantID : String) : List AuditRecord :=
  if tenantID = "" then s.audit
  else s.audit.filter (fun record => record.TenantID = tenantID)

/-- Source method `Service.Usage`: copies of both counter maps and the sum of the
capability counters. -/
def Usage (s : Service) : UsageSnapshot :=
  let tenant : GoMap Int :=
    List.foldl (fun (m : GoMap Int) (kv : String × Int) => m.insert kv.1 kv.2) GoMap.empty
      s.tenantInvocations
  let acc : GoMap Int × Int :=
    List.foldl (fun (acc : GoMap Int × Int) (kv : String × Int) =>
        (acc.1.insert kv.1 kv.2, acc.2 + kv.2)) (GoMap.empty, 0)
      s.capabilityInvocations
  { TenantInvocations := tenant, CapabilityInvocations := acc.1, TotalInvocations := acc.2 }

/-! ## WebSocket frame stream (http.go) -/

/-- The error code of a failed call, `none` for a successful one. -/
def errorCode {α : Type} : Except MigError α → Option String
  | Except.error e => some e.Code
  | Except.ok _ => none

/-- The response of a successful call, `none` for a failed one. -/
def response {α : Type} : Except MigError α → Option α
  | Except.error _ => none
  | Except.ok a => some a

/-- Whether a header passes `Normalize`. -/
def normalizes (env : Env) (h : MessageHeader) : Prop := (Normalize env h).2 = none

instance (env : Env) (h : MessageHeader) : Decidable (normalizes env h) :=
  inferInstanceAs (Decidable ((Normalize env h).2 = none))

/-- The header an operation works with: normalized, then annotated by
`AddIDGMeta(core)`. -/
def invokeHead (env : Env) (req : InvokeRequest) : MessageHeader :=
  AddIDGMeta (Normalize env req.Header).1 "core"

/-- The capability an `Invoke` call addresses: the argument, or the request field
when the argument is empty. -/
def effectiveCapability (capability : String) (req : InvokeRequest) : String :=
  if capability = "" then req.Capability else capability

/-- The idempotency record an `Invoke` call would be answered from. -/
def cacheHit (env : Env) (s : Service) (capability : String) (req : InvokeRequest) :
    Option InvokeResponse :=
  if (invokeHead env req).IdempotencyKey ≠ "" then
    s.idempotency.lookup (idempotencyKey (invokeHead env req).TenantID
      (effectiveCapability capability req) (invokeHead env req).IdempotencyKey)
  else none

/-- The arguments of one `Invoke` call. -/
structure InvokeCall where
  env : Env
  capability : String
  req : InvokeRequest
  actor : String
  principal : Principal

/-- Consecutive `Invoke` calls: the final state and the results in call order. -/
def invokeAll : Service → List InvokeCall → Service × List (Except MigError InvokeResponse)
  | s, [] => (s, [])
  | s, c :: rest =>
    ((invokeAll (Invoke c.env s c.capability c.req c.actor c.principal).1 rest).1,
     (Invoke c.env s c.capability c.req c.actor c.principal).2 ::
       (invokeAll (Invoke c.env s c.capability c.req c.actor c.principal).1 rest).2)

/-- Invariant (I2): in the log of every topic, entry `i` (counting from 1) has
sequence `i`, is stored with `replay == false` and carries its topic. -/
def SequencedLogs (s : Service) : Prop :=
  ∀ topic log, s.events.lookup topic = some log →
    ∀ i e, log.get? i = some e → e.Sequence = (i : Int) + 1 ∧ e.Replay = false ∧ e.Topic = topic

/-- Every channel in a subscriber set exists, belongs to that topic and is open. -/
def SubscribersOpen (s : Service) : Prop :=
  ∀ topic subs id, s.subscribers.lookup topic = some subs → id ∈ subs →
    ∃ c, s.chans.get? id = some c ∧ c.topic = topic ∧ c.closed = false

/-- The sequence number acknowledged by `op` when it is a successful publish to
`topic` in state `s`. -/
def ackedSequence (topic : String) (s : Service) : Op → List Int
  | Op.publish env t req =>
    match (Publish env s t req).2 with
    | Outcome.ok ack => if ack.Topic = topic then [ack.Sequence] else []
    | _ => []
  | _ => []

/-- The sequence numbers acknowledged by the successful publishes to `topic` during
a run, in publish order. -/
def publishedSequences (topic : String) : Service → List Op → List Int
  | _, [] => []
  | s, op :: rest => ackedSequence topic s op ++ publishedSequences topic (step s op) rest

/-- The number of events in the log of `topic`. -/
def logLength (s : Service) (topic : String) : Nat := ((s.events.lookup topic).getD []).length

/-- The error codes the spec lists as retryable. -/
def retryableCodes : List String :=
  [ErrorTimeout, ErrorRateLimited, ErrorBackpressure, ErrorUnavailable]

/-- An error is marked consistently: `retryable` is set exactly for the retryable
codes. -/
def wellMarked (e : MigError) : Prop := e.Retryable = true ↔ e.Code ∈ retryableCodes

/-- The error of a failed `Publish`, `none` for a success or a panic. -/
def outcomeError {α : Type} : Outcome α → Option MigError
  | Outcome.error e => some e
  | _ => none

/-- The status code of a gRPC status. -/
def statusCode (st : Option (GrpcCode × String)) : Option GrpcCode := st.map Prod.fst

/-- The value of a list of decimal digit characters. -/
def digitsValue (l : List Char) : Nat := l.foldl (fun acc c => acc * 10 + (c.toNat - 48)) 0

/-- A text without its leading sign, if it has one. -/
def signless : List Char → List Char
  | '-' :: r => r
  | '+' :: r => r
  | r => r

/-- Whether a text is a decimal integer: an optional sign followed by one or more
decimal digits. -/
def isDecimalInteger (c : String) : Bool :=
  (signless c.data).length ≠ 0 && (signless c.data).all Char.isDigit

/-- Whether a connection agrees with every filter that is not blank after
trimming white space. -/
def matchesFilters (filters : ConnectionFilters) (conn : ConnectionSnapshot) : Bool :=
  decide ((TrimSpace filters.TenantID = "" ∨ conn.TenantID = TrimSpace filters.TenantID) ∧
    (TrimSpace filters.Kind = "" ∨ conn.Kind = TrimSpace filters.Kind) ∧
    (TrimSpace filters.Protocol = "" ∨ conn.Protocol = TrimSpace filters.Protocol))

/-- The histogram entry of `value` over a list of connections: absent when no
connection has the value (or the value is empty), else the number of them. -/
def histogramEntry (key : ConnectionSnapshot → String) (conns : List ConnectionSnapshot)
    (value : String) : Option Int :=
  if value = "" ∨ conns.countP (fun c => key c = value) = 0 then none
  else some (conns.countP (fun c => key c = value) : Int)

/-- The histogram after counting the connections `conns` into `m`, one
`m[key]++` for every connection whose key is not empty. -/
def tally (key : ConnectionSnapshot → String) (m : GoMap Int)
    (conns : List ConnectionSnapshot) : GoMap Int :=
  conns.foldl (fun m c => if key c ≠ "" then increment m (key c) else m) m

/-- The header carries the projection of the principal: `meta` binds
`idg.principal_subject` to the subject and `idg.principal_scopes` to the
scope list. -/
def carriesPrincipal (head : MessageHeader) (principal : Principal) : Prop :=
  ∃ m, head.Meta = some m ∧
    m.lookup "idg.principal_subject" = some (Value.str principal.Subject) ∧
    m.lookup "idg.principal_scopes" = some (Value.arr (principal.ScopesList.map Value.str))

/-- The error code of an optional error. -/
def codeOf (err : Option MigError) : Option String := err.map (fun e => e.Code)

/-- The tenant `PrincipalFromAuthHeaders` resolves from the claims of a token:
claim `tenant_id`, then claim `tenant`; empty when neither names one. -/
def tokenTenant (claims : GoMap Value) : String :=
  if asStringClaim claims "tenant_id" "" = "" then asStringClaim claims "tenant" ""
  else asStringClaim claims "tenant_id" ""

/-- The token text `PrincipalFromAuthHeaders` hands to the JWT library. -/
def bearerToken (authorizationHeader : String) : String :=
  TrimSpace (TrimPrefix (TrimSpace authorizationHeader) "Bearer ")

/-- The error of a rejected request, `none` for an accepted one. -/
def authError : Except GoError Principal → Option GoError
  | Except.error e => some e
  | Except.ok _ => none

/-- The binding the words "the first element of requested_bindings that is one of
http, grpc, nats, or http when no element is" select, elements compared as
they are. -/
def firstListedBinding (bindings : List String) : String :=
  (bindings.find? (fun b => decide (b = "http" ∨ b = "grpc" ∨ b = "nats"))).getD "http"

/-- The first of the bindings, each trimmed of white space and lower-cased, that is
one of http, grpc, nats, or http when none is. -/
def firstNormalizedBinding (bindings : List String) : String :=
  ((bindings.map (fun b => ToLower (TrimSpace b))).find?
    (fun c => decide (c = "http" ∨ c = "grpc" ∨ c = "nats"))).getD "http"

/-- A call on the connection registry: `RegisterConnection`, or the closure returned
by the `k`-th registration of the run (counting from 0). -/
inductive ConnCall where
  | register (env : Env) (conn : ConnectionSnapshot)
  | unregister (k : Nat)

/-- A run of registry calls: the service, and for every registration so far, in
order, the id it returned and whether its closure has been called. -/
structure ConnTrace where
  service : Service
  regs : List (String × Bool)

/-- One call of a run.  A closure that no registration returned does not exist: the
call is skipped. -/
def connStep (t : ConnTrace) : ConnCall → ConnTrace
  | ConnCall.register env conn =>
    { service := (RegisterConnection env t.service conn).1
      regs := t.regs ++ [((RegisterConnection env t.service conn).2, false)] }
  | ConnCall.unregister k =>
    match t.regs.get? k with
    | none => t
    | some (id, _) =>
      { service := UnregisterConnection t.service id
        regs := t.regs.set k (id, true) }

/-- The run of a list of registry calls from service `s`. -/
def connRun (s : Service) (calls : List ConnCall) : ConnTrace :=
  calls.foldl connStep { service := s, regs := [] }

/-- The ids of the registrations whose closure has not been called, in order of
registration. -/
def activeIds (regs : List (String × Bool)) : List String :=
  (regs.filter (fun r => !r.2)).map Prod.fst

/-- The number of registrations whose closure has not been called. -/
def activeCount (regs : List (String × Bool)) : Nat := (regs.filter (fun r => !r.2)).length

/-- The number of entries of the connection registry. -/
def registrySize (s : Service) : Nat := s.connections.keys.length

/-- The sum of the counters of a counter map. -/
def sumValues (m : GoMap Int) : Int := m.values.sum

/-- The accounting invariant: both counter maps sum to the length of the audit
trail, every tenant counter is the number of audit records of the tenant, and
no audit record has an empty tenant. -/
def UsageBalanced (s : Service) : Prop :=
  sumValues s.tenantInvocations = (s.audit.length : Int) ∧
  sumValues s.capabilityInvocations = (s.audit.length : Int) ∧
  (∀ t, s.tenantInvocations.count t
    = ((s.audit.filter (fun record => record.TenantID = t)).length : Int)) ∧
  (∀ record, record ∈ s.audit → record.TenantID ≠ "")

/-- An `Invoke` call in flight.  The call runs its first critical section (the gates,
under the shared lock), releases the lock while the payload is produced, and
then, unless it has already returned, runs its second critical section (the
store, under the exclusive lock). -/
inductive InvokeThread where
  | ready (call : InvokeCall)
  | decided (call : InvokeCall) (head : MessageHeader) (capability : String)
      (capDesc : CapabilityDescriptor)
  | returned (result : Except MigError InvokeResponse)

/-- The next critical section of a call in flight, run atomically on the state. -/
def threadStep (s : Service) : InvokeThread → Service × InvokeThread
  | InvokeThread.ready call =>
    match invokeGate call.env s call.capability call.req call.principal with
    | InvokeDecision.fail e => (s, InvokeThread.returned (Except.error e))
    | InvokeDecision.cached resp => (s, InvokeThread.returned (Except.ok resp))
    | InvokeDecision.proceed head capability capDesc =>
      (s, InvokeThread.decided call head capability capDesc)
  | InvokeThread.decided call head capability capDesc =>
    ((invokeCommit call.env s head capability capDesc call.req call.actor).1,
     InvokeThread.returned
       (invokeCommit call.env s head capability capDesc call.req call.actor).2)
  | InvokeThread.returned result => (s, InvokeThread.returned result)

/-- Two calls in flight under a schedule: `false` lets the first call run its next
critical section, `true` the second. -/
def runSchedule : Service → InvokeThread → InvokeThread → List Bool →
    Service × InvokeThread × InvokeThread
  | s, a, b, [] => (s, a, b)
  | s, a, b, false :: rest => runSchedule (threadStep s a).1 (threadStep s a).2 b rest
  | s, a, b, true :: rest => runSchedule (threadStep s b).1 a (threadStep s b).2 rest

/-- Whether a call in flight has returned a success. -/
def returnedOk : InvokeThread → Bool
  | InvokeThread.returned (Except.ok _) => true
  | _ => false

/-- A clock reading used in examples. -/
def sampleTime : Time :=
  { year := 2026, month := 1, day := 2, hour := 3, minute := 4, second := 5,
    unixNano := 1767323045000000000 }

/-- An environment used in examples: random ids, deadline not expired. -/
def sampleEnv : Env :=
  { now := sampleTime
    idSource := { bytes := some [1, 2, 3, 255, 16], clock := sampleTime }
    later := sampleTime
    auxSource := { bytes := some [7, 7, 7], clock := sampleTime }
    ctxDone := false }

/-- A header that carries only a tenant id. -/
def headerOf (tenant : String) : MessageHeader :=
  { MIGVersion := "", MessageID := "", Timestamp := "", TenantID := tenant, SessionID := "",
    Traceparent := "", IdempotencyKey := "", DeadlineMS := 0, Meta := none }

/-- A hello request of tenant `acme` with the given version list. -/
def helloOf (versions : List String) : HelloRequest :=
  { Header := headerOf "acme", SupportedVersions := versions, RequestedBindings := ["http"],
    RequestedFeatures := [] }

/-- The environment of a call whose request context is already done. -/
def expiredEnv : Env := { sampleEnv with ctxDone := true }

/-- The invoke request of the idempotency test: tenant `acme`, key `id-1`. -/
def sampleInvoke : InvokeRequest :=
  { Header := { headerOf "acme" with IdempotencyKey := "id-1" }
    Capability := ""
    Payload := some [("input", Value.str "hello")]
    StreamPreference := "" }

/-- The principal of the idempotency test. -/
def testerPrincipal : Principal :=
  { Subject := "tester", TenantID := "acme", Scopes := ["capability:infer"],
    Authenticated := true }

/-- The response to `sampleInvoke` on the bootstrapped capability. -/
def sampleResponse : InvokeResponse :=
  { Header := invokeHead sampleEnv sampleInvoke
    Capability := "observatory.models.infer"
    Payload := echoPayload sampleInvoke "observatory.models.infer" bootstrapCapability
    ResultSchemaURI := "schema://observatory/models/infer-output/v1" }

/-- An invoke of tenant `a` with idempotency key `observatory.models.infer:k`. -/
def collisionFirst : InvokeRequest :=
  { Header := { headerOf "a" with IdempotencyKey := "observatory.models.infer:k" }
    Capability := ""
    Payload := some [("input", Value.str "private to tenant a")]
    StreamPreference := "" }

/-- An invoke of tenant `a:observatory.models.infer` with idempotency key `k`. -/
def collisionSecond : InvokeRequest :=
  { Header := { headerOf "a:observatory.models.infer" with IdempotencyKey := "k" }
    Capability := ""
    Payload := some [("input", Value.str "other")]
    StreamPreference := "" }

/-- The state after the invoke of tenant `a`. -/
def collisionState : Service :=
  (Invoke sampleEnv NewService "observatory.models.infer" collisionFirst "http-client"
    AnonymousPrincipal).1

/-- The publish request of the replay test. -/
def samplePublish : PublishRequest :=
  { Header := headerOf "acme", Topic := "", Key := "",
    Payload := some [("state", Value.str "done")] }

/-- Two publishes to `observatory.inference.completed` with one to another topic in
between. -/
def samplePublishes : List Op :=
  [Op.publish sampleEnv "observatory.inference.completed" samplePublish,
   Op.publish sampleEnv "observatory.other" samplePublish,
   Op.publish sampleEnv "observatory.inference.completed" samplePublish]

/-- The cancel request of the conformance test: target `invoke-99`. -/
def sampleCancel : CancelRequest :=
  { Header := headerOf "acme", TargetMessageID := "invoke-99", Reason := "operator" }

/-- An invoke that carries the cancelled message id `invoke-99`. -/
def cancelledInvoke : InvokeRequest :=
  { Header := { headerOf "acme" with MessageID := "invoke-99" }
    Capability := ""
    Payload := none
    StreamPreference := "" }

/-- A cancel request that names no target at all. -/
def emptyCancel : CancelRequest :=
  { Header := headerOf "acme", TargetMessageID := "", Reason := "operator" }

/-- The state after `Subscribe("observatory.inference.completed", "0")` on a new
service: channel 0 is subscribed. -/
def subscribedState : Service :=
  (Subscribe NewService "observatory.inference.completed" "0").1

/-- The decimal text of `2^63`, the least integer above the range of a 64-bit `int`. -/
def hugeCursor : String := "9223372036854775808"

/-- An authenticated principal whose token names the tenant `unknown`. -/
def unknownTenantPrincipal : Principal :=
  { Subject := "user-1", TenantID := "unknown", Scopes := ["write", "capability:infer", "write"],
    Authenticated := true }

/-- An authenticated principal of tenant `acme`. -/
def acmePrincipal : Principal :=
  { Subject := "user-1", TenantID := "acme", Scopes := ["write", "capability:infer", "write"],
    Authenticated := true }

/-- The configuration of the auth tests: JWT mode with the secret `secret`. -/
def jwtConfig : AuthConfig := { Mode := AuthModeJWT, JWTSecret := "secret", RequireTenant := false }

/-- A verifier that accepts the token `good` as a token of `user-1` in tenant `acme`,
the token `notenant` as a valid token without a tenant claim, and nothing
else. -/
def sampleVerifier : TokenVerifier := fun token secret =>
  if secret ≠ "secret" then none
  else if token = "good" then
    some [("sub", Value.str "user-1"), ("tenant_id", Value.str "acme"),
          ("scopes", Value.arr [Value.str "capability:infer"])]
  else if token = "notenant" then some [("sub", Value.str "user-1")]
  else none

/-- A hello request of tenant `acme` for version 0.1 with the given bindings and
features. -/
def helloWith (bindings features : List String) : HelloRequest :=
  { Header := headerOf "acme", SupportedVersions := ["0.1"], RequestedBindings := bindings,
    RequestedFeatures := features }

/-- A state in which tenant `acme` has used its quota of one invocation, the
response to `sampleInvoke` is cached under the key `id-1`, and the message id
`invoke-99` is cancelled. -/
def gatedState : Service :=
  (Cancel sampleEnv
    (SetQuota
      (Invoke sampleEnv NewService "observatory.models.infer" sampleInvoke "tester"
        testerPrincipal).1
      { TenantID := "acme", MaxInvocations := 1 }).1
    sampleCancel "invoke-99").1

/-- The cached request sent again under the cancelled message id `invoke-99`. -/
def cancelledCachedInvoke : InvokeRequest :=
  { sampleInvoke with
    Header := { headerOf "acme" with MessageID := "invoke-99", IdempotencyKey := "id-1" } }

/-- A service connected to a NATS server, with the NATS binding started. -/
def natsState : Service :=
  match NewServiceWithOptions { NATSURL := "nats://127.0.0.1:4222", AuditLogPath := "" }
      true true with
  | Except.ok s => (StartNATSBinding s true).1
  | Except.error _ => NewService

/-- The messages handed to the NATS connection so far. -/
def mirrored (s : Service) : List NatsMessage := s.natsConn.getD []

/-- The state after `Publish("observatory.inference.completed", samplePublish)` on
`natsState`. -/
def mirroredOnce : Service :=
  (Publish sampleEnv natsState "observatory.inference.completed" samplePublish).1

/-- A snapshot that carries the explicit id `c1`. -/
def explicitConn (actor : String) : ConnectionSnapshot :=
  { ID := "c1", Protocol := "http", Kind := "ws_stream", TenantID := "acme", Actor := actor,
    RemoteAddr := "", StartedAt := "", Meta := none }

/-- A snapshot without an id: `RegisterConnection` generates one. -/
def anonymousConn (actor : String) : ConnectionSnapshot :=
  { ID := "", Protocol := "grpc", Kind := "stream_invoke", TenantID := "beta", Actor := actor,
    RemoteAddr := "", StartedAt := "", Meta := none }

/-- An environment like `sampleEnv` with another random draw for generated ids. -/
def secondEnv : Env :=
  { sampleEnv with auxSource := { bytes := some [9, 8, 7, 6, 5, 4], clock := sampleTime } }

/-- The state after the invoke `sampleInvoke` of tenant `acme` on a new service. -/
def invokedOnce : Service :=
  run NewService [Op.invoke sampleEnv "observatory.models.infer" sampleInvoke "tester"
    testerPrincipal]

/-- The call of the idempotency test: `sampleInvoke` with the key `id-1`. -/
def keyedCall (env : Env) : InvokeCall :=
  { env := env, capability := "observatory.models.infer", req := sampleInvoke,
    actor := "tester", principal := testerPrincipal }

/-- A new service on which tenant `acme` has a quota of one invocation. -/
def quotaOne : Service := (SetQuota NewService { TenantID := "acme", MaxInvocations := 1 }).1

/-- A publish request that names its topic in the request body only. -/
def fallbackPublish : PublishRequest :=
  { samplePublish with Topic := "observatory.inference.completed" }

/-- A publish request whose body names a topic without a dot. -/
def undottedPublish : PublishRequest :=
  { samplePublish with Topic := "nodots" }

/-! # Theorems -/

/-! ## Strings and generated values -/

theorem String_mk_cons_ne_empty (c : Char) (l : List Char) : String.mk (c :: l) ≠ "" := by
  intro h
  have := congrArg String.length h
  simp at this

theorem String_length_eq_zero (b : String) (h : b.length = 0) : b = "" := by
  cases b with
  | mk d =>
    simp [String.length] at h
    simp [h]

theorem String_append_ne_empty (a b : String) (hb : b ≠ "") : a ++ b ≠ "" := by
  intro h
  have h1 := congrArg String.length h
  simp [String.length_append] at h1
  exact hb (String_length_eq_zero b h1.2)

theorem newMessageID_ne_empty (e : Entropy) : newMessageID e ≠ "" := by
  unfold newMessageID
  cases e.bytes with
  | none =>
    simp only
    intro h
    have h1 := congrArg String.length h
    simp [String.length_append] at h1
    exact absurd h1.1 (by decide)
  | some src =>
    simp only [hexEncode, fillBuffer]
    rw [List.range_succ_eq_map]
    simp only [List.map_cons, List.flatMap_cons, List.cons_append]
    exact String_mk_cons_ne_empty _ _

theorem formatRFC3339_ne_empty (t : Time) : formatRFC3339 t ≠ "" := by
  unfold formatRFC3339
  exact String_append_ne_empty _ _ (by decide)

/-! ## Normalize -/

/-- C7: `Normalize` returns an error exactly when `tenant_id` is empty or
`mig_version` is present and different from `"0.1"`; every other header is
accepted. -/
theorem Normalize_error_iff (env : Env) (h : MessageHeader) :
    (Normalize env h).2 ≠ none ↔
      (h.TenantID = "" ∨ (h.MIGVersion ≠ "" ∧ h.MIGVersion ≠ "0.1")) := by
  unfold Normalize
  by_cases hv : h.MIGVersion = ""
  · by_cases ht : h.TenantID = "" <;> by_cases hm : h.MessageID = "" <;>
      by_cases hts : h.Timestamp = "" <;> simp [hv, ht, hm, hts, MIGVersion]
  · by_cases hv2 : h.MIGVersion = "0.1"
    · by_cases ht : h.TenantID = "" <;> by_cases hm : h.MessageID = "" <;>
        by_cases hts : h.Timestamp = "" <;> simp [hv2, ht, hm, hts, MIGVersion]
    · simp [hv, hv2, MIGVersion]

theorem normalizes_iff (env : Env) (h : MessageHeader) :
    normalizes env h ↔ (h.TenantID ≠ "" ∧ (h.MIGVersion = "" ∨ h.MIGVersion = "0.1")) := by
  unfold normalizes Normalize
  by_cases hv : h.MIGVersion = ""
  · by_cases ht : h.TenantID = "" <;> by_cases hm : h.MessageID = "" <;>
      by_cases hts : h.Timestamp = "" <;> simp [hv, ht, hm, hts, MIGVersion]
  · by_cases hv2 : h.MIGVersion = "0.1"
    · by_cases ht : h.TenantID = "" <;> by_cases hm : h.MessageID = "" <;>
        by_cases hts : h.Timestamp = "" <;> simp [hv2, ht, hm, hts, MIGVersion]
    · simp [hv, hv2, MIGVersion]

theorem Normalize_keeps (env : Env) (h : MessageHeader) (hok : normalizes env h) :
    (Normalize env h).1.TenantID = h.TenantID ∧
    (Normalize env h).1.IdempotencyKey = h.IdempotencyKey ∧
    (h.MessageID ≠ "" → (Normalize env h).1.MessageID = h.MessageID) := by
  obtain ⟨hT, hV⟩ := (normalizes_iff env h).1 hok
  unfold Normalize
  rcases hV with hv | hv <;>
    by_cases hm : h.MessageID = "" <;>
    by_cases hts : h.Timestamp = "" <;>
    by_cases hd : h.DeadlineMS ≤ 0 <;>
    by_cases hmeta : h.Meta = none <;>
    simp [hv, hm, hts, hd, hmeta, hT, MIGVersion]

/-- C8: when `Normalize` succeeds the header has `mig_version == "0.1"`, a non-empty
`message_id` (the generated one when it was absent), a non-empty `timestamp`
(the clock reading in RFC3339 UTC when it was absent), `deadline_ms == 30000`
when the input was `<= 0`, and a non-nil `meta`; a supplied `message_id`,
`timestamp`, `tenant_id`, `session_id`, `traceparent`, `idempotency_key`,
positive `deadline_ms` and existing `meta` are left unchanged. -/
theorem Normalize_defaults (env : Env) (h : MessageHeader)
    (hok : (Normalize env h).2 = none) :
    (Normalize env h).1.MIGVersion = "0.1" ∧
    (Normalize env h).1.MessageID ≠ "" ∧
    (Normalize env h).1.Timestamp ≠ "" ∧
    (h.MessageID = "" → (Normalize env h).1.MessageID = newMessageID env.idSource) ∧
    (h.Timestamp = "" → (Normalize env h).1.Timestamp = formatRFC3339 env.now) ∧
    (h.DeadlineMS ≤ 0 → (Normalize env h).1.DeadlineMS = 30000) ∧
    (Normalize env h).1.Meta ≠ none ∧
    (h.Meta = none → (Normalize env h).1.Meta = some GoMap.empty) ∧
    (h.MessageID ≠ "" → (Normalize env h).1.MessageID = h.MessageID) ∧
    (h.Timestamp ≠ "" → (Normalize env h).1.Timestamp = h.Timestamp) ∧
    (Normalize env h).1.TenantID = h.TenantID ∧
    (Normalize env h).1.SessionID = h.SessionID ∧
    (Normalize env h).1.Traceparent = h.Traceparent ∧
    (Normalize env h).1.IdempotencyKey = h.IdempotencyKey ∧
    (0 < h.DeadlineMS → (Normalize env h).1.DeadlineMS = h.DeadlineMS) ∧
    (h.Meta ≠ none → (Normalize env h).1.Meta = h.Meta) := by
  have hne := newMessageID_ne_empty env.idSource
  have hft := formatRFC3339_ne_empty env.now
  obtain ⟨hT, hV⟩ := (normalizes_iff env h).1 hok
  unfold Normalize
  rcases hV with hv | hv <;>
    by_cases hm : h.MessageID = "" <;>
    by_cases hts : h.Timestamp = "" <;>
    by_cases hd : h.DeadlineMS ≤ 0 <;>
    by_cases hmeta : h.Meta = none <;>
    simp [hv, hm, hts, hd, hmeta, hT, hne, hft, MIGVersion]

theorem Normalize_defaults_witness :
    (Normalize sampleEnv (headerOf "acme")).2 = none ∧
    (Normalize sampleEnv (headerOf "acme")).1.MIGVersion = "0.1" ∧
    (Normalize sampleEnv (headerOf "acme")).1.MessageID ≠ "" ∧
    (Normalize sampleEnv (headerOf "acme")).1.Timestamp = "2026-01-02T03:04:05Z" ∧
    (Normalize sampleEnv (headerOf "acme")).1.DeadlineMS = 30000 :=
  ⟨by decide,
   (Normalize_defaults sampleEnv (headerOf "acme") (by decide)).1,
   (Normalize_defaults sampleEnv (headerOf "acme") (by decide)).2.1,
   by decide, by decide⟩

/-! ## Maps -/

theorem GoMap.lookup_insert_self {V : Type} (m : GoMap V) (k : String) (v : V) :
    (m.insert k v).lookup k = some v := by
  induction m with
  | nil => simp [GoMap.insert, GoMap.lookup]
  | cons p rest ih =>
    obtain ⟨k1, v1⟩ := p
    by_cases h : k1 = k
    · simp [GoMap.insert, GoMap.lookup, h]
    · simp [GoMap.insert, GoMap.lookup, h]
      exact ih

theorem GoMap.lookup_insert_of_ne {V : Type} (m : GoMap V) (k k1 : String) (v : V)
    (hne : k ≠ k1) : (m.insert k v).lookup k1 = m.lookup k1 := by
  induction m with
  | nil => simp [GoMap.insert, GoMap.lookup, hne]
  | cons p rest ih =>
    obtain ⟨k2, v2⟩ := p
    by_cases h : k2 = k
    · subst h
      simp [GoMap.insert, GoMap.lookup, hne]
    · by_cases h2 : k2 = k1
      · subst h2
        simp [GoMap.insert, GoMap.lookup, h]
      · simp [GoMap.insert, GoMap.lookup, h, h2]
        exact ih

/-! ## Hello and the gates of Invoke -/

theorem AddIDGMeta_fields (h : MessageHeader) (tier : String) :
    (AddIDGMeta h tier).MIGVersion = h.MIGVersion ∧
    (AddIDGMeta h tier).MessageID = h.MessageID ∧
    (AddIDGMeta h tier).Timestamp = h.Timestamp ∧
    (AddIDGMeta h tier).TenantID = h.TenantID ∧
    (AddIDGMeta h tier).SessionID = h.SessionID ∧
    (AddIDGMeta h tier).Traceparent = h.Traceparent ∧
    (AddIDGMeta h tier).IdempotencyKey = h.IdempotencyKey ∧
    (AddIDGMeta h tier).DeadlineMS = h.DeadlineMS := by
  simp [AddIDGMeta]

theorem invokeHead_fields (env : Env) (req : InvokeRequest) (hn : normalizes env req.Header) :
    (invokeHead env req).TenantID = req.Header.TenantID ∧
    (invokeHead env req).IdempotencyKey = req.Header.IdempotencyKey ∧
    (req.Header.MessageID ≠ "" → (invokeHead env req).MessageID = req.Header.MessageID) := by
  have hf := Normalize_keeps env req.Header hn
  have ha := AddIDGMeta_fields (Normalize env req.Header).1 "core"
  unfold invokeHead
  refine ⟨?_, ?_, ?_⟩
  · rw [ha.2.2.2.1]; exact hf.1
  · rw [ha.2.2.2.2.2.2.1]; exact hf.2.1
  · intro hm
    rw [ha.2.1]; exact hf.2.2 hm

theorem invokeGate_pass (env : Env) (s : Service) (capability : String) (req : InvokeRequest)
    (principal : Principal) (capDesc : CapabilityDescriptor)
    (hn : normalizes env req.Header)
    (hne : effectiveCapability capability req ≠ "")
    (hcap : s.capabilities.lookup (effectiveCapability capability req) = some capDesc)
    (hscope : principal.HasAnyScope capDesc.AuthScopes = true)
    (hc : s.cancelled.lookup (invokeHead env req).MessageID = none) :
    invokeGate env s capability req principal =
      match cacheHit env s capability req with
      | some cached => InvokeDecision.cached { cached with Header := invokeHead env req }
      | none =>
        match s.quotas.lookup (invokeHead env req).TenantID with
        | some quota =>
          if s.tenantInvocations.count (invokeHead env req).TenantID ≥ quota then
            InvokeDecision.fail
              { Code := ErrorRateLimited, Message := "tenant quota exceeded", Retryable := true }
          else InvokeDecision.proceed (invokeHead env req) (effectiveCapability capability req)
            capDesc
        | none => InvokeDecision.proceed (invokeHead env req)
            (effectiveCapability capability req) capDesc := by
  unfold normalizes at hn
  unfold invokeGate cacheHit
  unfold invokeHead at *
  unfold effectiveCapability at *
  cases hN : Normalize env req.Header with
  | mk head err =>
    rw [hN] at hn hc
    simp only at hn hc
    subst hn
    simp only [hne, hcap, hscope, hc]
    simp


theorem invokeGate_not_normalizes (env : Env) (s : Service) (capability : String)
    (req : InvokeRequest) (principal : Principal) (hn : ¬ normalizes env req.Header) :
    ∃ msg, invokeGate env s capability req principal = InvokeDecision.fail (invalid msg) := by
  unfold normalizes at hn
  unfold invokeGate
  cases hN : Normalize env req.Header with
  | mk head err =>
    rw [hN] at hn
    cases err with
    | none => exact absurd rfl hn
    | some msg => exact ⟨msg, rfl⟩

theorem invokeGate_no_capability (env : Env) (s : Service) (capability : String)
    (req : InvokeRequest) (principal : Principal) (hn : normalizes env req.Header)
    (he : effectiveCapability capability req = "") :
    invokeGate env s capability req principal =
      InvokeDecision.fail (invalid "capability is required") := by
  unfold normalizes at hn
  unfold invokeGate
  unfold effectiveCapability at he
  cases hN : Normalize env req.Header with
  | mk head err =>
    rw [hN] at hn
    simp only at hn
    subst hn
    simp only [he]
    simp

theorem invokeGate_unknown (env : Env) (s : Service) (capability : String)
    (req : InvokeRequest) (principal : Principal) (hn : normalizes env req.Header)
    (hne : effectiveCapability capability req ≠ "")
    (hcap : s.capabilities.lookup (effectiveCapability capability req) = none) :
    invokeGate env s capability req principal = InvokeDecision.fail
      { Code := ErrorUnsupportedCapability, Message := "capability not found",
        Retryable := false } := by
  unfold normalizes at hn
  unfold invokeGate
  unfold effectiveCapability at hne hcap
  cases hN : Normalize env req.Header with
  | mk head err =>
    rw [hN] at hn
    simp only at hn
    subst hn
    simp only [hne, hcap]
    simp

theorem invokeGate_forbidden (env : Env) (s : Service) (capability : String)
    (req : InvokeRequest) (principal : Principal) (capDesc : CapabilityDescriptor)
    (hn : normalizes env req.Header)
    (hne : effectiveCapability capability req ≠ "")
    (hcap : s.capabilities.lookup (effectiveCapability capability req) = some capDesc)
    (hscope : principal.HasAnyScope capDesc.AuthScopes = false) :
    invokeGate env s capability req principal = InvokeDecision.fail
      { Code := ErrorForbidden, Message := "insufficient capability scope",
        Retryable := false } := by
  unfold normalizes at hn
  unfold invokeGate
  unfold effectiveCapability at hne hcap
  cases hN : Normalize env req.Header with
  | mk head err =>
    rw [hN] at hn
    simp only at hn
    subst hn
    simp only [hne, hcap, hscope]
    simp

theorem invokeGate_cancelled (env : Env) (s : Service) (capability : String)
    (req : InvokeRequest) (principal : Principal) (capDesc : CapabilityDescriptor)
    (reason : String)
    (hn : normalizes env req.Header)
    (hne : effectiveCapability capability req ≠ "")
    (hcap : s.capabilities.lookup (effectiveCapability capability req) = some capDesc)
    (hscope : principal.HasAnyScope capDesc.AuthScopes = true)
    (hc : s.cancelled.lookup (invokeHead env req).MessageID = some reason) :
    invokeGate env s capability req principal = InvokeDecision.fail
      { Code := ErrorTimeout, Message := "invocation cancelled: " ++ reason,
        Retryable := true } := by
  unfold normalizes at hn
  unfold invokeGate
  unfold invokeHead at hc
  unfold effectiveCapability at hne hcap
  cases hN : Normalize env req.Header with
  | mk head err =>
    rw [hN] at hn hc
    simp only at hn hc
    subst hn
    simp only [hne, hcap, hscope, hc]
    simp

/-- Every `Invoke` that succeeds has passed the header, capability, scope and
cancellation gates. -/
theorem Invoke_ok_gates (env : Env) (s : Service) (capability : String) (req : InvokeRequest)
    (actor : String) (principal : Principal) (resp : InvokeResponse)
    (hok : (Invoke env s capability req actor principal).2 = Except.ok resp) :
    normalizes env req.Header ∧ effectiveCapability capability req ≠ "" ∧
    (∃ capDesc, s.capabilities.lookup (effectiveCapability capability req) = some capDesc ∧
      principal.HasAnyScope capDesc.AuthScopes = true) ∧
    s.cancelled.lookup (invokeHead env req).MessageID = none := by
  by_cases hn : normalizes env req.Header
  swap
  · obtain ⟨msg, hg⟩ := invokeGate_not_normalizes env s capability req principal hn
    simp [Invoke, hg] at hok
  by_cases hne : effectiveCapability capability req = ""
  · have hg := invokeGate_no_capability env s capability req principal hn hne
    simp [Invoke, hg] at hok
  cases hcap : s.capabilities.lookup (effectiveCapability capability req) with
  | none =>
    have hg := invokeGate_unknown env s capability req principal hn hne hcap
    simp [Invoke, hg] at hok
  | some capDesc =>
    cases hscope : principal.HasAnyScope capDesc.AuthScopes with
    | false =>
      have hg := invokeGate_forbidden env s capability req principal capDesc hn hne hcap hscope
      simp [Invoke, hg] at hok
    | true =>
      cases hc : s.cancelled.lookup (invokeHead env req).MessageID with
      | some reason =>
        have hg := invokeGate_cancelled env s capability req principal capDesc reason hn hne
          hcap hscope hc
        simp [Invoke, hg] at hok
      | none => exact ⟨hn, hne, ⟨capDesc, rfl, hscope⟩, rfl⟩

theorem Invoke_cached (env : Env) (s : Service) (capability : String) (req : InvokeRequest)
    (actor : String) (principal : Principal) (capDesc : CapabilityDescriptor)
    (cached : InvokeResponse)
    (hn : normalizes env req.Header)
    (hne : effectiveCapability capability req ≠ "")
    (hcap : s.capabilities.lookup (effectiveCapability capability req) = some capDesc)
    (hscope : principal.HasAnyScope capDesc.AuthScopes = true)
    (hc : s.cancelled.lookup (invokeHead env req).MessageID = none)
    (hhit : cacheHit env s capability req = some cached) :
    Invoke env s capability req actor principal =
      (s, Except.ok { cached with Header := invokeHead env req }) := by
  unfold Invoke
  rw [invokeGate_pass env s capability req principal capDesc hn hne hcap hscope hc, hhit]

theorem Invoke_rate_limited (env : Env) (s : Service) (capability : String)
    (req : InvokeRequest) (actor : String) (principal : Principal)
    (capDesc : CapabilityDescriptor) (quota : Int)
    (hn : normalizes env req.Header)
    (hne : effectiveCapability capability req ≠ "")
    (hcap : s.capabilities.lookup (effectiveCapability capability req) = some capDesc)
    (hscope : principal.HasAnyScope capDesc.AuthScopes = true)
    (hc : s.cancelled.lookup (invokeHead env req).MessageID = none)
    (hmiss : cacheHit env s capability req = none)
    (hq : s.quotas.lookup (invokeHead env req).TenantID = some quota)
    (hused : s.tenantInvocations.count (invokeHead env req).TenantID ≥ quota) :
    Invoke env s capability req actor principal =
      (s, Except.error
        { Code := ErrorRateLimited, Message := "tenant quota exceeded", Retryable := true }) := by
  unfold Invoke
  rw [invokeGate_pass env s capability req principal capDesc hn hne hcap hscope hc, hmiss]
  simp only [hq, hused, if_true]

theorem Invoke_fresh (env : Env) (s : Service) (capability : String) (req : InvokeRequest)
    (actor : String) (principal : Principal) (capDesc : CapabilityDescriptor)
    (hn : normalizes env req.Header)
    (hne : effectiveCapability capability req ≠ "")
    (hcap : s.capabilities.lookup (effectiveCapability capability req) = some capDesc)
    (hscope : principal.HasAnyScope capDesc.AuthScopes = true)
    (hc : s.cancelled.lookup (invokeHead env req).MessageID = none)
    (hmiss : cacheHit env s capability req = none)
    (hq : ∀ quota, s.quotas.lookup (invokeHead env req).TenantID = some quota →
      s.tenantInvocations.count (invokeHead env req).TenantID < quota) :
    Invoke env s capability req actor principal =
      invokeCommit env s (invokeHead env req) (effectiveCapability capability req) capDesc
        req actor := by
  unfold Invoke
  rw [invokeGate_pass env s capability req principal capDesc hn hne hcap hscope hc, hmiss]
  cases hquota : s.quotas.lookup (invokeHead env req).TenantID with
  | none => rfl
  | some quota =>
    have hlt := hq quota hquota
    have hnot : ¬ (s.tenantInvocations.count (invokeHead env req).TenantID ≥ quota) := by omega
    simp only [hnot, if_false]

theorem invokeCommit_expired (env : Env) (s : Service) (head : MessageHeader)
    (capability : String) (capDesc : CapabilityDescriptor) (req : InvokeRequest)
    (actor : String) (hd : env.ctxDone = true) :
    invokeCommit env s head capability capDesc req actor =
      (s, Except.error
        { Code := ErrorTimeout, Message := "deadline exceeded", Retryable := true }) := by
  simp [invokeCommit, hd]

theorem invokeCommit_ok (env : Env) (s : Service) (head : MessageHeader)
    (capability : String) (capDesc : CapabilityDescriptor) (req : InvokeRequest)
    (actor : String) (hd : env.ctxDone = false) :
    (invokeCommit env s head capability capDesc req actor).2 = Except.ok
        { Header := head, Capability := capability,
          Payload := echoPayload req capability capDesc,
          ResultSchemaURI := capDesc.OutputSchemaURI } ∧
    (invokeCommit env s head capability capDesc req actor).1.idempotency =
      (if head.IdempotencyKey ≠ "" then
        s.idempotency.insert (idempotencyKey head.TenantID capability head.IdempotencyKey)
          { Header := head, Capability := capability,
            Payload := echoPayload req capability capDesc,
            ResultSchemaURI := capDesc.OutputSchemaURI }
       else s.idempotency) ∧
    (invokeCommit env s head capability capDesc req actor).1.tenantInvocations =
      s.tenantInvocations.insert head.TenantID (s.tenantInvocations.count head.TenantID + 1) ∧
    (invokeCommit env s head capability capDesc req actor).1.capabilityInvocations =
      s.capabilityInvocations.insert capability (s.capabilityInvocations.count capability + 1) ∧
    (invokeCommit env s head capability capDesc req actor).1.audit =
      s.audit ++ [{ Actor := actor, TenantID := head.TenantID, Capability := capability,
                    Outcome := "success", Timestamp := formatRFC3339 env.later,
                    MessageID := head.MessageID }] := by
  unfold invokeCommit writeAuditLogLocked
  by_cases hk : head.IdempotencyKey = "" <;> cases hlog : s.auditLog <;> simp [hd, hk, hlog]

theorem invokeCommit_frame (env : Env) (s : Service) (head : MessageHeader)
    (capability : String) (capDesc : CapabilityDescriptor) (req : InvokeRequest)
    (actor : String) :
    (invokeCommit env s head capability capDesc req actor).1.serverID = s.serverID ∧
    (invokeCommit env s head capability capDesc req actor).1.metrics = s.metrics ∧
    (invokeCommit env s head capability capDesc req actor).1.capabilities = s.capabilities ∧
    (invokeCommit env s head capability capDesc req actor).1.schemas = s.schemas ∧
    (invokeCommit env s head capability capDesc req actor).1.events = s.events ∧
    (invokeCommit env s head capability capDesc req actor).1.subscribers = s.subscribers ∧
    (invokeCommit env s head capability capDesc req actor).1.cancelled = s.cancelled ∧
    (invokeCommit env s head capability capDesc req actor).1.quotas = s.quotas ∧
    (invokeCommit env s head capability capDesc req actor).1.connections = s.connections ∧
    (invokeCommit env s head capability capDesc req actor).1.orgs = s.orgs ∧
    (invokeCommit env s head capability capDesc req actor).1.tenants = s.tenants ∧
    (invokeCommit env s head capability capDesc req actor).1.gateways = s.gateways ∧
    (invokeCommit env s head capability capDesc req actor).1.natsBinding = s.natsBinding ∧
    (invokeCommit env s head capability capDesc req actor).1.natsConn = s.natsConn ∧
    (invokeCommit env s head capability capDesc req actor).1.chans = s.chans := by
  unfold invokeCommit writeAuditLogLocked
  by_cases hd : env.ctxDone = true <;> by_cases hk : head.IdempotencyKey = "" <;>
    cases hlog : s.auditLog <;> simp [hd, hk, hlog]


theorem normalizes_env (env1 env2 : Env) (h : MessageHeader) (hn : normalizes env1 h) :
    normalizes env2 h :=
  (normalizes_iff env2 h).2 ((normalizes_iff env1 h).1 hn)

theorem cacheHit_eq (env : Env) (s : Service) (capability : String) (req : InvokeRequest)
    (hn : normalizes env req.Header) :
    cacheHit env s capability req =
      if req.Header.IdempotencyKey ≠ "" then
        s.idempotency.lookup (idempotencyKey req.Header.TenantID
          (effectiveCapability capability req) req.Header.IdempotencyKey)
      else none := by
  obtain ⟨ht, hk, _⟩ := invokeHead_fields env req hn
  unfold cacheHit
  rw [ht, hk]

/-! ## Claims about Hello and Invoke -/

/-- C6 (as stated, refuted): the list `[" 0.1"]` is non-empty and does not contain
`"0.1"`, yet `Hello` succeeds, because each entry is trimmed before it is
compared. -/
theorem Hello_version_gate_counterexample :
    normalizes sampleEnv (helloOf [" 0.1"]).Header ∧
    (helloOf [" 0.1"]).SupportedVersions ≠ [] ∧
    "0.1" ∉ (helloOf [" 0.1"]).SupportedVersions ∧
    errorCode (Hello sampleEnv NewService (helloOf [" 0.1"])) = none := by
  decide

/-- C6 (amended): for a header that normalizes, `Hello` fails with
`MIG_VERSION_MISMATCH` exactly when `supported_versions` is non-empty and no
entry equals `"0.1"` after trimming surrounding white space; otherwise (empty
list, or some entry that trims to `"0.1"`) it succeeds. -/
theorem Hello_version_gate (env : Env) (s : Service) (req : HelloRequest)
    (hn : normalizes env req.Header) :
    (errorCode (Hello env s req) = some ErrorVersionMismatch ↔
      (req.SupportedVersions ≠ [] ∧ ∀ v ∈ req.SupportedVersions, TrimSpace v ≠ "0.1")) ∧
    (¬ (req.SupportedVersions ≠ [] ∧ ∀ v ∈ req.SupportedVersions, TrimSpace v ≠ "0.1") →
      errorCode (Hello env s req) = none) := by
  unfold normalizes at hn
  unfold Hello
  cases hN : Normalize env req.Header with
  | mk head err =>
    rw [hN] at hn
    simp only at hn
    subst hn
    simp only
    by_cases hl : req.SupportedVersions = []
    · have htrim : TrimSpace MIGVersion = MIGVersion := by decide
      simp [hl, htrim, errorCode]
    · have hlen : req.SupportedVersions.length ≠ 0 := by
        simpa [List.length_eq_zero] using hl
      by_cases hany : (req.SupportedVersions.any fun v => decide (TrimSpace v = MIGVersion)) = true
      · simp [hlen, hany, errorCode, hl]
        simp [List.any_eq_true, MIGVersion] at hany
        exact hany
      · simp [hlen, hany, errorCode, hl, ErrorVersionMismatch]
        simp [List.any_eq_true, MIGVersion] at hany
        exact hany

theorem Hello_version_gate_witness :
    normalizes sampleEnv (helloOf ["0.2"]).Header ∧
    errorCode (Hello sampleEnv NewService (helloOf ["0.2"])) = some ErrorVersionMismatch ∧
    errorCode (Hello sampleEnv NewService (helloOf ["0.1"])) = none ∧
    errorCode (Hello sampleEnv NewService (helloOf [])) = none :=
  ⟨by decide,
   (Hello_version_gate sampleEnv NewService (helloOf ["0.2"]) (by decide)).1.2 (by decide),
   (Hello_version_gate sampleEnv NewService (helloOf ["0.1"]) (by decide)).2 (by decide),
   (Hello_version_gate sampleEnv NewService (helloOf []) (by decide)).2 (by decide)⟩

/-- C1 (as stated, refuted): every listed precondition holds (header normalizes,
idempotency key non-empty, capability registered, scope gate passed, message id
not cancelled, no quota), but the request context is already done, and the
first call fails with `MIG_TIMEOUT`. -/
theorem Invoke_idempotent_counterexample :
    normalizes expiredEnv sampleInvoke.Header ∧
    sampleInvoke.Header.IdempotencyKey ≠ "" ∧
    NewService.capabilities.lookup
      (effectiveCapability "observatory.models.infer" sampleInvoke) = some bootstrapCapability ∧
    testerPrincipal.HasAnyScope bootstrapCapability.AuthScopes = true ∧
    NewService.cancelled.lookup (invokeHead expiredEnv sampleInvoke).MessageID = none ∧
    NewService.quotas.lookup sampleInvoke.Header.TenantID = none ∧
    errorCode (Invoke expiredEnv NewService "observatory.models.infer" sampleInvoke "tester"
      testerPrincipal).2 = some ErrorTimeout := by
  decide

/-- C1 (amended): for a request whose header normalizes and has a non-empty
idempotency key, a registered capability, a principal passing the scope gate,
message ids that are not cancelled, a quota that is not exhausted before the
first call, and a first call whose deadline does not expire, two consecutive
calls `Invoke(I); Invoke(I)` both succeed with identical payload, capability and
result_schema_uri; the second response is the first with the header replaced by
the header of the second call. -/
theorem Invoke_idempotent (env1 env2 : Env) (s : Service) (capability : String)
    (req : InvokeRequest) (actor : String) (principal : Principal)
    (capDesc : CapabilityDescriptor)
    (hn : normalizes env1 req.Header)
    (hkey : req.Header.IdempotencyKey ≠ "")
    (hne : effectiveCapability capability req ≠ "")
    (hcap : s.capabilities.lookup (effectiveCapability capability req) = some capDesc)
    (hscope : principal.HasAnyScope capDesc.AuthScopes = true)
    (hc1 : s.cancelled.lookup (invokeHead env1 req).MessageID = none)
    (hc2 : s.cancelled.lookup (invokeHead env2 req).MessageID = none)
    (hq : ∀ quota, s.quotas.lookup req.Header.TenantID = some quota →
      s.tenantInvocations.count req.Header.TenantID < quota)
    (hd : env1.ctxDone = false) :
    ∃ r1 r2 : InvokeResponse,
      (Invoke env1 s capability req actor principal).2 = Except.ok r1 ∧
      (Invoke env2 (Invoke env1 s capability req actor principal).1 capability req actor
        principal).2 = Except.ok r2 ∧
      r2.Payload = r1.Payload ∧ r2.Capability = r1.Capability ∧
      r2.ResultSchemaURI = r1.ResultSchemaURI ∧
      r1.Header = invokeHead env1 req ∧ r2.Header = invokeHead env2 req ∧
      r2 = { r1 with Header := invokeHead env2 req } := by
  have hn2 := normalizes_env env1 env2 req.Header hn
  obtain ⟨ht, hk, _⟩ := invokeHead_fields env1 req hn
  cases hhit : cacheHit env1 s capability req with
  | some cached =>
    have h1 := Invoke_cached env1 s capability req actor principal capDesc cached hn hne hcap
      hscope hc1 hhit
    have hhit2 : cacheHit env2 s capability req = some cached := by
      rw [cacheHit_eq env2 s capability req hn2, ← cacheHit_eq env1 s capability req hn, hhit]
    have h2 := Invoke_cached env2 s capability req actor principal capDesc cached hn2 hne hcap
      hscope hc2 hhit2
    refine ⟨{ cached with Header := invokeHead env1 req },
      { cached with Header := invokeHead env2 req }, ?_, ?_, rfl, rfl, rfl, rfl, rfl, rfl⟩
    · rw [h1]
    · rw [h1]; simp only; rw [h2]
  | none =>
    have hq1 : ∀ quota, s.quotas.lookup (invokeHead env1 req).TenantID = some quota →
        s.tenantInvocations.count (invokeHead env1 req).TenantID < quota := by
      rw [ht]; exact hq
    have h1 := Invoke_fresh env1 s capability req actor principal capDesc hn hne hcap
      hscope hc1 hhit hq1
    have hok := invokeCommit_ok env1 s (invokeHead env1 req)
      (effectiveCapability capability req) capDesc req actor hd
    have hfr := invokeCommit_frame env1 s (invokeHead env1 req)
      (effectiveCapability capability req) capDesc req actor
    rw [← h1] at hok hfr
    obtain ⟨hres, hidem, _⟩ := hok
    have hkey1 : (invokeHead env1 req).IdempotencyKey ≠ "" := by rw [hk]; exact hkey
    rw [if_pos hkey1, ht, hk] at hidem
    have hcap2 : (Invoke env1 s capability req actor principal).1.capabilities.lookup
        (effectiveCapability capability req) = some capDesc := by
      rw [hfr.2.2.1]; exact hcap
    have hc2b : (Invoke env1 s capability req actor principal).1.cancelled.lookup
        (invokeHead env2 req).MessageID = none := by
      rw [hfr.2.2.2.2.2.2.1]; exact hc2
    have hhit2 : cacheHit env2 (Invoke env1 s capability req actor principal).1 capability req
        = some { Header := invokeHead env1 req,
                 Capability := effectiveCapability capability req,
                 Payload := echoPayload req (effectiveCapability capability req) capDesc,
                 ResultSchemaURI := capDesc.OutputSchemaURI } := by
      rw [cacheHit_eq env2 _ capability req hn2, if_pos hkey, hidem]
      exact GoMap.lookup_insert_self _ _ _
    have h2 := Invoke_cached env2 (Invoke env1 s capability req actor principal).1 capability
      req actor principal capDesc _ hn2 hne hcap2 hscope hc2b hhit2
    refine ⟨{ Header := invokeHead env1 req,
               Capability := effectiveCapability capability req,
               Payload := echoPayload req (effectiveCapability capability req) capDesc,
               ResultSchemaURI := capDesc.OutputSchemaURI },
            { Header := invokeHead env2 req,
              Capability := effectiveCapability capability req,
              Payload := echoPayload req (effectiveCapability capability req) capDesc,
              ResultSchemaURI := capDesc.OutputSchemaURI },
            hres, ?_, rfl, rfl, rfl, rfl, rfl, rfl⟩
    rw [h2]

theorem Invoke_idempotent_witness :
    ∃ r1 r2 : InvokeResponse,
      (Invoke sampleEnv NewService "observatory.models.infer" sampleInvoke "tester"
        testerPrincipal).2 = Except.ok r1 ∧
      (Invoke sampleEnv (Invoke sampleEnv NewService "observatory.models.infer" sampleInvoke
        "tester" testerPrincipal).1 "observatory.models.infer" sampleInvoke "tester"
        testerPrincipal).2 = Except.ok r2 ∧
      r2.Payload = r1.Payload ∧ r2.Capability = r1.Capability ∧
      r2.ResultSchemaURI = r1.ResultSchemaURI ∧
      r1.Header = invokeHead sampleEnv sampleInvoke ∧
      r2.Header = invokeHead sampleEnv sampleInvoke ∧
      r2 = { r1 with Header := invokeHead sampleEnv sampleInvoke } :=
  Invoke_idempotent sampleEnv sampleEnv NewService "observatory.models.infer" sampleInvoke
    "tester" testerPrincipal bootstrapCapability (by decide) (by decide) (by decide)
    (by decide) (by decide) (by decide) (by decide)
    (fun quota h => Option.noConfusion (show (none : Option Int) = some quota from h))
    (by decide)

theorem GoMap.count_insert_self (m : GoMap Int) (k : String) (v : Int) :
    GoMap.count (GoMap.insert m k v) k = v := by
  simp [GoMap.count, GoMap.lookup_insert_self]

theorem GoMap.count_insert_of_ne (m : GoMap Int) (k k1 : String) (v : Int) (hne : k ≠ k1) :
    GoMap.count (GoMap.insert m k v) k1 = GoMap.count m k1 := by
  simp [GoMap.count, GoMap.lookup_insert_of_ne m k k1 v hne]

/-- A successful call that was not answered from the cache went through the
second critical section with the deadline not expired. -/
theorem Invoke_ok_fresh (env : Env) (s : Service) (capability : String) (req : InvokeRequest)
    (actor : String) (principal : Principal) (resp : InvokeResponse)
    (hok : (Invoke env s capability req actor principal).2 = Except.ok resp)
    (hmiss : cacheHit env s capability req = none) :
    ∃ capDesc, s.capabilities.lookup (effectiveCapability capability req) = some capDesc ∧
      env.ctxDone = false ∧
      Invoke env s capability req actor principal =
        invokeCommit env s (invokeHead env req) (effectiveCapability capability req) capDesc
          req actor := by
  obtain ⟨hn, hne, ⟨capDesc, hcap, hscope⟩, hc⟩ :=
    Invoke_ok_gates env s capability req actor principal resp hok
  refine ⟨capDesc, hcap, ?_⟩
  have hq : ∀ quota, s.quotas.lookup (invokeHead env req).TenantID = some quota →
      s.tenantInvocations.count (invokeHead env req).TenantID < quota := by
    intro quota hquota
    by_contra hge
    have hge2 : s.tenantInvocations.count (invokeHead env req).TenantID ≥ quota := by omega
    have := Invoke_rate_limited env s capability req actor principal capDesc quota hn hne hcap
      hscope hc hmiss hquota hge2
    rw [this] at hok
    simp at hok
  have hfresh := Invoke_fresh env s capability req actor principal capDesc hn hne hcap hscope
    hc hmiss hq
  refine ⟨?_, hfresh⟩
  cases hd : env.ctxDone with
  | false => rfl
  | true =>
    rw [hfresh, invokeCommit_expired env s _ _ capDesc req actor hd] at hok
    simp at hok

/-- The state component of any `Invoke` is either the old state or the result of the
second critical section. -/
theorem Invoke_state_cases (env : Env) (s : Service) (capability : String)
    (req : InvokeRequest) (actor : String) (principal : Principal) :
    (Invoke env s capability req actor principal).1 = s ∨
    ∃ head cap capDesc, (Invoke env s capability req actor principal).1 =
      (invokeCommit env s head cap capDesc req actor).1 := by
  unfold Invoke
  cases invokeGate env s capability req principal with
  | fail e => exact Or.inl rfl
  | cached resp => exact Or.inl rfl
  | proceed head cap capDesc => exact Or.inr ⟨head, cap, capDesc, rfl⟩

theorem Invoke_frame (env : Env) (s : Service) (capability : String)
    (req : InvokeRequest) (actor : String) (principal : Principal) :
    (Invoke env s capability req actor principal).1.capabilities = s.capabilities ∧
    (Invoke env s capability req actor principal).1.cancelled = s.cancelled ∧
    (Invoke env s capability req actor principal).1.quotas = s.quotas ∧
    (Invoke env s capability req actor principal).1.events = s.events ∧
    (Invoke env s capability req actor principal).1.subscribers = s.subscribers ∧
    (Invoke env s capability req actor principal).1.chans = s.chans ∧
    (Invoke env s capability req actor principal).1.connections = s.connections ∧
    (Invoke env s capability req actor principal).1.schemas = s.schemas := by
  rcases Invoke_state_cases env s capability req actor principal with h | ⟨head, cap, cd, h⟩
  · rw [h]; simp
  · rw [h]
    have hf := invokeCommit_frame env s head cap cd req actor
    exact ⟨hf.2.2.1, hf.2.2.2.2.2.2.1, hf.2.2.2.2.2.2.2.1, hf.2.2.2.2.1, hf.2.2.2.2.2.1,
      hf.2.2.2.2.2.2.2.2.2.2.2.2.2.2, hf.2.2.2.2.2.2.2.2.1, hf.2.2.2.1⟩

/-- C10: a successful `Invoke` that is not answered from the cache increases
`tenant_invocations[tenant_id]` and `capability_invocations[capability]` by
exactly 1 (other counters keep their value), appends exactly one audit record
`{actor, tenant_id, capability, "success", message_id}` at the end of the audit
trail, stores the returned response under the idempotency key if and only if
the key is non-empty, and leaves capabilities, schemas, quotas, the cancellation
set, event logs, subscribers (and their channels) and connections unchanged; the
response carries the `output_schema_uri` of the descriptor. -/
theorem Invoke_fresh_effect (env : Env) (s : Service) (capability : String)
    (req : InvokeRequest) (actor : String) (principal : Principal) (resp : InvokeResponse)
    (hok : (Invoke env s capability req actor principal).2 = Except.ok resp)
    (hmiss : cacheHit env s capability req = none) :
    (Invoke env s capability req actor principal).1.tenantInvocations.count
        (invokeHead env req).TenantID
      = s.tenantInvocations.count (invokeHead env req).TenantID + 1 ∧
    (∀ t, t ≠ (invokeHead env req).TenantID →
      (Invoke env s capability req actor principal).1.tenantInvocations.lookup t
        = s.tenantInvocations.lookup t) ∧
    (Invoke env s capability req actor principal).1.capabilityInvocations.count
        (effectiveCapability capability req)
      = s.capabilityInvocations.count (effectiveCapability capability req) + 1 ∧
    (∀ c, c ≠ effectiveCapability capability req →
      (Invoke env s capability req actor principal).1.capabilityInvocations.lookup c
        = s.capabilityInvocations.lookup c) ∧
    (Invoke env s capability req actor principal).1.audit =
      s.audit ++ [{ Actor := actor, TenantID := (invokeHead env req).TenantID,
                    Capability := effectiveCapability capability req, Outcome := "success",
                    Timestamp := formatRFC3339 env.later,
                    MessageID := (invokeHead env req).MessageID }] ∧
    ((invokeHead env req).IdempotencyKey ≠ "" →
      (Invoke env s capability req actor principal).1.idempotency =
        s.idempotency.insert (idempotencyKey (invokeHead env req).TenantID
          (effectiveCapability capability req) (invokeHead env req).IdempotencyKey) resp) ∧
    ((invokeHead env req).IdempotencyKey = "" →
      (Invoke env s capability req actor principal).1.idempotency = s.idempotency) ∧
    (Invoke env s capability req actor principal).1.capabilities = s.capabilities ∧
    (Invoke env s capability req actor principal).1.schemas = s.schemas ∧
    (Invoke env s capability req actor principal).1.quotas = s.quotas ∧
    (Invoke env s capability req actor principal).1.cancelled = s.cancelled ∧
    (Invoke env s capability req actor principal).1.events = s.events ∧
    (Invoke env s capability req actor principal).1.subscribers = s.subscribers ∧
    (Invoke env s capability req actor principal).1.chans = s.chans ∧
    (Invoke env s capability req actor principal).1.connections = s.connections ∧
    (∃ capDesc, s.capabilities.lookup (effectiveCapability capability req) = some capDesc ∧
      resp.ResultSchemaURI = capDesc.OutputSchemaURI) ∧
    resp.Header = invokeHead env req ∧
    resp.Capability = effectiveCapability capability req := by
  obtain ⟨capDesc, hcap, hd, hfresh⟩ :=
    Invoke_ok_fresh env s capability req actor principal resp hok hmiss
  have hc := invokeCommit_ok env s (invokeHead env req) (effectiveCapability capability req)
    capDesc req actor hd
  have hf := invokeCommit_frame env s (invokeHead env req)
    (effectiveCapability capability req) capDesc req actor
  rw [← hfresh] at hc hf
  obtain ⟨hres, hidem, hten, hcapi, haud⟩ := hc
  rw [hok] at hres
  have hresp := Except.ok.inj hres
  refine ⟨?_, ?_, ?_, ?_, haud, ?_, ?_, hf.2.2.1, hf.2.2.2.1, hf.2.2.2.2.2.2.2.1,
    hf.2.2.2.2.2.2.1, hf.2.2.2.2.1, hf.2.2.2.2.2.1, hf.2.2.2.2.2.2.2.2.2.2.2.2.2.2,
    hf.2.2.2.2.2.2.2.2.1, ⟨capDesc, hcap, ?_⟩, ?_, ?_⟩
  · rw [hten]; exact GoMap.count_insert_self _ _ _
  · intro t ht
    rw [hten]; exact GoMap.lookup_insert_of_ne _ _ _ _ (Ne.symm ht)
  · rw [hcapi]; exact GoMap.count_insert_self _ _ _
  · intro c hcne
    rw [hcapi]; exact GoMap.lookup_insert_of_ne _ _ _ _ (Ne.symm hcne)
  · intro hk
    rw [hidem, if_pos hk, hresp]
  · intro hk
    rw [hidem]
    simp [hk]
  · rw [hresp]
  · rw [hresp]
  · rw [hresp]

theorem Invoke_fresh_effect_witness :
    (Invoke sampleEnv NewService "observatory.models.infer" sampleInvoke "tester"
      testerPrincipal).2 = Except.ok sampleResponse ∧
    cacheHit sampleEnv NewService "observatory.models.infer" sampleInvoke = none ∧
    (Invoke sampleEnv NewService "observatory.models.infer" sampleInvoke "tester"
      testerPrincipal).1.tenantInvocations.count "acme" = 1 ∧
    (Invoke sampleEnv NewService "observatory.models.infer" sampleInvoke "tester"
      testerPrincipal).1.audit =
      [{ Actor := "tester", TenantID := "acme", Capability := "observatory.models.infer",
         Outcome := "success", Timestamp := "2026-01-02T03:04:05Z",
         MessageID := "010203ff100000000000000000000000" }] :=
  ⟨rfl, rfl,
   (Invoke_fresh_effect sampleEnv NewService "observatory.models.infer" sampleInvoke "tester"
      testerPrincipal sampleResponse rfl rfl).1,
   (Invoke_fresh_effect sampleEnv NewService "observatory.models.infer" sampleInvoke "tester"
      testerPrincipal sampleResponse rfl rfl).2.2.2.2.1⟩

/-- C9 (code defect): the cache key is the text `tenant:capability:key`, which does
not determine the triple.  Tenant `a` with key `observatory.models.infer:k` and
tenant `a:observatory.models.infer` with key `k` address the same capability
with different tenants and different keys, yet share one cache entry: the second
tenant, which never invoked before, is answered from the record of the first
(payload echoing the first tenant's input) and is not counted. -/
theorem idempotency_key_collision :
    collisionFirst.Header.TenantID ≠ collisionSecond.Header.TenantID ∧
    collisionFirst.Header.IdempotencyKey ≠ collisionSecond.Header.IdempotencyKey ∧
    idempotencyKey "a" "observatory.models.infer" "observatory.models.infer:k" =
      idempotencyKey "a:observatory.models.infer" "observatory.models.infer" "k" ∧
    cacheHit sampleEnv NewService "observatory.models.infer" collisionSecond = none ∧
    (Invoke sampleEnv NewService "observatory.models.infer" collisionFirst "http-client"
        AnonymousPrincipal).2 = Except.ok
      { Header := invokeHead sampleEnv collisionFirst
        Capability := "observatory.models.infer"
        Payload := echoPayload collisionFirst "observatory.models.infer" bootstrapCapability
        ResultSchemaURI := "schema://observatory/models/infer-output/v1" } ∧
    (Invoke sampleEnv collisionState "observatory.models.infer" collisionSecond "http-client"
        AnonymousPrincipal).2 = Except.ok
      { Header := invokeHead sampleEnv collisionSecond
        Capability := "observatory.models.infer"
        Payload := echoPayload collisionFirst "observatory.models.infer" bootstrapCapability
        ResultSchemaURI := "schema://observatory/models/infer-output/v1" } ∧
    (Invoke sampleEnv collisionState "observatory.models.infer" collisionSecond "http-client"
        AnonymousPrincipal).1.tenantInvocations.count "a:observatory.models.infer" = 0 ∧
    (Invoke sampleEnv collisionState "observatory.models.infer" collisionSecond "http-client"
        AnonymousPrincipal).1.audit.length = 1 :=
  ⟨by decide, by decide, by decide, rfl, rfl, rfl, by decide, by decide⟩

/-! ## Frame lemmas of the operations -/

theorem Publish_cases (env : Env) (s : Service) (topic : String) (req : PublishRequest) :
    (∃ e, Publish env s topic req = (s, Outcome.error e)) ∨
    (∃ head, effectiveTopic topic req ≠ "" ∧ containsDot (effectiveTopic topic req) = true ∧
      Publish env s topic req = publishCommit env s head (effectiveTopic topic req) req) := by
  unfold Publish
  cases hN : Normalize env req.Header with
  | mk head err =>
    cases err with
    | some msg => exact Or.inl ⟨_, rfl⟩
    | none =>
      simp only
      by_cases ht : effectiveTopic topic req = ""
      · rw [if_pos ht]; exact Or.inl ⟨_, rfl⟩
      · rw [if_neg ht]
        cases hd : containsDot (effectiveTopic topic req) with
        | false => exact Or.inl ⟨_, rfl⟩
        | true => exact Or.inr ⟨AddIDGMeta head "core", ht, rfl, rfl⟩

theorem publishCommit_frame (env : Env) (s : Service) (head : MessageHeader) (topic : String)
    (req : PublishRequest) :
    (publishCommit env s head topic req).1.cancelled = s.cancelled ∧
    (publishCommit env s head topic req).1.capabilities = s.capabilities ∧
    (publishCommit env s head topic req).1.subscribers = s.subscribers ∧
    (publishCommit env s head topic req).1.events =
      s.events.insert topic ((s.events.lookup topic).getD [] ++
        [{ Header := head, Topic := topic, EventID := newMessageID env.auxSource,
           Sequence := (((s.events.lookup topic).getD []).length : Int) + 1,
           Payload := req.Payload, PublishedAt := formatRFC3339 env.later,
           Replay := false }]) ∧
    (publishCommit env s head topic req).1.chans =
      (fanOut s.chans ((s.subscribers.lookup topic).getD [])
        { Header := head, Topic := topic, EventID := newMessageID env.auxSource,
          Sequence := (((s.events.lookup topic).getD []).length : Int) + 1,
          Payload := req.Payload, PublishedAt := formatRFC3339 env.later,
          Replay := false }).1 := by
  unfold publishCommit publishEventToNATS
  simp only
  cases hf : fanOut s.chans ((s.subscribers.lookup topic).getD [])
      { Header := head, Topic := topic, EventID := newMessageID env.auxSource,
        Sequence := (((s.events.lookup topic).getD []).length : Int) + 1,
        Payload := req.Payload, PublishedAt := formatRFC3339 env.later,
        Replay := false } with
  | mk chans flag =>
    cases flag with
    | true => simp
    | false => cases hc : s.natsConn <;> simp

theorem Subscribe_cases (s : Service) (topic cursor : String) :
    (∃ e, Subscribe s topic cursor = (s, Except.error e)) ∨
    (∃ start0, topic ≠ "" ∧ containsDot topic = true ∧ parseCursor cursor = some start0 ∧
      Subscribe s topic cursor =
        ((subscribeCommit s topic start0).1, Except.ok (subscribeCommit s topic start0).2)) := by
  unfold Subscribe
  by_cases ht : topic = ""
  · rw [if_pos ht]; exact Or.inl ⟨_, rfl⟩
  · rw [if_neg ht]
    cases hd : containsDot topic with
    | false => exact Or.inl ⟨_, rfl⟩
    | true =>
      cases hp : parseCursor cursor with
      | none => exact Or.inl ⟨_, rfl⟩
      | some start0 => exact Or.inr ⟨start0, ht, rfl, rfl, rfl⟩

theorem Subscribe_frame (s : Service) (topic cursor : String) :
    (Subscribe s topic cursor).1.cancelled = s.cancelled ∧
    (Subscribe s topic cursor).1.capabilities = s.capabilities ∧
    (Subscribe s topic cursor).1.events = s.events := by
  rcases Subscribe_cases s topic cursor with ⟨e, h⟩ | ⟨start0, _, _, _, h⟩
  · rw [h]; simp
  · rw [h]; simp [subscribeCommit]

theorem Unsubscribe_frame (s : Service) (ch : Nat) :
    (Unsubscribe s ch).1.cancelled = s.cancelled ∧
    (Unsubscribe s ch).1.capabilities = s.capabilities ∧
    (Unsubscribe s ch).1.events = s.events := by
  unfold Unsubscribe
  split
  · simp
  · split <;> split <;> simp

theorem Receive_frame (s : Service) (ch : Nat) :
    (Receive s ch).1.cancelled = s.cancelled ∧
    (Receive s ch).1.capabilities = s.capabilities ∧
    (Receive s ch).1.events = s.events ∧
    (Receive s ch).1.subscribers = s.subscribers := by
  unfold Receive
  split
  · simp
  · split <;> simp

theorem Cancel_frame (env : Env) (s : Service) (req : CancelRequest) (messageID : String) :
    (Cancel env s req messageID).1.events = s.events ∧
    (Cancel env s req messageID).1.subscribers = s.subscribers ∧
    (Cancel env s req messageID).1.chans = s.chans ∧
    (Cancel env s req messageID).1.capabilities = s.capabilities ∧
    ((Cancel env s req messageID).1.cancelled = s.cancelled ∨
      ∃ k v, (Cancel env s req messageID).1.cancelled = s.cancelled.insert k v) := by
  unfold Cancel
  split
  · simp
  · split
    · simp
    · simp only [true_and]
      exact Or.inr ⟨_, _, rfl⟩

theorem SetQuota_frame (s : Service) (req : QuotaRequest) :
    (SetQuota s req).1.cancelled = s.cancelled ∧ (SetQuota s req).1.events = s.events ∧
    (SetQuota s req).1.subscribers = s.subscribers ∧ (SetQuota s req).1.chans = s.chans := by
  unfold SetQuota; split <;> (try split) <;> simp

theorem AddCapability_frame (s : Service) (req : CapabilityUpsertRequest) :
    (AddCapability s req).1.cancelled = s.cancelled ∧
    (AddCapability s req).1.events = s.events ∧
    (AddCapability s req).1.subscribers = s.subscribers ∧
    (AddCapability s req).1.chans = s.chans := by
  unfold AddCapability; split <;> (try split) <;> simp

theorem AddSchema_frame (s : Service) (req : SchemaUpsertRequest) :
    (AddSchema s req).1.cancelled = s.cancelled ∧ (AddSchema s req).1.events = s.events ∧
    (AddSchema s req).1.subscribers = s.subscribers ∧ (AddSchema s req).1.chans = s.chans := by
  unfold AddSchema; split <;> (try split) <;> simp

theorem CreateOrg_frame (env : Env) (s : Service) (org : Org) :
    (CreateOrg env s org).1.cancelled = s.cancelled ∧
    (CreateOrg env s org).1.events = s.events ∧
    (CreateOrg env s org).1.subscribers = s.subscribers ∧
    (CreateOrg env s org).1.chans = s.chans := by
  unfold CreateOrg; split <;> simp

theorem CreateTenant_frame (env : Env) (s : Service) (t : Tenant) :
    (CreateTenant env s t).1.cancelled = s.cancelled ∧
    (CreateTenant env s t).1.events = s.events ∧
    (CreateTenant env s t).1.subscribers = s.subscribers ∧
    (CreateTenant env s t).1.chans = s.chans := by
  unfold CreateTenant
  by_cases h1 : (t.Name = "" ∨ t.OrgID = "") <;> by_cases h2 : t.ID = "" <;>
    cases h3 : s.orgs.contains t.OrgID <;> simp [h1, h2, h3]

theorem CreateGateway_frame (env : Env) (s : Service) (g : Gateway) :
    (CreateGateway env s g).1.cancelled = s.cancelled ∧
    (CreateGateway env s g).1.events = s.events ∧
    (CreateGateway env s g).1.subscribers = s.subscribers ∧
    (CreateGateway env s g).1.chans = s.chans := by
  unfold CreateGateway
  by_cases h1 : (g.TenantID = "" ∨ g.Region = "" ∨ g.Binding = "") <;> by_cases h2 : g.ID = "" <;>
    cases h3 : s.tenants.contains g.TenantID <;> simp [h1, h2, h3]

theorem RegisterConnection_frame (env : Env) (s : Service) (c : ConnectionSnapshot) :
    (RegisterConnection env s c).1.cancelled = s.cancelled ∧
    (RegisterConnection env s c).1.events = s.events ∧
    (RegisterConnection env s c).1.subscribers = s.subscribers ∧
    (RegisterConnection env s c).1.chans = s.chans := by
  unfold RegisterConnection; simp

theorem StartNATSBinding_frame (s : Service) (b : Bool) :
    (StartNATSBinding s b).1.cancelled = s.cancelled ∧
    (StartNATSBinding s b).1.events = s.events ∧
    (StartNATSBinding s b).1.subscribers = s.subscribers ∧
    (StartNATSBinding s b).1.chans = s.chans := by
  unfold StartNATSBinding; split <;> (try split) <;> (try split) <;> simp

/-- No operation removes an entry of the cancellation set: a step leaves the set as
it is or adds a binding. -/
theorem step_cancelled (s : Service) (op : Op) :
    (step s op).cancelled = s.cancelled ∨
    ∃ k v, (step s op).cancelled = s.cancelled.insert k v := by
  cases op with
  | query => exact Or.inl rfl
  | invoke env capability req actor principal =>
    exact Or.inl (Invoke_frame env s capability req actor principal).2.1
  | publish env topic req =>
    left
    rcases Publish_cases env s topic req with ⟨e, h⟩ | ⟨head, _, _, h⟩
    · simp [step, h]
    · simp only [step, h]
      exact (publishCommit_frame env s head _ req).1
  | subscribe topic cursor => exact Or.inl (Subscribe_frame s topic cursor).1
  | unsubscribe ch => exact Or.inl (Unsubscribe_frame s ch).1
  | receive ch => exact Or.inl (Receive_frame s ch).1
  | cancel env req messageID => exact (Cancel_frame env s req messageID).2.2.2.2
  | setQuota req => exact Or.inl (SetQuota_frame s req).1
  | addCapability req => exact Or.inl (AddCapability_frame s req).1
  | addSchema req => exact Or.inl (AddSchema_frame s req).1
  | createOrg env org => exact Or.inl (CreateOrg_frame env s org).1
  | createTenant env t => exact Or.inl (CreateTenant_frame env s t).1
  | createGateway env g => exact Or.inl (CreateGateway_frame env s g).1
  | registerConnection env c => exact Or.inl (RegisterConnection_frame env s c).1
  | unregisterConnection id => exact Or.inl rfl
  | setMetrics b => exact Or.inl rfl
  | startNATSBinding b => exact Or.inl (StartNATSBinding_frame s b).1
  | close => exact Or.inl rfl

theorem GoMap.lookup_insert_isSome {V : Type} (m : GoMap V) (k k1 : String) (v : V)
    (h : (m.lookup k1).isSome = true) : ((m.insert k v).lookup k1).isSome = true := by
  by_cases hk : k = k1
  · subst hk; rw [GoMap.lookup_insert_self]; rfl
  · rw [GoMap.lookup_insert_of_ne m k k1 v hk]; exact h

/-- Once a message id is in the cancellation set it stays there. -/
theorem run_cancelled (ops : List Op) :
    ∀ (s : Service) (m : String), (s.cancelled.lookup m).isSome = true →
      ((run s ops).cancelled.lookup m).isSome = true := by
  induction ops with
  | nil => intro s m h; exact h
  | cons op rest ih =>
    intro s m h
    have hstep : ((step s op).cancelled.lookup m).isSome = true := by
      rcases step_cancelled s op with heq | ⟨k, v, heq⟩
      · rw [heq]; exact h
      · rw [heq]; exact GoMap.lookup_insert_isSome _ _ _ _ h
    exact ih (step s op) m hstep

/-! ## Event logs and subscriber channels -/

theorem sendNonBlocking_fields (c c1 : Chan) (e : EventMessage)
    (h : sendNonBlocking c e = some c1) : c1.topic = c.topic ∧ c1.closed = c.closed := by
  unfold sendNonBlocking at h
  split at h
  · simp at h
  · split at h
    · simp at h; subst h; simp
    · simp at h; subst h; simp

/-- The fan-out keeps the heap size, and the topic and the closed flag of every
channel. -/
theorem fanOut_preserves (ids : List Nat) (e : EventMessage) :
    ∀ (chans : List Chan),
      (fanOut chans ids e).1.length = chans.length ∧
      ∀ id c, chans.get? id = some c →
        ∃ c1, (fanOut chans ids e).1.get? id = some c1 ∧ c1.topic = c.topic ∧
          c1.closed = c.closed := by
  induction ids with
  | nil =>
    intro chans
    exact ⟨rfl, fun id c h => ⟨c, h, rfl, rfl⟩⟩
  | cons id0 rest ih =>
    intro chans
    unfold fanOut
    cases h0 : chans.get? id0 with
    | none => exact ih chans
    | some c0 =>
      dsimp only
      cases hs : sendNonBlocking c0 e with
      | none => exact ⟨rfl, fun id c h => ⟨c, h, rfl, rfl⟩⟩
      | some c1 =>
        obtain ⟨ht, hc⟩ := sendNonBlocking_fields c0 c1 e hs
        obtain ⟨hlen, hget⟩ := ih (chans.set id0 c1)
        refine ⟨by simpa using hlen, ?_⟩
        intro id c h
        by_cases hid : id0 = id
        · subst hid
          have hlt : id0 < chans.length := by
            by_contra hge
            have : chans.get? id0 = none := by simp; omega
            rw [this] at h0; simp at h0
          have hset : (chans.set id0 c1).get? id0 = some c1 := by
            simp [List.getElem?_set, hlt]
          obtain ⟨c2, h2, ht2, hc2⟩ := hget id0 c1 hset
          rw [h0] at h
          have hcc := Option.some.inj h
          subst hcc
          exact ⟨c2, h2, ht2.trans ht, hc2.trans hc⟩
        · have hset : (chans.set id0 c1).get? id = some c := by
            simp [List.getElem?_set, hid]
            simpa using h
          exact hget id c hset

/-- When every addressed channel is open, the fan-out does not panic. -/
theorem fanOut_no_panic (ids : List Nat) (e : EventMessage) :
    ∀ (chans : List Chan),
      (∀ id ∈ ids, ∀ c, chans.get? id = some c → c.closed = false) →
      (fanOut chans ids e).2 = false := by
  induction ids with
  | nil => intro chans _; rfl
  | cons id0 rest ih =>
    intro chans hopen
    unfold fanOut
    cases h0 : chans.get? id0 with
    | none =>
      exact ih chans (fun id hid c hc => hopen id (List.mem_cons_of_mem id0 hid) c hc)
    | some c0 =>
      have hc0 : c0.closed = false := hopen id0 (List.mem_cons_self id0 rest) c0 h0
      dsimp only
      cases hs : sendNonBlocking c0 e with
      | none =>
        unfold sendNonBlocking at hs
        simp [hc0] at hs
        split at hs <;> simp at hs
      | some c1 =>
        obtain ⟨ht, hc⟩ := sendNonBlocking_fields c0 c1 e hs
        apply ih (chans.set id0 c1)
        intro id hid c hget
        by_cases hidq : id0 = id
        · subst hidq
          have hlt : id0 < chans.length := by
            by_contra hge
            have : chans.get? id0 = none := by simp; omega
            rw [this] at h0; simp at h0
          have hset : (chans.set id0 c1).get? id0 = some c1 := by
            simp [List.getElem?_set, hlt]
          rw [hset] at hget
          have := Option.some.inj hget
          subst this
          rw [hc]; exact hc0
        · have hset : (chans.set id0 c1).get? id = chans.get? id := by
            simp [List.getElem?_set, hidq]
          rw [hset] at hget
          exact hopen id (List.mem_cons_of_mem id0 hid) c hget

/-- A step leaves the event logs as they are or appends one event, numbered with
the next sequence of its topic, to the log of one topic. -/
theorem step_events (s : Service) (op : Op) :
    (step s op).events = s.events ∨
    ∃ topic e, (step s op).events =
        s.events.insert topic ((s.events.lookup topic).getD [] ++ [e]) ∧
      e.Sequence = (((s.events.lookup topic).getD []).length : Int) + 1 ∧
      e.Replay = false ∧ e.Topic = topic := by
  cases op with
  | query => exact Or.inl rfl
  | invoke env capability req actor principal =>
    exact Or.inl (Invoke_frame env s capability req actor principal).2.2.2.1
  | publish env topic req =>
    rcases Publish_cases env s topic req with ⟨e, h⟩ | ⟨head, _, _, h⟩
    · left; simp [step, h]
    · right
      simp only [step, h]
      exact ⟨_, _, (publishCommit_frame env s head _ req).2.2.2.1, rfl, rfl, rfl⟩
  | subscribe topic cursor => exact Or.inl (Subscribe_frame s topic cursor).2.2
  | unsubscribe ch => exact Or.inl (Unsubscribe_frame s ch).2.2
  | receive ch => exact Or.inl (Receive_frame s ch).2.2.1
  | cancel env req messageID => exact Or.inl (Cancel_frame env s req messageID).1
  | setQuota req => exact Or.inl (SetQuota_frame s req).2.1
  | addCapability req => exact Or.inl (AddCapability_frame s req).2.1
  | addSchema req => exact Or.inl (AddSchema_frame s req).2.1
  | createOrg env org => exact Or.inl (CreateOrg_frame env s org).2.1
  | createTenant env t => exact Or.inl (CreateTenant_frame env s t).2.1
  | createGateway env g => exact Or.inl (CreateGateway_frame env s g).2.1
  | registerConnection env c => exact Or.inl (RegisterConnection_frame env s c).2.1
  | unregisterConnection id => exact Or.inl rfl
  | setMetrics b => exact Or.inl rfl
  | startNATSBinding b => exact Or.inl (StartNATSBinding_frame s b).2.1
  | close => exact Or.inl rfl

theorem SequencedLogs_append (events : GoMap (List EventMessage)) (topic : String)
    (e : EventMessage)
    (hinv : ∀ t log, events.lookup t = some log →
      ∀ i e1, log.get? i = some e1 →
        e1.Sequence = (i : Int) + 1 ∧ e1.Replay = false ∧ e1.Topic = t)
    (hseq : e.Sequence = (((events.lookup topic).getD []).length : Int) + 1)
    (hrep : e.Replay = false) (htop : e.Topic = topic) :
    ∀ t log, (events.insert topic ((events.lookup topic).getD [] ++ [e])).lookup t = some log →
      ∀ i e1, log.get? i = some e1 →
        e1.Sequence = (i : Int) + 1 ∧ e1.Replay = false ∧ e1.Topic = t := by
  intro t log hlook i e1 hget
  by_cases ht : topic = t
  · subst ht
    rw [GoMap.lookup_insert_self] at hlook
    have hlog := Option.some.inj hlook
    subst hlog
    by_cases hi : i < ((events.lookup topic).getD []).length
    · have hold : ((events.lookup topic).getD []).get? i = some e1 := by
        rw [← hget]
        simp [List.getElem?_append_left hi]
      cases hl : events.lookup topic with
      | none => rw [hl] at hi; simp at hi
      | some old =>
        rw [hl] at hold
        exact hinv topic old hl i e1 (by simpa using hold)
    · have hlen : i < ((events.lookup topic).getD [] ++ [e]).length := by
        by_contra hge
        have : ((events.lookup topic).getD [] ++ [e]).get? i = none := by
          simp at hge ⊢; omega
        rw [this] at hget; simp at hget
      have hieq : i = ((events.lookup topic).getD []).length := by
        simp at hlen; omega
      have : e1 = e := by
        subst hieq
        simp at hget
        exact hget.symm
      subst this
      refine ⟨?_, hrep, htop⟩
      rw [hseq, hieq]
  · rw [GoMap.lookup_insert_of_ne _ _ _ _ ht] at hlook
    exact hinv t log hlook i e1 hget

theorem SequencedLogs_step (s : Service) (op : Op) (h : SequencedLogs s) :
    SequencedLogs (step s op) := by
  unfold SequencedLogs at *
  rcases step_events s op with heq | ⟨topic, e, heq, hseq, hrep, htop⟩
  · rw [heq]; exact h
  · rw [heq]; exact SequencedLogs_append s.events topic e h hseq hrep htop

theorem get?_lt_of_some {α : Type} (l : List α) (i : Nat) (a : α) (h : l.get? i = some a) :
    i < l.length := by
  by_contra hge
  have : l.get? i = none := by simp; omega
  rw [this] at h; simp at h

theorem SubscribersOpen_congr (s s1 : Service) (hsub : s1.subscribers = s.subscribers)
    (hch : s1.chans = s.chans) (h : SubscribersOpen s) : SubscribersOpen s1 := by
  unfold SubscribersOpen at *
  rw [hsub, hch]; exact h

theorem SubscribersOpen_subscribe (s : Service) (topic : String) (start0 : Int)
    (h : SubscribersOpen s) : SubscribersOpen (subscribeCommit s topic start0).1 := by
  unfold SubscribersOpen at *
  simp only [subscribeCommit]
  intro t subs id hlook hid
  have hold : ∀ c, s.chans.get? id = some c →
      (s.chans ++ [({ topic := topic, buf := [], closed := false } : Chan)]).get? id
        = some c := by
    intro c hc
    have hlt := get?_lt_of_some _ _ _ hc
    rw [← hc]
    simp [List.getElem?_append_left hlt]
  by_cases ht : topic = t
  · subst ht
    rw [GoMap.lookup_insert_self] at hlook
    have hs := Option.some.inj hlook
    subst hs
    rcases List.mem_append.1 hid with hmem | hmem
    · cases hl : s.subscribers.lookup topic with
      | none => rw [hl] at hmem; simp at hmem
      | some old =>
        rw [hl] at hmem
        obtain ⟨c, hc, hct, hcc⟩ := h topic old id hl (by simpa using hmem)
        exact ⟨c, hold c hc, hct, hcc⟩
    · have hideq : id = s.chans.length := by simpa using hmem
      subst hideq
      exact ⟨({ topic := topic, buf := [], closed := false } : Chan), by simp, rfl, rfl⟩
  · rw [GoMap.lookup_insert_of_ne _ _ _ _ ht] at hlook
    obtain ⟨c, hc, hct, hcc⟩ := h t subs id hlook hid
    exact ⟨c, hold c hc, hct, hcc⟩

theorem SubscribersOpen_unsubscribe (s : Service) (ch : Nat) (h : SubscribersOpen s) :
    SubscribersOpen (Unsubscribe s ch).1 := by
  unfold Unsubscribe
  cases hget : s.chans.get? ch with
  | none => exact h
  | some c =>
    dsimp only
    -- the subscriber sets after the removal hold only open channels other than `ch`
    have hsubs : ∀ (subsMap : GoMap (List Nat)),
        subsMap = (match s.subscribers.lookup c.topic with
          | none => s.subscribers
          | some subs => s.subscribers.insert c.topic (subs.filter (fun x => x ≠ ch))) →
        ∀ t subs id, subsMap.lookup t = some subs → id ∈ subs →
          id ≠ ch ∧ ∃ c1, s.chans.get? id = some c1 ∧ c1.topic = t ∧ c1.closed = false := by
      intro subsMap hmap t subs id hlook hid
      cases hl : s.subscribers.lookup c.topic with
      | none =>
        rw [hl] at hmap
        subst hmap
        obtain ⟨c1, hc1, ht1, hcl1⟩ := h t subs id hlook hid
        refine ⟨?_, c1, hc1, ht1, hcl1⟩
        intro hidch
        subst hidch
        rw [hget] at hc1
        have := Option.some.inj hc1
        subst this
        rw [ht1] at hl
        rw [hl] at hlook
        simp at hlook
      | some old =>
        rw [hl] at hmap
        subst hmap
        by_cases ht : c.topic = t
        · subst ht
          rw [GoMap.lookup_insert_self] at hlook
          have := Option.some.inj hlook
          subst this
          have hmem := List.mem_filter.1 hid
          have hne : id ≠ ch := by simpa using hmem.2
          exact ⟨hne, h c.topic old id hl hmem.1⟩
        · rw [GoMap.lookup_insert_of_ne _ _ _ _ ht] at hlook
          obtain ⟨c1, hc1, ht1, hcl1⟩ := h t subs id hlook hid
          refine ⟨?_, c1, hc1, ht1, hcl1⟩
          intro hidch
          subst hidch
          rw [hget] at hc1
          have := Option.some.inj hc1
          subst this
          exact ht ht1
    cases hclosed : c.closed with
    | true =>
      simp only [if_true]
      unfold SubscribersOpen
      intro t subs id hlook hid
      cases hl : s.subscribers.lookup c.topic with
      | none =>
        rw [hl] at hlook
        exact h t subs id hlook hid
      | some old =>
        rw [hl] at hlook
        have := (hsubs _ (by rw [hl]) t subs id hlook hid).2
        exact this
    | false =>
      simp only [Bool.false_eq_true, if_false]
      unfold SubscribersOpen
      intro t subs id hlook hid
      have hboth : id ≠ ch ∧ ∃ c1, s.chans.get? id = some c1 ∧ c1.topic = t ∧
          c1.closed = false := by
        cases hl : s.subscribers.lookup c.topic with
        | none =>
          rw [hl] at hlook
          exact hsubs _ (by rw [hl]) t subs id hlook hid
        | some old =>
          rw [hl] at hlook
          exact hsubs _ (by rw [hl]) t subs id hlook hid
      obtain ⟨hne, c1, hc1, ht1, hcl1⟩ := hboth
      refine ⟨c1, ?_, ht1, hcl1⟩
      cases hl : s.subscribers.lookup c.topic with
      | none =>
        simp [List.getElem?_set, Ne.symm hne]
        simpa using hc1
      | some old =>
        simp [List.getElem?_set, Ne.symm hne]
        simpa using hc1

theorem SubscribersOpen_receive (s : Service) (ch : Nat) (h : SubscribersOpen s) :
    SubscribersOpen (Receive s ch).1 := by
  unfold Receive
  cases hget : s.chans.get? ch with
  | none => exact h
  | some c =>
    dsimp only
    cases hbuf : c.buf with
    | nil => exact h
    | cons e rest =>
      dsimp only
      unfold SubscribersOpen at *
      intro t subs id hlook hid
      obtain ⟨c1, hc1, ht1, hcl1⟩ := h t subs id hlook hid
      by_cases hidch : ch = id
      · subst hidch
        rw [hget] at hc1
        have := Option.some.inj hc1
        subst this
        have hlt := get?_lt_of_some _ _ _ hget
        exact ⟨{ c with buf := rest }, by simp [List.getElem?_set, hlt], ht1, hcl1⟩
      · refine ⟨c1, ?_, ht1, hcl1⟩
        simp [List.getElem?_set, hidch]
        simpa using hc1

theorem SubscribersOpen_publish (env : Env) (s : Service) (head : MessageHeader)
    (topic : String) (req : PublishRequest) (h : SubscribersOpen s) :
    SubscribersOpen (publishCommit env s head topic req).1 := by
  obtain ⟨_, _, hsub, _, hch⟩ := publishCommit_frame env s head topic req
  unfold SubscribersOpen at *
  rw [hsub, hch]
  intro t subs id hlook hid
  obtain ⟨c, hc, hct, hcc⟩ := h t subs id hlook hid
  obtain ⟨c1, hc1, ht1, hcl1⟩ := (fanOut_preserves _ _ s.chans).2 id c hc
  exact ⟨c1, hc1, ht1.trans hct, hcl1.trans hcc⟩

theorem SubscribersOpen_step (s : Service) (op : Op) (h : SubscribersOpen s) :
    SubscribersOpen (step s op) := by
  cases op with
  | query => exact h
  | invoke env capability req actor principal =>
    have hf := Invoke_frame env s capability req actor principal
    exact SubscribersOpen_congr s _ hf.2.2.2.2.1 hf.2.2.2.2.2.1 h
  | publish env topic req =>
    rcases Publish_cases env s topic req with ⟨e, hp⟩ | ⟨head, _, _, hp⟩
    · simp only [step, hp]; exact h
    · simp only [step, hp]; exact SubscribersOpen_publish env s head _ req h
  | subscribe topic cursor =>
    rcases Subscribe_cases s topic cursor with ⟨e, hp⟩ | ⟨start0, _, _, _, hp⟩
    · simp only [step, hp]; exact h
    · simp only [step, hp]; exact SubscribersOpen_subscribe s topic start0 h
  | unsubscribe ch => exact SubscribersOpen_unsubscribe s ch h
  | receive ch => exact SubscribersOpen_receive s ch h
  | cancel env req messageID =>
    have hf := Cancel_frame env s req messageID
    exact SubscribersOpen_congr s _ hf.2.1 hf.2.2.1 h
  | setQuota req =>
    have hf := SetQuota_frame s req
    exact SubscribersOpen_congr s _ hf.2.2.1 hf.2.2.2 h
  | addCapability req =>
    have hf := AddCapability_frame s req
    exact SubscribersOpen_congr s _ hf.2.2.1 hf.2.2.2 h
  | addSchema req =>
    have hf := AddSchema_frame s req
    exact SubscribersOpen_congr s _ hf.2.2.1 hf.2.2.2 h
  | createOrg env org =>
    have hf := CreateOrg_frame env s org
    exact SubscribersOpen_congr s _ hf.2.2.1 hf.2.2.2 h
  | createTenant env t =>
    have hf := CreateTenant_frame env s t
    exact SubscribersOpen_congr s _ hf.2.2.1 hf.2.2.2 h
  | createGateway env g =>
    have hf := CreateGateway_frame env s g
    exact SubscribersOpen_congr s _ hf.2.2.1 hf.2.2.2 h
  | registerConnection env c =>
    have hf := RegisterConnection_frame env s c
    exact SubscribersOpen_congr s _ hf.2.2.1 hf.2.2.2 h
  | unregisterConnection id => exact h
  | setMetrics b => exact h
  | startNATSBinding b =>
    have hf := StartNATSBinding_frame s b
    exact SubscribersOpen_congr s _ hf.2.2.1 hf.2.2.2 h
  | close => exact h

theorem NewService_invariants : SequencedLogs NewService ∧ SubscribersOpen NewService := by
  constructor
  · intro topic log h
    simp [NewService, GoMap.empty, GoMap.lookup] at h
  · intro topic subs id h
    simp [NewService, GoMap.empty, GoMap.lookup] at h

theorem run_invariants (ops : List Op) :
    ∀ s, SequencedLogs s ∧ SubscribersOpen s →
      SequencedLogs (run s ops) ∧ SubscribersOpen (run s ops) := by
  induction ops with
  | nil => intro s h; exact h
  | cons op rest ih =>
    intro s h
    exact ih (step s op) ⟨SequencedLogs_step s op h.1, SubscribersOpen_step s op h.2⟩

theorem Reachable_invariants (s : Service) (h : Reachable s) :
    SequencedLogs s ∧ SubscribersOpen s := by
  obtain ⟨ops, hops⟩ := h
  rw [← hops]
  exact run_invariants ops NewService NewService_invariants

/-- In a state whose subscriber sets hold only open channels the critical section
of `Publish` does not panic: it acknowledges the next sequence number of the
topic. -/
theorem publishCommit_ok (env : Env) (s : Service) (head : MessageHeader) (topic : String)
    (req : PublishRequest) (h : SubscribersOpen s) :
    (publishCommit env s head topic req).2 = Outcome.ok
      { Header := head, Topic := topic, EventID := newMessageID env.auxSource,
        Sequence := (((s.events.lookup topic).getD []).length : Int) + 1, Accepted := true } := by
  have hnp := fanOut_no_panic ((s.subscribers.lookup topic).getD [])
    { Header := head, Topic := topic, EventID := newMessageID env.auxSource,
      Sequence := (((s.events.lookup topic).getD []).length : Int) + 1,
      Payload := req.Payload, PublishedAt := formatRFC3339 env.later, Replay := false }
    s.chans (by
      intro id hid c hc
      cases hl : s.subscribers.lookup topic with
      | none => rw [hl] at hid; simp at hid
      | some subs =>
        rw [hl] at hid
        obtain ⟨c1, hc1, _, hcl1⟩ := h topic subs id hl (by simpa using hid)
        rw [hc] at hc1
        have := Option.some.inj hc1
        subst this
        exact hcl1)
  unfold publishCommit
  dsimp only
  cases hf : fanOut s.chans ((s.subscribers.lookup topic).getD [])
      { Header := head, Topic := topic, EventID := newMessageID env.auxSource,
        Sequence := (((s.events.lookup topic).getD []).length : Int) + 1,
        Payload := req.Payload, PublishedAt := formatRFC3339 env.later,
        Replay := false } with
  | mk chans flag =>
    rw [hf] at hnp
    simp only at hnp
    subst hnp
    rfl

/-- One step either acknowledges nothing on `topic` and keeps the length of its log,
or acknowledges the next sequence number and extends the log by one. -/
theorem ackedSequence_cases (topic : String) (s : Service) (op : Op) (h : SubscribersOpen s) :
    (ackedSequence topic s op = [] ∧ logLength (step s op) topic = logLength s topic) ∨
    (ackedSequence topic s op = [(logLength s topic : Int) + 1] ∧
      logLength (step s op) topic = logLength s topic + 1) := by
  cases op with
  | publish env t req =>
    rcases Publish_cases env s t req with ⟨e, hp⟩ | ⟨head, _, _, hp⟩
    · left
      simp [ackedSequence, step, hp]
    · have hok := publishCommit_ok env s head (effectiveTopic t req) req h
      have hev := (publishCommit_frame env s head (effectiveTopic t req) req).2.2.2.1
      by_cases ht : effectiveTopic t req = topic
      · right
        constructor
        · simp only [ackedSequence, hp, hok]
          simp [ht, logLength]
        · simp only [step, hp, logLength, hev]
          rw [ht]
          simp [GoMap.lookup_insert_self]
      · left
        constructor
        · simp only [ackedSequence, hp, hok]
          simp [ht]
        · simp only [step, hp, logLength, hev]
          rw [GoMap.lookup_insert_of_ne _ _ _ _ ht]
  | query => exact Or.inl ⟨rfl, rfl⟩
  | invoke env capability req actor principal =>
    refine Or.inl ⟨rfl, ?_⟩
    simp only [step, logLength, (Invoke_frame env s capability req actor principal).2.2.2.1]
  | subscribe t cursor =>
    refine Or.inl ⟨rfl, ?_⟩
    simp only [step, logLength, (Subscribe_frame s t cursor).2.2]
  | unsubscribe ch =>
    refine Or.inl ⟨rfl, ?_⟩
    simp only [step, logLength, (Unsubscribe_frame s ch).2.2]
  | receive ch =>
    refine Or.inl ⟨rfl, ?_⟩
    simp only [step, logLength, (Receive_frame s ch).2.2.1]
  | cancel env req messageID =>
    refine Or.inl ⟨rfl, ?_⟩
    simp only [step, logLength, (Cancel_frame env s req messageID).1]
  | setQuota req =>
    refine Or.inl ⟨rfl, ?_⟩
    simp only [step, logLength, (SetQuota_frame s req).2.1]
  | addCapability req =>
    refine Or.inl ⟨rfl, ?_⟩
    simp only [step, logLength, (AddCapability_frame s req).2.1]
  | addSchema req =>
    refine Or.inl ⟨rfl, ?_⟩
    simp only [step, logLength, (AddSchema_frame s req).2.1]
  | createOrg env org =>
    refine Or.inl ⟨rfl, ?_⟩
    simp only [step, logLength, (CreateOrg_frame env s org).2.1]
  | createTenant env t =>
    refine Or.inl ⟨rfl, ?_⟩
    simp only [step, logLength, (CreateTenant_frame env s t).2.1]
  | createGateway env g =>
    refine Or.inl ⟨rfl, ?_⟩
    simp only [step, logLength, (CreateGateway_frame env s g).2.1]
  | registerConnection env c =>
    refine Or.inl ⟨rfl, ?_⟩
    simp only [step, logLength, (RegisterConnection_frame env s c).2.1]
  | unregisterConnection id => exact Or.inl ⟨rfl, rfl⟩
  | setMetrics b => exact Or.inl ⟨rfl, rfl⟩
  | startNATSBinding b =>
    refine Or.inl ⟨rfl, ?_⟩
    simp only [step, logLength, (StartNATSBinding_frame s b).2.1]
  | close => exact Or.inl ⟨rfl, rfl⟩

/-- The sequence numbers acknowledged on `topic` during a run count up from the
length of its log at the start. -/
theorem publishedSequences_from (topic : String) (ops : List Op) :
    ∀ s, SubscribersOpen s →
      publishedSequences topic s ops =
        (List.range (publishedSequences topic s ops).length).map
          (fun i : Nat => (logLength s topic : Int) + 1 + (i : Int)) := by
  induction ops with
  | nil => intro s _; rfl
  | cons op rest ih =>
    intro s h
    have ih1 := ih (step s op) (SubscribersOpen_step s op h)
    unfold publishedSequences
    rcases ackedSequence_cases topic s op h with ⟨hack, hlen⟩ | ⟨hack, hlen⟩
    · rw [hack, List.nil_append]
      rw [hlen] at ih1
      exact ih1
    · rw [hack]
      rw [hlen] at ih1
      have hl : ([(logLength s topic : Int) + 1] ++ publishedSequences topic (step s op) rest).length
          = (publishedSequences topic (step s op) rest).length + 1 := by simp
      rw [hl, List.range_succ_eq_map, List.map_cons, List.map_map, List.singleton_append]
      congr 1
      conv_lhs => rw [ih1]
      apply List.map_congr_left
      intro i _
      simp only [Function.comp]
      push_cast
      ring

/-! ## Claims about cancellation, publish and subscribe -/

/-- C4: in every state reachable from `NewService`, entry `i` (counting from 1) of
every topic log has sequence `i`; consequently the sequence numbers acknowledged
by the successful publishes to a topic during any run from `NewService` are
exactly `1..N` in publish order, whatever other operations (publishes to other
topics included) happen in between. -/
theorem Sequence_monotonicity :
    (∀ s, Reachable s → ∀ topic log, s.events.lookup topic = some log →
      ∀ i e, log.get? i = some e → e.Sequence = (i : Int) + 1) ∧
    (∀ (ops : List Op) (topic : String),
      publishedSequences topic NewService ops =
        (List.range (publishedSequences topic NewService ops).length).map
          (fun i : Nat => (i : Int) + 1)) := by
  constructor
  · intro s hs topic log hlog i e hget
    exact ((Reachable_invariants s hs).1 topic log hlog i e hget).1
  · intro ops topic
    have h := publishedSequences_from topic ops NewService NewService_invariants.2
    have h0 : logLength NewService topic = 0 := by
      simp [logLength, NewService, GoMap.empty, GoMap.lookup]
    rw [h0] at h
    conv_lhs => rw [h]
    apply List.map_congr_left
    intro i _
    push_cast
    ring

theorem Sequence_monotonicity_witness :
    publishedSequences "observatory.inference.completed" NewService samplePublishes = [1, 2] ∧
    publishedSequences "observatory.inference.completed" NewService samplePublishes =
      (List.range (publishedSequences "observatory.inference.completed" NewService
        samplePublishes).length).map (fun i : Nat => (i : Int) + 1) ∧
    (∀ log, (run NewService samplePublishes).events.lookup "observatory.inference.completed"
        = some log → ∀ i e, log.get? i = some e → e.Sequence = (i : Int) + 1) :=
  ⟨by decide,
   Sequence_monotonicity.2 samplePublishes "observatory.inference.completed",
   fun log hlog => Sequence_monotonicity.1 (run NewService samplePublishes)
     ⟨samplePublishes, rfl⟩ "observatory.inference.completed" log hlog⟩

/-- C5: for a namespaced topic, `Subscribe(T, "0")` and `Subscribe(T, "")` return as
replay exactly the events of the topic log, in log order, each equal to the
stored event except that `replay == true`; the event logs are not modified, and
in every reachable state the stored entries have `replay == false`. -/
theorem Subscribe_replay (s : Service) (topic cursor : String)
    (hdot : containsDot topic = true) (hc : cursor = "0" ∨ cursor = "") :
    (∃ ch, (Subscribe s topic cursor).2 = Except.ok
      (((s.events.lookup topic).getD []).map (fun e => { e with Replay := true }), ch)) ∧
    (((s.events.lookup topic).getD []).map
      (fun e => ({ e with Replay := true } : EventMessage))).length = logLength s topic ∧
    (Subscribe s topic cursor).1.events = s.events ∧
    (Reachable s → ∀ e ∈ (s.events.lookup topic).getD [], e.Replay = false) := by
  have hne : topic ≠ "" := by
    intro h
    subst h
    simp [containsDot] at hdot
  have hp : parseCursor cursor = some 0 := by
    rcases hc with h | h <;> subst h <;> decide
  refine ⟨?_, by simp [logLength], (Subscribe_frame s topic cursor).2.2, ?_⟩
  · refine ⟨s.chans.length, ?_⟩
    unfold Subscribe
    rw [if_neg hne, hdot, hp]
    simp [subscribeCommit]
  · intro hs e he
    cases hl : s.events.lookup topic with
    | none => rw [hl] at he; simp at he
    | some log =>
      rw [hl] at he
      obtain ⟨i, hi⟩ := List.mem_iff_get?.1 (by simpa using he)
      exact ((Reachable_invariants s hs).1 topic log hl i e hi).2.1

theorem Subscribe_replay_witness :
    logLength (run NewService samplePublishes) "observatory.inference.completed" = 2 ∧
    (∃ ch, (Subscribe (run NewService samplePublishes) "observatory.inference.completed"
        "0").2 = Except.ok
      ((((run NewService samplePublishes).events.lookup
          "observatory.inference.completed").getD []).map
        (fun e => { e with Replay := true }), ch)) ∧
    (∃ ch, (Subscribe (run NewService samplePublishes) "observatory.inference.completed"
        "").2 = Except.ok
      ((((run NewService samplePublishes).events.lookup
          "observatory.inference.completed").getD []).map
        (fun e => { e with Replay := true }), ch)) ∧
    (Subscribe (run NewService samplePublishes) "observatory.inference.completed" "0").1.events
      = (run NewService samplePublishes).events ∧
    (∀ e ∈ ((run NewService samplePublishes).events.lookup
        "observatory.inference.completed").getD [], e.Replay = false) :=
  ⟨by decide,
   (Subscribe_replay (run NewService samplePublishes) "observatory.inference.completed" "0"
     (by decide) (Or.inl rfl)).1,
   (Subscribe_replay (run NewService samplePublishes) "observatory.inference.completed" ""
     (by decide) (Or.inr rfl)).1,
   (Subscribe_replay (run NewService samplePublishes) "observatory.inference.completed" "0"
     (by decide) (Or.inl rfl)).2.2.1,
   (Subscribe_replay (run NewService samplePublishes) "observatory.inference.completed" "0"
     (by decide) (Or.inl rfl)).2.2.2 ⟨samplePublishes, rfl⟩⟩

theorem Cancel_ok_inv (env : Env) (s : Service) (req : CancelRequest) (messageID : String)
    (ack : CancelAck) (h : (Cancel env s req messageID).2 = Except.ok ack) :
    ack.TargetMessageID = effectiveTarget messageID req ∧
    effectiveTarget messageID req ≠ "" ∧
    (Cancel env s req messageID).1.cancelled =
      s.cancelled.insert (effectiveTarget messageID req) req.Reason := by
  unfold Cancel at h ⊢
  cases hN : Normalize env req.Header with
  | mk head err =>
    rw [hN] at h
    cases err with
    | some msg => simp at h
    | none =>
      dsimp only at h ⊢
      by_cases ht : effectiveTarget messageID req = ""
      · rw [if_pos ht] at h; simp at h
      · rw [if_neg ht] at h ⊢
        simp at h
        subst h
        exact ⟨rfl, ht, rfl⟩

theorem Invoke_of_fail (env : Env) (s : Service) (capability : String) (req : InvokeRequest)
    (actor : String) (principal : Principal) (e : MigError)
    (h : invokeGate env s capability req principal = InvokeDecision.fail e) :
    Invoke env s capability req actor principal = (s, Except.error e) := by
  unfold Invoke
  rw [h]

/-- An `Invoke` whose message id is in the cancellation set never succeeds and
leaves the state unchanged; when it passes the header, capability and scope
gates it fails with `MIG_TIMEOUT`. -/
theorem Invoke_of_cancelled (env : Env) (s : Service) (capability : String)
    (req : InvokeRequest) (actor : String) (principal : Principal)
    (hm : req.Header.MessageID ≠ "")
    (hc : (s.cancelled.lookup req.Header.MessageID).isSome = true) :
    (∃ e, Invoke env s capability req actor principal = (s, Except.error e)) ∧
    (normalizes env req.Header → effectiveCapability capability req ≠ "" →
      (∃ capDesc, s.capabilities.lookup (effectiveCapability capability req) = some capDesc ∧
        principal.HasAnyScope capDesc.AuthScopes = true) →
      errorCode (Invoke env s capability req actor principal).2 = some ErrorTimeout) := by
  have hcan : normalizes env req.Header → effectiveCapability capability req ≠ "" →
      ∀ capDesc, s.capabilities.lookup (effectiveCapability capability req) = some capDesc →
        principal.HasAnyScope capDesc.AuthScopes = true →
        ∃ reason, invokeGate env s capability req principal = InvokeDecision.fail
          { Code := ErrorTimeout, Message := "invocation cancelled: " ++ reason,
            Retryable := true } := by
    intro hn hne capDesc hcap hscope
    have hid := (invokeHead_fields env req hn).2.2 hm
    cases hl : s.cancelled.lookup req.Header.MessageID with
    | none => rw [hl] at hc; simp at hc
    | some reason =>
      rw [← hid] at hl
      exact ⟨reason, invokeGate_cancelled env s capability req principal capDesc reason hn hne
        hcap hscope hl⟩
  constructor
  · by_cases hn : normalizes env req.Header
    swap
    · obtain ⟨msg, hg⟩ := invokeGate_not_normalizes env s capability req principal hn
      exact ⟨_, Invoke_of_fail env s capability req actor principal _ hg⟩
    by_cases hne : effectiveCapability capability req = ""
    · have hg := invokeGate_no_capability env s capability req principal hn hne
      exact ⟨_, Invoke_of_fail env s capability req actor principal _ hg⟩
    cases hcap : s.capabilities.lookup (effectiveCapability capability req) with
    | none =>
      have hg := invokeGate_unknown env s capability req principal hn hne hcap
      exact ⟨_, Invoke_of_fail env s capability req actor principal _ hg⟩
    | some capDesc =>
      cases hscope : principal.HasAnyScope capDesc.AuthScopes with
      | false =>
        have hg := invokeGate_forbidden env s capability req principal capDesc hn hne hcap
          hscope
        exact ⟨_, Invoke_of_fail env s capability req actor principal _ hg⟩
      | true =>
        obtain ⟨reason, hg⟩ := hcan hn hne capDesc hcap hscope
        exact ⟨_, Invoke_of_fail env s capability req actor principal _ hg⟩
  · intro hn hne ⟨capDesc, hcap, hscope⟩
    obtain ⟨reason, hg⟩ := hcan hn hne capDesc hcap hscope
    simp [Invoke, hg, errorCode]

/-- C3 (as stated, refuted): after a successful `Cancel` of `invoke-99`, an `Invoke`
with that message id for an unregistered capability fails with
`MIG_UNSUPPORTED_CAPABILITY`, not with `MIG_TIMEOUT`: the capability lookup
precedes the cancellation check. -/
theorem Cancel_sticky_counterexample :
    errorCode (Cancel sampleEnv NewService sampleCancel "invoke-99").2 = none ∧
    ((Cancel sampleEnv NewService sampleCancel "invoke-99").1.cancelled.lookup
      cancelledInvoke.Header.MessageID) = some "operator" ∧
    errorCode (Invoke sampleEnv (Cancel sampleEnv NewService sampleCancel "invoke-99").1
      "no.such.capability" cancelledInvoke "http-client" AnonymousPrincipal).2
      = some ErrorUnsupportedCapability ∧
    ErrorUnsupportedCapability ≠ ErrorTimeout := by
  decide

/-- C3 (amended): after a successful `Cancel` that records message id `M`, and
after any sequence of further operations, every `Invoke` whose header
`message_id` equals `M` fails and leaves the state unchanged; it fails with
`MIG_TIMEOUT` whenever it passes the gates that precede the cancellation check
(header normalizes, capability named and registered, scope gate passed). -/
theorem Cancel_sticky (env0 : Env) (s : Service) (creq : CancelRequest) (messageID : String)
    (ack : CancelAck)
    (hcancel : (Cancel env0 s creq messageID).2 = Except.ok ack)
    (ops : List Op) (env : Env) (capability : String) (req : InvokeRequest) (actor : String)
    (principal : Principal)
    (hM : req.Header.MessageID = ack.TargetMessageID) :
    (∃ e, Invoke env (run (Cancel env0 s creq messageID).1 ops) capability req actor principal
      = (run (Cancel env0 s creq messageID).1 ops, Except.error e)) ∧
    (normalizes env req.Header → effectiveCapability capability req ≠ "" →
      (∃ capDesc, (run (Cancel env0 s creq messageID).1 ops).capabilities.lookup
          (effectiveCapability capability req) = some capDesc ∧
        principal.HasAnyScope capDesc.AuthScopes = true) →
      errorCode (Invoke env (run (Cancel env0 s creq messageID).1 ops) capability req actor
        principal).2 = some ErrorTimeout) := by
  obtain ⟨hack, hne, hset⟩ := Cancel_ok_inv env0 s creq messageID ack hcancel
  have hm : req.Header.MessageID ≠ "" := by rw [hM, hack]; exact hne
  have h1 : ((Cancel env0 s creq messageID).1.cancelled.lookup req.Header.MessageID).isSome
      = true := by
    rw [hset, hM, hack, GoMap.lookup_insert_self]; rfl
  have h2 := run_cancelled ops (Cancel env0 s creq messageID).1 req.Header.MessageID h1
  exact Invoke_of_cancelled env _ capability req actor principal hm h2

theorem Cancel_sticky_witness :
    (∃ e, Invoke sampleEnv
        (run (Cancel sampleEnv NewService sampleCancel "invoke-99").1 samplePublishes)
        "observatory.models.infer" cancelledInvoke "http-client" AnonymousPrincipal
      = (run (Cancel sampleEnv NewService sampleCancel "invoke-99").1 samplePublishes,
         Except.error e)) ∧
    errorCode (Invoke sampleEnv
        (run (Cancel sampleEnv NewService sampleCancel "invoke-99").1 samplePublishes)
        "observatory.models.infer" cancelledInvoke "http-client" AnonymousPrincipal).2
      = some ErrorTimeout :=
  ⟨(Cancel_sticky sampleEnv NewService sampleCancel "invoke-99"
      { Header := AddIDGMeta (Normalize sampleEnv sampleCancel.Header).1 "core",
        TargetMessageID := "invoke-99", Accepted := true, Status := "cancelled" } rfl
      samplePublishes sampleEnv "observatory.models.infer" cancelledInvoke "http-client"
      AnonymousPrincipal rfl).1,
   (Cancel_sticky sampleEnv NewService sampleCancel "invoke-99"
      { Header := AddIDGMeta (Normalize sampleEnv sampleCancel.Header).1 "core",
        TargetMessageID := "invoke-99", Accepted := true, Status := "cancelled" } rfl
      samplePublishes sampleEnv "observatory.models.infer" cancelledInvoke "http-client"
      AnonymousPrincipal rfl).2 (by decide) (by decide)
      ⟨bootstrapCapability, by decide, by decide⟩⟩

/-! ## Error mapping and marking -/

/-- C18: `grpcStatusFromMigError` maps every internal error code to the gRPC status
code of the table, is total (any other code maps to INTERNAL), and maps a nil
error to no status. -/
theorem grpcStatus_table :
    grpcStatusFromMigError none = none ∧
    (∀ e : MigError, grpcStatusFromMigError (some e) =
      some (grpcCodeOf e.Code, e.Code ++ ": " ++ e.Message)) ∧
    (∀ e : MigError,
      (e.Code = "MIG_INVALID_REQUEST" →
        statusCode (grpcStatusFromMigError (some e)) = some GrpcCode.InvalidArgument) ∧
      (e.Code = "MIG_UNAUTHORIZED" →
        statusCode (grpcStatusFromMigError (some e)) = some GrpcCode.Unauthenticated) ∧
      (e.Code = "MIG_FORBIDDEN" →
        statusCode (grpcStatusFromMigError (some e)) = some GrpcCode.PermissionDenied) ∧
      (e.Code = "MIG_NOT_FOUND" →
        statusCode (grpcStatusFromMigError (some e)) = some GrpcCode.NotFound) ∧
      (e.Code = "MIG_UNSUPPORTED_CAPABILITY" →
        statusCode (grpcStatusFromMigError (some e)) = some GrpcCode.NotFound) ∧
      (e.Code = "MIG_VERSION_MISMATCH" →
        statusCode (grpcStatusFromMigError (some e)) = some GrpcCode.FailedPrecondition) ∧
      (e.Code = "MIG_TIMEOUT" →
        statusCode (grpcStatusFromMigError (some e)) = some GrpcCode.DeadlineExceeded) ∧
      (e.Code = "MIG_RATE_LIMITED" →
        statusCode (grpcStatusFromMigError (some e)) = some GrpcCode.ResourceExhausted) ∧
      (e.Code = "MIG_BACKPRESSURE" →
        statusCode (grpcStatusFromMigError (some e)) = some GrpcCode.ResourceExhausted) ∧
      (e.Code = "MIG_UNAVAILABLE" →
        statusCode (grpcStatusFromMigError (some e)) = some GrpcCode.Unavailable) ∧
      (e.Code = "MIG_INTERNAL" →
        statusCode (grpcStatusFromMigError (some e)) = some GrpcCode.Internal) ∧
      (e.Code ∉ ["MIG_INVALID_REQUEST", "MIG_UNAUTHORIZED", "MIG_FORBIDDEN", "MIG_NOT_FOUND",
          "MIG_UNSUPPORTED_CAPABILITY", "MIG_VERSION_MISMATCH", "MIG_TIMEOUT",
          "MIG_RATE_LIMITED", "MIG_BACKPRESSURE", "MIG_UNAVAILABLE", "MIG_INTERNAL"] →
        statusCode (grpcStatusFromMigError (some e)) = some GrpcCode.Internal)) := by
  refine ⟨rfl, fun e => rfl, fun e => ?_⟩
  refine ⟨?_, ?_, ?_, ?_, ?_, ?_, ?_, ?_, ?_, ?_, ?_, ?_⟩
  all_goals intro h
  all_goals simp only [grpcStatusFromMigError, statusCode, Option.map_some']
  · rw [h]; decide
  · rw [h]; decide
  · rw [h]; decide
  · rw [h]; decide
  · rw [h]; decide
  · rw [h]; decide
  · rw [h]; decide
  · rw [h]; decide
  · rw [h]; decide
  · rw [h]; decide
  · rw [h]; decide
  · simp only [List.mem_cons, List.mem_singleton, List.not_mem_nil, or_false, not_or] at h
    obtain ⟨h1, h2, h3, h4, h5, h6, h7, h8, h9, h10, h11⟩ := h
    simp [grpcCodeOf, ErrorInvalidRequest, ErrorUnauthorized, ErrorForbidden, ErrorNotFound,
      ErrorUnsupportedCapability, ErrorVersionMismatch, ErrorTimeout, ErrorRateLimited,
      ErrorBackpressure, ErrorUnavailable, ErrorInternal, h1, h2, h3, h4, h5, h6, h7, h8, h9,
      h10, h11]

theorem grpcStatus_table_witness :
    statusCode (grpcStatusFromMigError (some
      { Code := "MIG_RATE_LIMITED", Message := "tenant quota exceeded", Retryable := true }))
      = some GrpcCode.ResourceExhausted ∧
    statusCode (grpcStatusFromMigError (some
      { Code := "SOMETHING_ELSE", Message := "", Retryable := false }))
      = some GrpcCode.Internal :=
  ⟨(grpcStatus_table.2.2 _).2.2.2.2.2.2.2.1 rfl,
   (grpcStatus_table.2.2 _).2.2.2.2.2.2.2.2.2.2.2 (by decide)⟩

theorem wellMarked_invalid (msg : String) : wellMarked (invalid msg) := by
  simp [wellMarked, invalid, retryableCodes, ErrorInvalidRequest, ErrorTimeout, ErrorRateLimited,
    ErrorBackpressure, ErrorUnavailable]

theorem wellMarked_of (code msg : String) (r : Bool)
    (h : (r = true ↔ code ∈ retryableCodes)) :
    wellMarked { Code := code, Message := msg, Retryable := r } := h

theorem invokeGate_fail_marked (env : Env) (s : Service) (capability : String)
    (req : InvokeRequest) (principal : Principal) (e : MigError)
    (h : invokeGate env s capability req principal = InvokeDecision.fail e) : wellMarked e := by
  by_cases hn : normalizes env req.Header
  swap
  · obtain ⟨msg, hg⟩ := invokeGate_not_normalizes env s capability req principal hn
    rw [hg] at h
    rw [← InvokeDecision.fail.inj h]
    exact wellMarked_invalid msg
  by_cases hne : effectiveCapability capability req = ""
  · rw [invokeGate_no_capability env s capability req principal hn hne] at h
    rw [← InvokeDecision.fail.inj h]
    exact wellMarked_invalid _
  cases hcap : s.capabilities.lookup (effectiveCapability capability req) with
  | none =>
    rw [invokeGate_unknown env s capability req principal hn hne hcap] at h
    rw [← InvokeDecision.fail.inj h]
    exact wellMarked_of _ _ _ (by decide)
  | some capDesc =>
    cases hscope : principal.HasAnyScope capDesc.AuthScopes with
    | false =>
      rw [invokeGate_forbidden env s capability req principal capDesc hn hne hcap hscope] at h
      rw [← InvokeDecision.fail.inj h]
      exact wellMarked_of _ _ _ (by decide)
    | true =>
      cases hc : s.cancelled.lookup (invokeHead env req).MessageID with
      | some reason =>
        rw [invokeGate_cancelled env s capability req principal capDesc reason hn hne hcap
          hscope hc] at h
        rw [← InvokeDecision.fail.inj h]
        exact wellMarked_of _ _ _ (by decide)
      | none =>
        rw [invokeGate_pass env s capability req principal capDesc hn hne hcap hscope hc] at h
        cases hhit : cacheHit env s capability req with
        | some cached => rw [hhit] at h; simp at h
        | none =>
          rw [hhit] at h
          cases hq : s.quotas.lookup (invokeHead env req).TenantID with
          | none => rw [hq] at h; simp at h
          | some quota =>
            rw [hq] at h
            by_cases hge : s.tenantInvocations.count (invokeHead env req).TenantID ≥ quota
            · simp only [hge, if_true] at h
              rw [← InvokeDecision.fail.inj h]
              exact wellMarked_of _ _ _ (by decide)
            · simp only [hge, if_false] at h
              simp at h

theorem Invoke_error_marked (env : Env) (s : Service) (capability : String)
    (req : InvokeRequest) (actor : String) (principal : Principal) (e : MigError)
    (h : (Invoke env s capability req actor principal).2 = Except.error e) : wellMarked e := by
  unfold Invoke at h
  cases hg : invokeGate env s capability req principal with
  | fail e1 =>
    rw [hg] at h
    simp only at h
    rw [← Except.error.inj h]
    exact invokeGate_fail_marked env s capability req principal e1 hg
  | cached resp => rw [hg] at h; simp at h
  | proceed head cap capDesc =>
    rw [hg] at h
    simp only at h
    cases hd : env.ctxDone with
    | true =>
      rw [invokeCommit_expired env s head cap capDesc req actor hd] at h
      rw [← Except.error.inj h]
      exact wellMarked_of _ _ _ (by decide)
    | false =>
      rw [(invokeCommit_ok env s head cap capDesc req actor hd).1] at h
      simp at h

theorem Hello_error_marked (env : Env) (s : Service) (req : HelloRequest) (e : MigError)
    (h : Hello env s req = Except.error e) : wellMarked e := by
  unfold Hello at h
  cases hN : Normalize env req.Header with
  | mk head err =>
    rw [hN] at h
    cases err with
    | some msg =>
      simp only at h
      rw [← Except.error.inj h]
      exact wellMarked_invalid msg
    | none =>
      simp only at h
      split at h <;> (try split at h) <;>
        first
        | (rw [← Except.error.inj h]; exact wellMarked_of _ _ _ (by decide))
        | (simp at h)

theorem Discover_error_marked (env : Env) (s : Service) (req : DiscoverRequest)
    (principal : Principal) (e : MigError)
    (h : (Discover env s req principal).2 = Except.error e) : wellMarked e := by
  unfold Discover at h
  cases hN : Normalize env req.Header with
  | mk head err =>
    rw [hN] at h
    cases err with
    | some msg =>
      simp only at h
      rw [← Except.error.inj h]
      exact wellMarked_invalid msg
    | none => simp at h

theorem Heartbeat_error_marked (env : Env) (s : Service) (req : HeartbeatRequest) (e : MigError)
    (h : (Heartbeat env s req).2 = Except.error e) : wellMarked e := by
  unfold Heartbeat at h
  cases hN : Normalize env req.Header with
  | mk head err =>
    rw [hN] at h
    cases err with
    | some msg =>
      simp only at h
      rw [← Except.error.inj h]
      exact wellMarked_invalid msg
    | none => simp at h

theorem Publish_error_marked (env : Env) (s : Service) (topic : String) (req : PublishRequest)
    (e : MigError) (h : outcomeError (Publish env s topic req).2 = some e) : wellMarked e := by
  unfold Publish at h
  cases hN : Normalize env req.Header with
  | mk head err =>
    rw [hN] at h
    cases err with
    | some msg =>
      simp only [outcomeError] at h
      rw [← Option.some.inj h]
      exact wellMarked_invalid msg
    | none =>
      simp only at h
      by_cases ht : effectiveTopic topic req = ""
      · rw [if_pos ht] at h
        simp only [outcomeError] at h
        rw [← Option.some.inj h]
        exact wellMarked_invalid _
      · rw [if_neg ht] at h
        cases hd : containsDot (effectiveTopic topic req) with
        | false =>
          rw [hd] at h
          simp only [Bool.not_false, if_true, outcomeError] at h
          rw [← Option.some.inj h]
          exact wellMarked_invalid _
        | true =>
          rw [hd] at h
          simp only [Bool.not_true, Bool.false_eq_true, if_false] at h
          unfold publishCommit at h
          dsimp only at h
          split at h <;> simp [outcomeError] at h

theorem Subscribe_error_marked (s : Service) (topic cursor : String) (e : MigError)
    (h : (Subscribe s topic cursor).2 = Except.error e) : wellMarked e := by
  unfold Subscribe at h
  by_cases ht : topic = ""
  · rw [if_pos ht] at h
    rw [← Except.error.inj h]; exact wellMarked_invalid _
  · rw [if_neg ht] at h
    cases hd : containsDot topic with
    | false =>
      rw [hd] at h
      simp only [Bool.not_false, if_true] at h
      rw [← Except.error.inj h]; exact wellMarked_invalid _
    | true =>
      rw [hd] at h
      simp only [Bool.not_true, Bool.false_eq_true, if_false] at h
      cases hp : parseCursor cursor with
      | none =>
        rw [hp] at h
        simp only at h
        rw [← Except.error.inj h]; exact wellMarked_invalid _
      | some start0 => rw [hp] at h; simp at h

theorem Cancel_error_marked (env : Env) (s : Service) (req : CancelRequest) (messageID : String)
    (e : MigError) (h : (Cancel env s req messageID).2 = Except.error e) : wellMarked e := by
  unfold Cancel at h
  cases hN : Normalize env req.Header with
  | mk head err =>
    rw [hN] at h
    cases err with
    | some msg =>
      simp only at h
      rw [← Except.error.inj h]
      exact wellMarked_invalid msg
    | none =>
      simp only at h
      by_cases ht : effectiveTarget messageID req = ""
      · rw [if_pos ht] at h
        rw [← Except.error.inj h]; exact wellMarked_invalid _
      · rw [if_neg ht] at h; simp at h

theorem admin_errors_marked (s : Service) :
    (∀ env t e, (CreateTenant env s t).2 = Except.error e → wellMarked e) ∧
    (∀ env g e, (CreateGateway env s g).2 = Except.error e → wellMarked e) ∧
    (∀ env o e, (CreateOrg env s o).2 = Except.error e → wellMarked e) ∧
    (∀ req e, (SetQuota s req).2 = Except.error e → wellMarked e) ∧
    (∀ req e, (AddCapability s req).2 = some e → wellMarked e) ∧
    (∀ req e, (AddSchema s req).2 = some e → wellMarked e) ∧
    (∀ req e, (ValidatePolicy s req).2 = Except.error e → wellMarked e) := by
  refine ⟨?_, ?_, ?_, ?_, ?_, ?_, ?_⟩
  · intro env t e h
    unfold CreateTenant at h
    by_cases h1 : (t.Name = "" ∨ t.OrgID = "")
    · rw [if_pos h1] at h
      rw [← Except.error.inj h]; exact wellMarked_invalid _
    · rw [if_neg h1] at h
      dsimp only at h
      split at h <;> (try split at h) <;>
        first
        | (rw [← Except.error.inj h]; exact wellMarked_of _ _ _ (by decide))
        | (simp at h)
  · intro env g e h
    unfold CreateGateway at h
    by_cases h1 : (g.TenantID = "" ∨ g.Region = "" ∨ g.Binding = "")
    · rw [if_pos h1] at h
      rw [← Except.error.inj h]; exact wellMarked_invalid _
    · rw [if_neg h1] at h
      dsimp only at h
      split at h <;> (try split at h) <;>
        first
        | (rw [← Except.error.inj h]; exact wellMarked_of _ _ _ (by decide))
        | (simp at h)
  · intro env o e h
    unfold CreateOrg at h
    by_cases h1 : o.Name = ""
    · rw [if_pos h1] at h
      rw [← Except.error.inj h]; exact wellMarked_invalid _
    · rw [if_neg h1] at h; simp at h
  · intro req e h
    unfold SetQuota at h
    by_cases h1 : req.TenantID = ""
    · rw [if_pos h1] at h
      rw [← Except.error.inj h]; exact wellMarked_invalid _
    · rw [if_neg h1] at h
      by_cases h2 : req.MaxInvocations ≤ 0
      · rw [if_pos h2] at h
        rw [← Except.error.inj h]; exact wellMarked_invalid _
      · rw [if_neg h2] at h; simp at h
  · intro req e h
    unfold AddCapability at h
    by_cases h1 : (req.Descriptor.ID = "" ∨ req.Descriptor.Version = "")
    · rw [if_pos h1] at h
      rw [← Option.some.inj h]; exact wellMarked_invalid _
    · rw [if_neg h1] at h
      by_cases h2 : (req.Descriptor.InputSchemaURI = "" ∨ req.Descriptor.OutputSchemaURI = "")
      · rw [if_pos h2] at h
        rw [← Option.some.inj h]; exact wellMarked_invalid _
      · rw [if_neg h2] at h; simp at h
  · intro req e h
    unfold AddSchema at h
    by_cases h1 : req.URI = ""
    · rw [if_pos h1] at h
      rw [← Option.some.inj h]; exact wellMarked_invalid _
    · rw [if_neg h1] at h
      split at h
      · rw [← Option.some.inj h]; exact wellMarked_invalid _
      · rw [← Option.some.inj h]; exact wellMarked_invalid _
      · simp at h
  · intro req e h
    unfold ValidatePolicy at h
    by_cases h1 : (req.TenantID = "" ∨ req.Capability = "" ∨ req.Action = "")
    · rw [if_pos h1] at h
      rw [← Except.error.inj h]; exact wellMarked_invalid _
    · rw [if_neg h1] at h
      split at h
      · simp at h
      · split at h <;> simp at h

/-- C19: every `MigError` returned by an engine operation has `retryable == true`
if and only if its code is one of `MIG_TIMEOUT`, `MIG_RATE_LIMITED`,
`MIG_BACKPRESSURE`, `MIG_UNAVAILABLE`; in particular the errors for invalid
requests, unknown capabilities, missing scopes, version mismatch and not-found
carry `retryable == false`. -/
theorem Retryable_marking :
    (∀ env s req e, Hello env s req = Except.error e → wellMarked e) ∧
    (∀ env s req principal e, (Discover env s req principal).2 = Except.error e →
      wellMarked e) ∧
    (∀ env s capability req actor principal e,
      (Invoke env s capability req actor principal).2 = Except.error e → wellMarked e) ∧
    (∀ env s topic req e, outcomeError (Publish env s topic req).2 = some e → wellMarked e) ∧
    (∀ s topic cursor e, (Subscribe s topic cursor).2 = Except.error e → wellMarked e) ∧
    (∀ env s req messageID e, (Cancel env s req messageID).2 = Except.error e →
      wellMarked e) ∧
    (∀ env s req e, (Heartbeat env s req).2 = Except.error e → wellMarked e) ∧
    (∀ env s t e, (CreateTenant env s t).2 = Except.error e → wellMarked e) ∧
    (∀ env s g e, (CreateGateway env s g).2 = Except.error e → wellMarked e) ∧
    (∀ s req e, (SetQuota s req).2 = Except.error e → wellMarked e) ∧
    (∀ s req e, (AddCapability s req).2 = some e → wellMarked e) ∧
    (∀ s req e, (AddSchema s req).2 = some e → wellMarked e) ∧
    (∀ s req e, (ValidatePolicy s req).2 = Except.error e → wellMarked e) ∧
    (∀ e : MigError, wellMarked e →
      e.Code ∈ [ErrorInvalidRequest, ErrorUnsupportedCapability, ErrorForbidden,
        ErrorVersionMismatch, ErrorNotFound] → e.Retryable = false) := by
  refine ⟨Hello_error_marked, Discover_error_marked, Invoke_error_marked, Publish_error_marked,
    Subscribe_error_marked, Cancel_error_marked, Heartbeat_error_marked,
    fun env s => (admin_errors_marked s).1 env,
    fun env s => (admin_errors_marked s).2.1 env,
    fun s => (admin_errors_marked s).2.2.2.1,
    fun s => (admin_errors_marked s).2.2.2.2.1,
    fun s => (admin_errors_marked s).2.2.2.2.2.1,
    fun s => (admin_errors_marked s).2.2.2.2.2.2, ?_⟩
  intro e hm hcode
  unfold wellMarked at hm
  cases hr : e.Retryable with
  | false => rfl
  | true =>
    have hin := hm.1 hr
    simp only [retryableCodes, List.mem_cons, List.mem_singleton, List.not_mem_nil,
      or_false] at hin hcode
    rcases hin with h | h | h | h <;> rw [h] at hcode <;> revert hcode <;> decide

theorem Retryable_marking_witness :
    (Invoke sampleEnv (Cancel sampleEnv NewService sampleCancel "invoke-99").1
      "observatory.models.infer" cancelledInvoke "http-client" AnonymousPrincipal).2
      = Except.error { Code := "MIG_TIMEOUT", Message := "invocation cancelled: operator",
                       Retryable := true } ∧
    wellMarked { Code := "MIG_TIMEOUT", Message := "invocation cancelled: operator",
                 Retryable := true } :=
  ⟨rfl, Retryable_marking.2.2.1 sampleEnv
    (Cancel sampleEnv NewService sampleCancel "invoke-99").1 "observatory.models.infer"
    cancelledInvoke "http-client" AnonymousPrincipal _ rfl⟩

/-! ## Claims about Cancel, Unsubscribe, Publish and the resume cursor -/

/-- C15 (as stated, refuted): with an empty `message_id` argument and an empty
`target_message_id` in the request, `Cancel` is rejected with
`MIG_INVALID_REQUEST` although the header normalizes. -/
theorem Cancel_accepted_counterexample :
    normalizes sampleEnv emptyCancel.Header ∧
    errorCode (Cancel sampleEnv NewService emptyCancel "").2 = some ErrorInvalidRequest ∧
    (Cancel sampleEnv NewService emptyCancel "").1.cancelled = NewService.cancelled :=
  ⟨by decide, by decide, rfl⟩

/-- C15 (amended): for every request whose header normalizes and whose effective
target (the `message_id` argument, or `target_message_id` of the request when
the argument is empty) is non-empty, `Cancel` succeeds with `accepted == true`,
`status == "cancelled"` and the effective target as `target_message_id`; it sets
the cancellation entry of that id to the reason of the request, overwriting an
earlier reason, and changes nothing else in the state. -/
theorem Cancel_accepted (env : Env) (s : Service) (req : CancelRequest) (messageID : String)
    (hn : normalizes env req.Header) (ht : effectiveTarget messageID req ≠ "") :
    (∃ ack, (Cancel env s req messageID).2 = Except.ok ack ∧ ack.Accepted = true ∧
      ack.Status = "cancelled" ∧ ack.TargetMessageID = effectiveTarget messageID req) ∧
    (messageID ≠ "" → effectiveTarget messageID req = messageID) ∧
    (Cancel env s req messageID).1 =
      { s with cancelled := s.cancelled.insert (effectiveTarget messageID req) req.Reason } ∧
    (Cancel env s req messageID).1.cancelled.lookup (effectiveTarget messageID req)
      = some req.Reason ∧
    (∀ m, m ≠ effectiveTarget messageID req →
      (Cancel env s req messageID).1.cancelled.lookup m = s.cancelled.lookup m) := by
  have hC : Cancel env s req messageID =
      ({ s with cancelled := s.cancelled.insert (effectiveTarget messageID req) req.Reason },
       Except.ok { Header := AddIDGMeta (Normalize env req.Header).1 "core"
                   TargetMessageID := effectiveTarget messageID req
                   Accepted := true
                   Status := "cancelled" }) := by
    unfold normalizes at hn
    unfold Cancel
    cases hN : Normalize env req.Header with
    | mk head err =>
      rw [hN] at hn
      simp only at hn
      subst hn
      simp only [ht, if_false]
  refine ⟨⟨_, by rw [hC], rfl, rfl, rfl⟩, ?_, by rw [hC], ?_, ?_⟩
  · intro hm
    simp [effectiveTarget, hm]
  · rw [hC]; exact GoMap.lookup_insert_self _ _ _
  · intro m hm
    rw [hC]; exact GoMap.lookup_insert_of_ne _ _ _ _ (Ne.symm hm)

theorem Cancel_accepted_witness :
    (∃ ack, (Cancel sampleEnv (Cancel sampleEnv NewService sampleCancel "invoke-99").1
        { sampleCancel with Reason := "second" } "").2 = Except.ok ack ∧ ack.Accepted = true ∧
      ack.Status = "cancelled" ∧ ack.TargetMessageID = "invoke-99") ∧
    (Cancel sampleEnv NewService sampleCancel "invoke-99").1.cancelled.lookup "invoke-99"
      = some "operator" ∧
    (Cancel sampleEnv (Cancel sampleEnv NewService sampleCancel "invoke-99").1
        { sampleCancel with Reason := "second" } "").1.cancelled.lookup "invoke-99"
      = some "second" :=
  ⟨(Cancel_accepted sampleEnv (Cancel sampleEnv NewService sampleCancel "invoke-99").1
      { sampleCancel with Reason := "second" } "" (by decide) (by decide)).1,
   by decide,
   (Cancel_accepted sampleEnv (Cancel sampleEnv NewService sampleCancel "invoke-99").1
      { sampleCancel with Reason := "second" } "" (by decide) (by decide)).2.2.2.1⟩

/-- C14 (code defect): the closure returned by `Subscribe` is not idempotent.  For the
channel `ch` a successful `Subscribe` just created, the first call removes `ch`
from the subscriber set of the topic and closes it without failing; the second
call runs `close(ch)` on the closed channel and panics.  This holds in every
state, and in particular for a subscribe on a new service followed by two calls
of the closure. -/
theorem Unsubscribe_twice_panics :
    (∀ (s : Service) (topic : String) (start0 : Int),
      (Unsubscribe (subscribeCommit s topic start0).1 (subscribeCommit s topic start0).2.2).2
        = false ∧
      (∀ subs, (Unsubscribe (subscribeCommit s topic start0).1
          (subscribeCommit s topic start0).2.2).1.subscribers.lookup topic = some subs →
        (subscribeCommit s topic start0).2.2 ∉ subs) ∧
      ((Unsubscribe (subscribeCommit s topic start0).1
          (subscribeCommit s topic start0).2.2).1.chans.get?
            (subscribeCommit s topic start0).2.2).map (fun c => c.closed) = some true ∧
      (Unsubscribe (Unsubscribe (subscribeCommit s topic start0).1
          (subscribeCommit s topic start0).2.2).1 (subscribeCommit s topic start0).2.2).2
        = true) ∧
    (errorCode (Subscribe NewService "observatory.inference.completed" "0").2 = none ∧
      (Unsubscribe subscribedState 0).2 = false ∧
      (Unsubscribe (Unsubscribe subscribedState 0).1 0).2 = true) := by
  refine ⟨?_, by decide⟩
  intro s topic start0
  have hget : (s.chans ++ [({ topic := topic, buf := [], closed := false } : Chan)]).get?
      s.chans.length = some { topic := topic, buf := [], closed := false } := by simp
  have hU : Unsubscribe (subscribeCommit s topic start0).1 s.chans.length =
      ({ (subscribeCommit s topic start0).1 with
          subscribers := (subscribeCommit s topic start0).1.subscribers.insert topic
            ((((s.subscribers.lookup topic).getD []) ++ [s.chans.length]).filter
              (fun x => x ≠ s.chans.length))
          chans := (s.chans ++ [({ topic := topic, buf := [], closed := false } : Chan)]).set
            s.chans.length { topic := topic, buf := [], closed := true } }, false) := by
    unfold Unsubscribe
    simp only [subscribeCommit]
    rw [hget]
    simp [GoMap.lookup_insert_self]
  have hch : (subscribeCommit s topic start0).2.2 = s.chans.length := rfl
  rw [hch, hU]
  refine ⟨rfl, ?_, ?_, ?_⟩
  · intro subs hl
    simp only [subscribeCommit, GoMap.lookup_insert_self] at hl
    have := Option.some.inj hl
    subst this
    simp
  · simp
  · unfold Unsubscribe
    have hget2 : ((s.chans ++ [({ topic := topic, buf := [], closed := false } : Chan)]).set
        s.chans.length { topic := topic, buf := [], closed := true }).get? s.chans.length
        = some { topic := topic, buf := [], closed := true } := by simp
    simp only [hget2]
    simp

theorem Publish_eq (env : Env) (s : Service) (topic : String) (req : PublishRequest)
    (hn : normalizes env req.Header) :
    Publish env s topic req =
      if effectiveTopic topic req = "" then (s, Outcome.error (invalid "topic is required"))
      else if containsDot (effectiveTopic topic req) = false then
        (s, Outcome.error (invalid "topic names must be namespaced"))
      else publishCommit env s (AddIDGMeta (Normalize env req.Header).1 "core")
        (effectiveTopic topic req) req := by
  unfold normalizes at hn
  unfold Publish
  cases hN : Normalize env req.Header with
  | mk head err =>
    rw [hN] at hn
    simp only at hn
    subst hn
    simp

theorem publishCommit_outcome (env : Env) (s : Service) (head : MessageHeader) (topic : String)
    (req : PublishRequest) :
    (publishCommit env s head topic req).2 = Outcome.panic "send on closed channel" ∨
    (publishCommit env s head topic req).2 = Outcome.ok
      { Header := head, Topic := topic, EventID := newMessageID env.auxSource,
        Sequence := (((s.events.lookup topic).getD []).length : Int) + 1, Accepted := true } := by
  unfold publishCommit
  dsimp only
  cases hf : fanOut s.chans ((s.subscribers.lookup topic).getD [])
      { Header := head, Topic := topic, EventID := newMessageID env.auxSource,
        Sequence := (((s.events.lookup topic).getD []).length : Int) + 1,
        Payload := req.Payload, PublishedAt := formatRFC3339 env.later,
        Replay := false } with
  | mk chans flag =>
    cases flag with
    | true => exact Or.inl rfl
    | false => exact Or.inr rfl

/-- For a header that normalizes, `Publish` in terms of the topic it computes: the
topic check, the unchanged state of a failed call, and the acknowledgement and
log of a successful one. -/
theorem Publish_effective (env : Env) (s : Service) (topic : String) (req : PublishRequest)
    (hn : normalizes env req.Header) :
    ((∃ e, (Publish env s topic req).2 = Outcome.error e ∧ e.Code = ErrorInvalidRequest) ↔
      (effectiveTopic topic req = "" ∨ containsDot (effectiveTopic topic req) = false)) ∧
    (∀ e, (Publish env s topic req).2 = Outcome.error e → (Publish env s topic req).1 = s) ∧
    (∀ ack, (Publish env s topic req).2 = Outcome.ok ack →
      ack.Accepted = true ∧ ack.Topic = effectiveTopic topic req ∧
      ack.Sequence = (logLength s (effectiveTopic topic req) : Int) + 1 ∧
      (∃ event, (Publish env s topic req).1.events =
          s.events.insert (effectiveTopic topic req)
            ((s.events.lookup (effectiveTopic topic req)).getD [] ++ [event]) ∧
        event.Sequence = ack.Sequence ∧ event.Topic = effectiveTopic topic req ∧
        event.Payload = req.Payload ∧ event.Replay = false) ∧
      logLength (Publish env s topic req).1 (effectiveTopic topic req)
        = logLength s (effectiveTopic topic req) + 1 ∧
      (∀ t, t ≠ effectiveTopic topic req →
        (Publish env s topic req).1.events.lookup t = s.events.lookup t)) ∧
    (SubscribersOpen s → effectiveTopic topic req ≠ "" →
      containsDot (effectiveTopic topic req) = true →
      ∃ ack, (Publish env s topic req).2 = Outcome.ok ack) := by
  have heq := Publish_eq env s topic req hn
  by_cases ht : effectiveTopic topic req = ""
  · rw [if_pos ht] at heq
    rw [heq]
    refine ⟨⟨fun _ => Or.inl ht, fun _ => ⟨_, rfl, rfl⟩⟩, fun _ _ => rfl, ?_, ?_⟩
    · intro ack h; simp at h
    · intro _ h; exact absurd ht h
  · rw [if_neg ht] at heq
    cases hd : containsDot (effectiveTopic topic req) with
    | false =>
      rw [hd] at heq
      simp only [if_true] at heq
      rw [heq]
      refine ⟨⟨fun _ => Or.inr rfl, fun _ => ⟨_, rfl, rfl⟩⟩, fun _ _ => rfl, ?_, ?_⟩
      · intro ack h; simp at h
      · intro _ _ h; simp at h
    | true =>
      rw [hd] at heq
      simp only [Bool.true_eq_false, if_false] at heq
      rw [heq]
      have hfr := publishCommit_frame env s (AddIDGMeta (Normalize env req.Header).1 "core")
        (effectiveTopic topic req) req
      have hout := publishCommit_outcome env s (AddIDGMeta (Normalize env req.Header).1 "core")
        (effectiveTopic topic req) req
      refine ⟨⟨?_, ?_⟩, ?_, ?_, ?_⟩
      · rintro ⟨e, he, _⟩
        rcases hout with h | h <;> rw [h] at he <;> simp at he
      · intro h
        rcases h with h | h
        · exact absurd h ht
        · simp at h
      · intro e he
        rcases hout with h | h <;> rw [h] at he <;> simp at he
      · intro ack hack
        rcases hout with h | h
        · rw [h] at hack; simp at hack
        · rw [h] at hack
          have hq := Outcome.ok.inj hack
          subst hq
          refine ⟨rfl, rfl, rfl, ⟨_, hfr.2.2.2.1, rfl, rfl, rfl, rfl⟩, ?_, ?_⟩
          · simp only [logLength, hfr.2.2.2.1, GoMap.lookup_insert_self]
            simp
          · intro t htne
            rw [hfr.2.2.2.1]
            exact GoMap.lookup_insert_of_ne _ _ _ _ (Ne.symm htne)
      · intro hopen _ _
        exact ⟨_, publishCommit_ok env s _ _ req hopen⟩

/-- C12: for a header that normalizes, let `T` be the effective topic: the topic
argument, or `req.topic` when the argument is empty.  `Publish` fails with
`MIG_INVALID_REQUEST` if and only if `T` is empty or contains no `.`; a failed
call leaves the whole state (event logs and subscriber queues included)
unchanged; a successful call acknowledges `accepted == true`, topic `T` and the
sequence (length of the log of `T` before the call) + 1, appends exactly one
event to the log of `T` and leaves the logs of all other topics as they are.  In
every state whose subscriber sets hold only open channels (every reachable
state) a call with a valid `T` succeeds. -/
theorem Publish_validation (env : Env) (s : Service) (topic : String) (req : PublishRequest)
    (T : String) (hn : normalizes env req.Header)
    (hT : (topic ≠ "" ∧ T = topic) ∨ (topic = "" ∧ T = req.Topic)) :
    ((∃ e, (Publish env s topic req).2 = Outcome.error e ∧ e.Code = ErrorInvalidRequest) ↔
      (T = "" ∨ '.' ∉ T.data)) ∧
    (∀ e, (Publish env s topic req).2 = Outcome.error e → (Publish env s topic req).1 = s) ∧
    (∀ ack, (Publish env s topic req).2 = Outcome.ok ack →
      ack.Accepted = true ∧ ack.Topic = T ∧
      ack.Sequence = (logLength s T : Int) + 1 ∧
      (∃ event, (Publish env s topic req).1.events =
          s.events.insert T ((s.events.lookup T).getD [] ++ [event]) ∧
        event.Sequence = ack.Sequence ∧ event.Topic = T ∧
        event.Payload = req.Payload ∧ event.Replay = false) ∧
      logLength (Publish env s topic req).1 T = logLength s T + 1 ∧
      (∀ t, t ≠ T → (Publish env s topic req).1.events.lookup t = s.events.lookup t)) ∧
    (SubscribersOpen s → T ≠ "" → '.' ∈ T.data →
      ∃ ack, (Publish env s topic req).2 = Outcome.ok ack) := by
  have het : effectiveTopic topic req = T := by
    rcases hT with ⟨h1, h2⟩ | ⟨h1, h2⟩
    · rw [h2]; simp [effectiveTopic, h1]
    · rw [h2]; simp [effectiveTopic, h1]
  have hdot : containsDot T = false ↔ '.' ∉ T.data := by simp [containsDot]
  have h := Publish_effective env s topic req hn
  rw [het] at h
  refine ⟨h.1.trans (or_congr Iff.rfl hdot), h.2.1, h.2.2.1, fun ho hne hd => h.2.2.2 ho hne ?_⟩
  simpa [containsDot] using hd

theorem Publish_validation_witness :
    (∃ ack, (Publish sampleEnv NewService "" fallbackPublish).2 = Outcome.ok ack) ∧
    (∀ ack, (Publish sampleEnv NewService "" fallbackPublish).2 = Outcome.ok ack →
      ack.Topic = "observatory.inference.completed" ∧ ack.Sequence = 1) ∧
    (∃ e, (Publish sampleEnv NewService "" samplePublish).2 = Outcome.error e ∧
      e.Code = ErrorInvalidRequest) ∧
    (∃ e, (Publish sampleEnv NewService "" undottedPublish).2 = Outcome.error e ∧
      e.Code = ErrorInvalidRequest) ∧
    (∃ ack, (Publish sampleEnv NewService "observatory.inference.completed"
      undottedPublish).2 = Outcome.ok ack) ∧
    (∃ e, (Publish sampleEnv NewService "nodots" fallbackPublish).2 = Outcome.error e ∧
      e.Code = ErrorInvalidRequest) ∧
    (Publish sampleEnv NewService "nodots" fallbackPublish).1 = NewService :=
  ⟨(Publish_validation sampleEnv NewService "" fallbackPublish
      "observatory.inference.completed" (by decide) (Or.inr ⟨rfl, rfl⟩)).2.2.2
      NewService_invariants.2 (by decide) (by decide),
   fun ack h =>
     ⟨((Publish_validation sampleEnv NewService "" fallbackPublish
        "observatory.inference.completed" (by decide) (Or.inr ⟨rfl, rfl⟩)).2.2.1 ack h).2.1,
      ((Publish_validation sampleEnv NewService "" fallbackPublish
        "observatory.inference.completed" (by decide) (Or.inr ⟨rfl, rfl⟩)).2.2.1 ack h).2.2.1⟩,
   (Publish_validation sampleEnv NewService "" samplePublish "" (by decide)
      (Or.inr ⟨rfl, rfl⟩)).1.2 (Or.inl rfl),
   (Publish_validation sampleEnv NewService "" undottedPublish "nodots" (by decide)
      (Or.inr ⟨rfl, rfl⟩)).1.2 (Or.inr (by decide)),
   (Publish_validation sampleEnv NewService "observatory.inference.completed" undottedPublish
      "observatory.inference.completed" (by decide) (Or.inl ⟨by decide, rfl⟩)).2.2.2
      NewService_invariants.2 (by decide) (by decide),
   (Publish_validation sampleEnv NewService "nodots" fallbackPublish "nodots" (by decide)
      (Or.inl ⟨by decide, rfl⟩)).1.2 (Or.inr (by decide)),
   rfl⟩

theorem digitChar_digit (d : Nat) (h : d < 10) :
    (Nat.digitChar d).isDigit = true ∧ (Nat.digitChar d).toNat - 48 = d := by
  interval_cases d <;> decide

theorem foldl_digits_acc (l : List Char) :
    ∀ acc : Nat, l.foldl (fun a c => a * 10 + (c.toNat - 48)) acc
      = acc * 10 ^ l.length + digitsValue l := by
  induction l with
  | nil => intro acc; simp [digitsValue]
  | cons c rest ih =>
    intro acc
    simp only [List.foldl_cons, digitsValue, List.length_cons]
    rw [ih, ih (0 * 10 + (c.toNat - 48))]
    ring

theorem toDigitsCore_spec (fuel : Nat) :
    ∀ (n : Nat) (ds : List Char), n < fuel → (∀ c ∈ ds, c.isDigit = true) →
      (∀ c ∈ Nat.toDigitsCore 10 fuel n ds, c.isDigit = true) ∧
      Nat.toDigitsCore 10 fuel n ds ≠ [] ∧
      digitsValue (Nat.toDigitsCore 10 fuel n ds) = n * 10 ^ ds.length + digitsValue ds := by
  induction fuel with
  | zero => intro n ds h; omega
  | succ fuel ih =>
    intro n ds hn hds
    have hd := digitChar_digit (n % 10) (Nat.mod_lt n (by decide))
    have hcons : ∀ c ∈ Nat.digitChar (n % 10) :: ds, c.isDigit = true := by
      intro c hc
      rcases List.mem_cons.1 hc with h | h
      · rw [h]; exact hd.1
      · exact hds c h
    have hval : digitsValue (Nat.digitChar (n % 10) :: ds)
        = (n % 10) * 10 ^ ds.length + digitsValue ds := by
      simp only [digitsValue, List.foldl_cons]
      rw [foldl_digits_acc, hd.2]
      simp [digitsValue]
    unfold Nat.toDigitsCore
    by_cases h0 : n / 10 = 0
    · simp only [h0, if_true]
      refine ⟨hcons, by simp, ?_⟩
      rw [hval]
      have : n % 10 = n := Nat.mod_eq_of_lt (by omega)
      rw [this]
    · simp only [h0, if_false]
      have hlt : n / 10 < fuel := by omega
      obtain ⟨h1, h2, h3⟩ := ih (n / 10) (Nat.digitChar (n % 10) :: ds) hlt hcons
      refine ⟨h1, h2, ?_⟩
      rw [h3, hval, List.length_cons]
      have := Nat.div_add_mod n 10
      calc n / 10 * 10 ^ (ds.length + 1) + (n % 10 * 10 ^ ds.length + digitsValue ds)
          = (10 * (n / 10) + n % 10) * 10 ^ ds.length + digitsValue ds := by ring
        _ = n * 10 ^ ds.length + digitsValue ds := by rw [this]

/-- The decimal text of a natural number consists of digits and has its value. -/
theorem toString_digits (n : Nat) :
    (toString n).data ≠ [] ∧ (∀ c ∈ (toString n).data, c.isDigit = true) ∧
    digitsValue (toString n).data = n := by
  have h := toDigitsCore_spec (n + 1) n [] (by omega) (by simp)
  have hdata : (toString n).data = Nat.toDigitsCore 10 (n + 1) n [] := rfl
  rw [hdata]
  refine ⟨h.2.1, h.1, ?_⟩
  rw [h.2.2]
  simp [digitsValue]

theorem isDigit_not_sign (c : Char) (h : c.isDigit = true) : c ≠ '-' ∧ c ≠ '+' := by
  constructor <;> intro hc <;> subst hc <;> revert h <;> decide

theorem Atoi_of_digits (l : List Char) (hne : l ≠ []) (hd : ∀ c ∈ l, c.isDigit = true) :
    Atoi (String.mk l) =
      if (digitsValue l : Int) > (2 : Int) ^ 63 - 1 then none else some (digitsValue l : Int) := by
  cases l with
  | nil => exact absurd rfl hne
  | cons c rest =>
    obtain ⟨hm, hp⟩ := isDigit_not_sign c (hd c (List.mem_cons_self c rest))
    have hall : (c :: rest).all Char.isDigit = true := by
      rw [List.all_eq_true]; exact hd
    have hbody : (match (c :: rest : List Char) with
        | '-' :: r => r
        | '+' :: r => r
        | r => r) = c :: rest := by
      split
      · rename_i r heq
        exact absurd (List.cons.inj heq).1 hm
      · rename_i r heq
        exact absurd (List.cons.inj heq).1 hp
      · rfl
    unfold Atoi
    simp only [hbody]
    have hhead : ((String.mk (c :: rest)).data.head? = some '-') = False := by
      simp [hm]
    simp only [List.length_cons, hall, hhead]
    have hval : (List.foldl (fun acc c => acc * 10 + (c.toNat - 48)) 0 (c :: rest))
        = digitsValue (c :: rest) := rfl
    rw [hval]
    have hnn : ¬ ((digitsValue (c :: rest) : Int) < -(2 : Int) ^ 63) := by
      have : (0 : Int) ≤ (digitsValue (c :: rest) : Int) := Int.natCast_nonneg _
      have : -(2 : Int) ^ 63 < 0 := by norm_num
      omega
    by_cases hbig : (digitsValue (c :: rest) : Int) > (2 : Int) ^ 63 - 1
    · rw [if_pos hbig]
      simp
      omega
    · rw [if_neg hbig]
      simp
      omega

theorem Atoi_toString (n : Nat) :
    Atoi (toString n) = if n < 2 ^ 63 then some (n : Int) else none := by
  obtain ⟨hne, hd, hv⟩ := toString_digits n
  have hs : toString n = String.mk (toString n).data := rfl
  rw [hs, Atoi_of_digits _ hne hd, hv]
  by_cases h : n < 2 ^ 63
  · have : ¬ ((n : Int) > (2 : Int) ^ 63 - 1) := by
      have : (n : Int) < (2 : Int) ^ 63 := by exact_mod_cast h
      omega
    rw [if_neg this, if_pos h]
  · have : (n : Int) > (2 : Int) ^ 63 - 1 := by
      have : (2 : Int) ^ 63 ≤ (n : Int) := by exact_mod_cast (Nat.le_of_not_lt h)
      omega
    rw [if_pos this, if_neg h]

theorem Atoi_signless (c : String) :
    Atoi c =
      if (signless c.data).length = 0 ∨ !((signless c.data).all Char.isDigit) then none
      else
        if (if c.data.head? = some '-' then -(digitsValue (signless c.data) : Int)
            else (digitsValue (signless c.data) : Int)) < -(2 : Int) ^ 63 ∨
           (if c.data.head? = some '-' then -(digitsValue (signless c.data) : Int)
            else (digitsValue (signless c.data) : Int)) > (2 : Int) ^ 63 - 1 then none
        else some (if c.data.head? = some '-' then -(digitsValue (signless c.data) : Int)
            else (digitsValue (signless c.data) : Int)) := rfl

theorem Atoi_not_decimal (c : String) (h : isDecimalInteger c = false) : Atoi c = none := by
  rw [Atoi_signless]
  unfold isDecimalInteger at h
  have hcond : (signless c.data).length = 0 ∨ (!((signless c.data).all Char.isDigit)) = true := by
    by_cases hl : (signless c.data).length = 0
    · exact Or.inl hl
    · right
      simp [hl] at h
      obtain ⟨x, hx, hxd⟩ := h
      simp only [Bool.not_eq_true', List.all_eq_false]
      exact ⟨x, hx, by simp [hxd]⟩
  rw [if_pos hcond]

theorem Atoi_negative (n : Nat) :
    ∀ v, Atoi ("-" ++ toString (n + 1)) = some v → v < 0 := by
  intro v hv
  obtain ⟨hne, hd, hval⟩ := toString_digits (n + 1)
  have hdata : ("-" ++ toString (n + 1)).data = '-' :: (toString (n + 1)).data := rfl
  rw [Atoi_signless, hdata] at hv
  simp only [signless, List.head?_cons, if_true] at hv
  rw [hval] at hv
  split at hv
  · simp at hv
  · split at hv
    · simp at hv
    · have := Option.some.inj hv
      rw [← this]
      push_cast
      omega

theorem parseCursor_facts :
    parseCursor "" = some 0 ∧
    (∀ n : Nat, n < 2 ^ 63 → parseCursor (toString n) = some (n : Int)) ∧
    (∀ n : Nat, 2 ^ 63 ≤ n → parseCursor (toString n) = none) ∧
    (∀ n : Nat, parseCursor ("-" ++ toString (n + 1)) = none) ∧
    (∀ c : String, c ≠ "" → isDecimalInteger c = false → parseCursor c = none) := by
  have hne : ∀ n : Nat, toString n ≠ "" := by
    intro n h
    have := (toString_digits n).1
    rw [h] at this
    exact this rfl
  refine ⟨by decide, ?_, ?_, ?_, ?_⟩
  · intro n hn
    unfold parseCursor
    rw [if_pos (hne n), Atoi_toString, if_pos hn]
    simp
  · intro n hn
    unfold parseCursor
    rw [if_pos (hne n), Atoi_toString, if_neg (by omega)]
  · intro n
    have hne2 : "-" ++ toString (n + 1) ≠ "" := String_append_ne_empty _ _ (hne (n + 1))
    unfold parseCursor
    rw [if_pos hne2]
    cases ha : Atoi ("-" ++ toString (n + 1)) with
    | none => rfl
    | some v =>
      have := Atoi_negative n v ha
      simp [this]
  · intro c hc hd
    unfold parseCursor
    rw [if_pos hc, Atoi_not_decimal c hd]

theorem Subscribe_eq (s : Service) (topic cursor : String) (hdot : containsDot topic = true) :
    Subscribe s topic cursor =
      match parseCursor cursor with
      | none => (s, Except.error (invalid "resume_cursor must be a non-negative integer"))
      | some start0 =>
        ((subscribeCommit s topic start0).1, Except.ok (subscribeCommit s topic start0).2) := by
  have hne : topic ≠ "" := by
    intro h
    subst h
    simp [containsDot] at hdot
  unfold Subscribe
  rw [if_neg hne, hdot]
  simp

/-- C13 (as stated, refuted): `9223372036854775808` is the decimal representation of
the integer `2^63 >= 0`, yet `Subscribe` rejects it with `MIG_INVALID_REQUEST`:
`strconv.Atoi` reports a range error. -/
theorem Subscribe_cursor_counterexample :
    hugeCursor = toString (2 ^ 63 : Nat) ∧
    containsDot "observatory.inference.completed" = true ∧
    errorCode (Subscribe NewService "observatory.inference.completed" hugeCursor).2
      = some ErrorInvalidRequest := by
  decide

/-- C13 (amended): for a namespaced topic `T` with log `L`, `Subscribe(T, c)` succeeds
with replay slice `L[min(n, len L) ..]` (each event with `replay == true`) when
`c` is the decimal representation of an integer `0 <= n < 2^63`, so any such
`n >= len L` yields an empty replay, and `c == ""` behaves as `n == 0`; it fails
with `MIG_INVALID_REQUEST`, leaving the state unchanged (no subscriber is
registered), when `c` denotes a negative number, is a non-empty text that is
not a decimal integer, or denotes an integer `>= 2^63`. -/
theorem Subscribe_cursor (s : Service) (topic : String) (hdot : containsDot topic = true) :
    (∀ n : Nat, n < 2 ^ 63 →
      (Subscribe s topic (toString n)).2 = Except.ok
        ((((s.events.lookup topic).getD []).drop (min n (logLength s topic))).map
          (fun e => { e with Replay := true }), s.chans.length)) ∧
    (∀ n : Nat, n < 2 ^ 63 → logLength s topic ≤ n →
      (Subscribe s topic (toString n)).2 = Except.ok ([], s.chans.length)) ∧
    (Subscribe s topic "").2 = Except.ok
        (((s.events.lookup topic).getD []).map (fun e => { e with Replay := true }),
          s.chans.length) ∧
    (∀ c : String,
      ((∃ n : Nat, c = "-" ++ toString (n + 1)) ∨ (c ≠ "" ∧ isDecimalInteger c = false) ∨
        (∃ n : Nat, 2 ^ 63 ≤ n ∧ c = toString n)) →
      errorCode (Subscribe s topic c).2 = some ErrorInvalidRequest ∧
      (Subscribe s topic c).1 = s) := by
  obtain ⟨h0, hok, hbig, hneg, hbad⟩ := parseCursor_facts
  have hsucc : ∀ n : Nat, n < 2 ^ 63 →
      (Subscribe s topic (toString n)).2 = Except.ok
        ((((s.events.lookup topic).getD []).drop (min n (logLength s topic))).map
          (fun e => { e with Replay := true }), s.chans.length) := by
    intro n hn
    rw [Subscribe_eq s topic _ hdot, hok n hn]
    simp only [subscribeCommit, logLength, Int.toNat_ofNat]
    by_cases hgt : n > ((s.events.lookup topic).getD []).length
    · rw [if_pos hgt, Nat.min_eq_right (Nat.le_of_lt hgt)]
    · rw [if_neg hgt, Nat.min_eq_left (Nat.le_of_not_lt hgt)]
  refine ⟨hsucc, ?_, ?_, ?_⟩
  · intro n hn hlen
    rw [hsucc n hn, Nat.min_eq_right hlen]
    simp [logLength]
  · rw [Subscribe_eq s topic _ hdot, h0]
    simp [subscribeCommit]
  · intro c hc
    have hp : parseCursor c = none := by
      rcases hc with ⟨n, rfl⟩ | ⟨hne, hd⟩ | ⟨n, hn, rfl⟩
      · exact hneg n
      · exact hbad c hne hd
      · exact hbig n hn
    rw [Subscribe_eq s topic _ hdot, hp]
    exact ⟨rfl, rfl⟩

theorem Subscribe_cursor_witness :
    (Subscribe (run NewService samplePublishes) "observatory.inference.completed"
      (toString (1 : Nat))).2 = Except.ok
        (List.map (fun e => { e with Replay := true })
          (List.drop (min 1 (logLength (run NewService samplePublishes)
              "observatory.inference.completed"))
            (((run NewService samplePublishes).events.lookup
              "observatory.inference.completed").getD [])),
         (run NewService samplePublishes).chans.length) ∧
    errorCode (Subscribe (run NewService samplePublishes) "observatory.inference.completed"
      ("-" ++ toString (0 + 1))).2 = some ErrorInvalidRequest ∧
    errorCode (Subscribe (run NewService samplePublishes) "observatory.inference.completed"
      "abc").2 = some ErrorInvalidRequest :=
  ⟨(Subscribe_cursor (run NewService samplePublishes) "observatory.inference.completed"
      (by decide)).1 1 (by decide),
   ((Subscribe_cursor (run NewService samplePublishes) "observatory.inference.completed"
      (by decide)).2.2.2 _ (Or.inl ⟨0, rfl⟩)).1,
   ((Subscribe_cursor (run NewService samplePublishes) "observatory.inference.completed"
      (by decide)).2.2.2 "abc" (Or.inr (Or.inl ⟨by decide, by decide⟩))).1⟩

/-! ## String order and sorting -/

theorem Char_eq_of_toNat (a b : Char) (h : a.toNat = b.toNat) : a = b := by
  have := congrArg Char.ofNat h
  simpa using this

theorem lessChars_irrefl (l : List Char) : lessChars l l = false := by
  induction l with
  | nil => rfl
  | cons a rest ih => simp [lessChars, ih]

theorem lessChars_asymm : ∀ a b : List Char, lessChars a b = true → lessChars b a = false
  | _, [], h => by simp [lessChars] at h
  | [], _ :: _, _ => by simp [lessChars]
  | a :: as, b :: bs, h => by
    unfold lessChars at h ⊢
    by_cases h1 : a.toNat < b.toNat
    · have h2 : ¬ b.toNat < a.toNat := by omega
      rw [if_neg h2, if_pos h1]
    · rw [if_neg h1] at h
      by_cases h2 : b.toNat < a.toNat
      · rw [if_pos h2] at h; exact absurd h (by decide)
      · rw [if_neg h2] at h
        rw [if_neg h2, if_neg h1]
        exact lessChars_asymm as bs h

theorem lessChars_connex : ∀ a b : List Char,
    lessChars a b = false → lessChars b a = false → a = b
  | [], [], _, _ => rfl
  | [], _ :: _, h, _ => by simp [lessChars] at h
  | _ :: _, [], _, h => by simp [lessChars] at h
  | a :: as, b :: bs, h, h' => by
    unfold lessChars at h h'
    by_cases h1 : a.toNat < b.toNat
    · rw [if_pos h1] at h; exact absurd h (by decide)
    · rw [if_neg h1] at h
      by_cases h2 : b.toNat < a.toNat
      · rw [if_pos h2] at h'; exact absurd h' (by decide)
      · rw [if_neg h2] at h
        rw [if_neg h2, if_neg h1] at h'
        have hab : a = b := Char_eq_of_toNat a b (by omega)
        rw [hab, lessChars_connex as bs h h']

theorem lessChars_trans : ∀ a b c : List Char,
    lessChars a b = true → lessChars b c = true → lessChars a c = true
  | _, [], _, h, _ => by simp [lessChars] at h
  | _, _ :: _, [], _, h => by simp [lessChars] at h
  | [], _ :: _, _ :: _, _, _ => by simp [lessChars]
  | a :: as, b :: bs, c :: cs, h, h' => by
    unfold lessChars at h h' ⊢
    by_cases h1 : a.toNat < b.toNat
    · by_cases h3 : b.toNat < c.toNat
      · rw [if_pos (by omega)]
      · rw [if_neg h3] at h'
        by_cases h4 : c.toNat < b.toNat
        · rw [if_pos h4] at h'; exact absurd h' (by decide)
        · rw [if_pos (by omega)]
    · rw [if_neg h1] at h
      by_cases h2 : b.toNat < a.toNat
      · rw [if_pos h2] at h; exact absurd h (by decide)
      · rw [if_neg h2] at h
        by_cases h3 : b.toNat < c.toNat
        · rw [if_pos (by omega)]
        · rw [if_neg h3] at h'
          by_cases h4 : c.toNat < b.toNat
          · rw [if_pos h4] at h'; exact absurd h' (by decide)
          · rw [if_neg h4] at h'
            rw [if_neg (by omega), if_neg (by omega)]
            exact lessChars_trans as bs cs h h'

theorem strLess_irrefl (a : String) : strLess a a = false := lessChars_irrefl a.data

theorem strLess_asymm (a b : String) (h : strLess a b = true) : strLess b a = false :=
  lessChars_asymm a.data b.data h

theorem strLess_trans (a b c : String) (h : strLess a b = true) (h' : strLess b c = true) :
    strLess a c = true :=
  lessChars_trans a.data b.data c.data h h'

theorem strLess_connex (a b : String) (h : strLess a b = false) (h' : strLess b a = false) :
    a = b := by
  have := lessChars_connex a.data b.data h h'
  cases a; cases b; simp_all

/-- The relation "not greater" of a string order is transitive. -/
theorem strLess_not_trans (a b c : String) (h : strLess b a = false)
    (h' : strLess c b = false) : strLess c a = false := by
  cases hca : strLess c a with
  | false => rfl
  | true =>
    cases hab : strLess a b with
    | true =>
      have := strLess_trans c a b hca hab
      rw [this] at h'; exact absurd h' (by decide)
    | false =>
      have hEq := strLess_connex a b hab h
      subst hEq
      rw [hca] at h'; exact absurd h' (by decide)

theorem sortSlice_perm {α : Type} (less : α → α → Bool) (xs : List α) :
    (sortSlice less xs).Perm xs :=
  List.perm_insertionSort _ xs

theorem sortSlice_sorted {α : Type} (less : α → α → Bool)
    (hasymm : ∀ a b, less a b = true → less b a = false)
    (htrans : ∀ a b c, less b a = false → less c b = false → less c a = false)
    (xs : List α) :
    List.Sorted (fun a b => less b a = false) (sortSlice less xs) := by
  have htot : IsTotal α (fun a b => less b a = false) :=
    ⟨fun a b => by
      cases hba : less b a with
      | false => exact Or.inl rfl
      | true => exact Or.inr (hasymm b a hba)⟩
  have htr : IsTrans α (fun a b => less b a = false) := ⟨fun a b c h h' => htrans a b c h h'⟩
  exact List.sorted_insertionSort (fun a b => less b a = false) xs

/-! ## The capability registry -/

theorem GoMap.keys_insert {V : Type} (m : GoMap V) (k : String) (v : V) :
    (m.insert k v).keys = if k ∈ m.keys then m.keys else m.keys ++ [k] := by
  induction m with
  | nil => simp [GoMap.insert, GoMap.keys]
  | cons p rest ih =>
    obtain ⟨k1, v1⟩ := p
    by_cases h : k1 = k
    · simp [GoMap.insert, GoMap.keys, h]
    · have h' : ¬ k = k1 := fun e => h e.symm
      simp only [GoMap.keys] at ih
      by_cases hm : k ∈ List.map Prod.fst rest
      · rw [if_pos hm] at ih
        simp [GoMap.insert, GoMap.keys, h, h', hm, ih]
      · rw [if_neg hm] at ih
        simp [GoMap.insert, GoMap.keys, h, h', hm, ih]

theorem increment_lookup (m : GoMap Int) (k v : String) :
    (increment m k).lookup v =
      if k = v then some ((m.lookup k).getD 0 + 1) else m.lookup v := by
  unfold increment GoMap.count
  by_cases h : k = v
  · subst h; rw [if_pos rfl, GoMap.lookup_insert_self]
  · rw [if_neg h, GoMap.lookup_insert_of_ne _ _ _ _ h]

theorem tally_lookup (key : ConnectionSnapshot → String) (conns : List ConnectionSnapshot) :
    ∀ (m : GoMap Int) (v : String),
      (tally key m conns).lookup v =
        if v = "" ∨ conns.countP (fun c => key c = v) = 0 then m.lookup v
        else some ((m.lookup v).getD 0 + (conns.countP (fun c => key c = v) : Int)) := by
  induction conns with
  | nil => intro m v; simp [tally]
  | cons c rest ih =>
    intro m v
    have hstep : tally key m (c :: rest) =
        tally key (if key c ≠ "" then increment m (key c) else m) rest := rfl
    rw [hstep, ih]
    by_cases hv : v = ""
    · subst hv
      simp only [true_or, if_true]
      by_cases hc : key c = ""
      · simp [hc]
      · rw [if_pos hc, increment_lookup, if_neg hc]
    · by_cases hcv : key c = v
      · have hc : key c ≠ "" := by rw [hcv]; exact hv
        have hcount : List.countP (fun c => decide (key c = v)) (c :: rest) =
            List.countP (fun c => decide (key c = v)) rest + 1 := by
          simp [List.countP_cons, hcv]
        rw [hcount, if_pos hc, increment_lookup, if_pos hcv, hcv]
        simp only [hv, false_or, Nat.add_one_ne_zero, if_false, Option.getD_some]
        by_cases h0 : List.countP (fun c => decide (key c = v)) rest = 0
        · rw [if_pos h0, h0]; simp
        · rw [if_neg h0]; push_cast; congr 1; ring
      · have hcount : List.countP (fun c => decide (key c = v)) (c :: rest) =
            List.countP (fun c => decide (key c = v)) rest := by
          simp [List.countP_cons, hcv]
        rw [hcount]
        by_cases hc : key c = ""
        · simp [hc]
        · rw [if_pos hc, increment_lookup, if_neg hcv]

theorem tally_empty (key : ConnectionSnapshot → String) (conns : List ConnectionSnapshot)
    (v : String) : (tally key GoMap.empty conns).lookup v = histogramEntry key conns v := by
  rw [tally_lookup]
  unfold histogramEntry
  have : (GoMap.empty : GoMap Int).lookup v = none := rfl
  rw [this]
  simp

theorem connectionsVisit_eq (filters : ConnectionFilters)
    (acc : List ConnectionSnapshot × ConnectionSummary) (conn : ConnectionSnapshot) :
    connectionsVisit (TrimSpace filters.TenantID) (TrimSpace filters.Kind)
        (TrimSpace filters.Protocol) acc conn =
      if matchesFilters filters conn = true then
        (acc.1 ++ [conn],
          { Total := acc.2.Total + 1
            ByProtocol := tally (fun c => c.Protocol) acc.2.ByProtocol [conn]
            ByKind := tally (fun c => c.Kind) acc.2.ByKind [conn]
            ByTenant := tally (fun c => c.TenantID) acc.2.ByTenant [conn]
            NATSBindingActive := acc.2.NATSBindingActive })
      else acc := by
  unfold connectionsVisit matchesFilters tally
  by_cases h1 : TrimSpace filters.TenantID ≠ "" ∧ conn.TenantID ≠ TrimSpace filters.TenantID
  · rw [if_pos h1, if_neg]
    simp only [decide_eq_true_eq]
    intro h; rcases h.1 with e | e
    · exact h1.1 e
    · exact h1.2 e
  · rw [if_neg h1]
    by_cases h2 : TrimSpace filters.Kind ≠ "" ∧ conn.Kind ≠ TrimSpace filters.Kind
    · rw [if_pos h2, if_neg]
      simp only [decide_eq_true_eq]
      intro h; rcases h.2.1 with e | e
      · exact h2.1 e
      · exact h2.2 e
    · rw [if_neg h2]
      by_cases h3 : TrimSpace filters.Protocol ≠ "" ∧
          conn.Protocol ≠ TrimSpace filters.Protocol
      · rw [if_pos h3, if_neg]
        simp only [decide_eq_true_eq]
        intro h; rcases h.2.2 with e | e
        · exact h3.1 e
        · exact h3.2 e
      · rw [if_neg h3, if_pos]
        · by_cases p1 : conn.Protocol = "" <;> by_cases p2 : conn.Kind = "" <;>
            by_cases p3 : conn.TenantID = "" <;> simp [p1, p2, p3]
        · simp only [decide_eq_true_eq]
          refine ⟨?_, ?_, ?_⟩
          · by_cases e : TrimSpace filters.TenantID = ""
            · exact Or.inl e
            · right; by_contra hne; exact h1 ⟨e, hne⟩
          · by_cases e : TrimSpace filters.Kind = ""
            · exact Or.inl e
            · right; by_contra hne; exact h2 ⟨e, hne⟩
          · by_cases e : TrimSpace filters.Protocol = ""
            · exact Or.inl e
            · right; by_contra hne; exact h3 ⟨e, hne⟩

theorem tally_append (key : ConnectionSnapshot → String) (m : GoMap Int)
    (xs ys : List ConnectionSnapshot) :
    tally key (tally key m xs) ys = tally key m (xs ++ ys) := by
  unfold tally; rw [List.foldl_append]

theorem connections_fold (filters : ConnectionFilters) (l : List ConnectionSnapshot) :
    ∀ acc : List ConnectionSnapshot × ConnectionSummary,
      l.foldl (connectionsVisit (TrimSpace filters.TenantID) (TrimSpace filters.Kind)
          (TrimSpace filters.Protocol)) acc =
        (acc.1 ++ l.filter (matchesFilters filters),
          { Total := acc.2.Total + ((l.filter (matchesFilters filters)).length : Int)
            ByProtocol := tally (fun c => c.Protocol) acc.2.ByProtocol
              (l.filter (matchesFilters filters))
            ByKind := tally (fun c => c.Kind) acc.2.ByKind (l.filter (matchesFilters filters))
            ByTenant := tally (fun c => c.TenantID) acc.2.ByTenant
              (l.filter (matchesFilters filters))
            NATSBindingActive := acc.2.NATSBindingActive }) := by
  induction l with
  | nil => intro acc; simp [tally]
  | cons c rest ih =>
    intro acc
    rw [List.foldl_cons, ih, connectionsVisit_eq]
    cases hm : matchesFilters filters c with
    | false => simp [hm]
    | true =>
      simp only [if_true, List.filter_cons_of_pos hm, List.append_assoc, List.singleton_append,
        List.length_cons, tally_append]
      congr 2
      push_cast; ring

theorem histogramEntry_perm (key : ConnectionSnapshot → String)
    (xs ys : List ConnectionSnapshot) (h : xs.Perm ys) (v : String) :
    histogramEntry key xs v = histogramEntry key ys v := by
  unfold histogramEntry
  rw [h.countP_eq]

/-- C20: `Connections` returns the registered connections that agree with every
filter that is not blank after trimming, each as often as it is registered,
ordered so that no connection precedes one with a later `started_at`;
`summary.total` is the number of returned connections, every histogram binds
each non-empty value to the number of returned connections carrying it (and
binds nothing else), and the registry is unchanged. -/
theorem Connections_snapshot (env : Env) (s : Service) (filters : ConnectionFilters) :
    (Connections env s filters).1 = s ∧
    (Connections env s filters).2.Connections.Perm
      (s.connections.values.filter (matchesFilters filters)) ∧
    List.Pairwise (fun a b => strLess a.StartedAt b.StartedAt = false)
      (Connections env s filters).2.Connections ∧
    (Connections env s filters).2.Summary.Total =
      ((Connections env s filters).2.Connections.length : Int) ∧
    (∀ v, (Connections env s filters).2.Summary.ByProtocol.lookup v =
      histogramEntry (fun c => c.Protocol) (Connections env s filters).2.Connections v) ∧
    (∀ v, (Connections env s filters).2.Summary.ByKind.lookup v =
      histogramEntry (fun c => c.Kind) (Connections env s filters).2.Connections v) ∧
    (∀ v, (Connections env s filters).2.Summary.ByTenant.lookup v =
      histogramEntry (fun c => c.TenantID) (Connections env s filters).2.Connections v) := by
  unfold Connections
  simp only [connections_fold, List.nil_append, zero_add]
  have hperm := sortSlice_perm (fun a b : ConnectionSnapshot => strLess b.StartedAt a.StartedAt)
    (s.connections.values.filter (matchesFilters filters))
  refine ⟨trivial, hperm, ?_, ?_, ?_, ?_, ?_⟩
  · exact sortSlice_sorted (fun a b : ConnectionSnapshot => strLess b.StartedAt a.StartedAt)
      (fun a b h => strLess_asymm _ _ h)
      (fun a b c h h' => strLess_not_trans _ _ _ h' h)
      (s.connections.values.filter (matchesFilters filters))
  · rw [hperm.length_eq]
  · intro v
    rw [tally_empty, histogramEntry_perm _ _ _ hperm]
  · intro v
    rw [tally_empty, histogramEntry_perm _ _ _ hperm]
  · intro v
    rw [tally_empty, histogramEntry_perm _ _ _ hperm]

/-! ## Reconciliation of the envelope with the principal -/

theorem ScopesList_mem (p : Principal) (x : String) : x ∈ p.ScopesList ↔ x ∈ p.Scopes := by
  unfold Principal.ScopesList sortStrings
  rw [(sortSlice_perm _ _).mem_iff, List.mem_dedup]

theorem ScopesList_ascending (p : Principal) :
    List.Pairwise (fun a b => strLess a b = true) p.ScopesList := by
  unfold Principal.ScopesList sortStrings
  have hnd : (sortSlice strLess p.Scopes.dedup).Nodup :=
    ((sortSlice_perm _ _).nodup_iff).mpr (List.nodup_dedup _)
  have hsorted := sortSlice_sorted strLess (fun a b h => strLess_asymm _ _ h)
    (fun a b c h h' => strLess_not_trans _ _ _ h h') p.Scopes.dedup
  refine List.Pairwise.imp ?_ (List.Pairwise.and hsorted hnd)
  intro a b hab
  cases hlt : strLess a b with
  | true => rfl
  | false => exact absurd (strLess_connex _ _ hlt hab.1) hab.2

theorem annotatePrincipal_carries (head : MessageHeader) (principal : Principal) :
    carriesPrincipal (annotatePrincipal head principal) principal ∧
    (annotatePrincipal head principal).TenantID = head.TenantID := by
  refine ⟨⟨_, rfl, ?_, ?_⟩, rfl⟩
  · rw [GoMap.lookup_insert_of_ne _ _ _ _ (by decide), GoMap.lookup_insert_self]
  · rw [GoMap.lookup_insert_self]

theorem applyPrincipalHeader_meta (head : MessageHeader) (principal : Principal)
    (tenantHeader : String) :
    carriesPrincipal (applyPrincipalHeader head principal tenantHeader).1 principal := by
  have h := (annotatePrincipal_carries head principal).1
  unfold applyPrincipalHeader
  simp only
  split <;> (try split) <;> (try split) <;> (try split) <;> exact h

theorem applyPrincipalHeaderFromPrincipal_meta (head : MessageHeader) (principal : Principal) :
    carriesPrincipal (applyPrincipalHeaderFromPrincipal head principal).1 principal := by
  have h := (annotatePrincipal_carries head principal).1
  unfold applyPrincipalHeaderFromPrincipal
  simp only
  split <;> (try split) <;> (try split) <;> exact h

/-- The gRPC reconciler on a principal with a tenant. -/
theorem applyPrincipalHeaderFromPrincipal_cases (head : MessageHeader) (principal : Principal)
    (hP : principal.TenantID ≠ "") :
    (head.TenantID = "" →
      (applyPrincipalHeaderFromPrincipal head principal).2 = none ∧
      (applyPrincipalHeaderFromPrincipal head principal).1.TenantID = principal.TenantID) ∧
    (head.TenantID ≠ "" → head.TenantID ≠ principal.TenantID →
      codeOf (applyPrincipalHeaderFromPrincipal head principal).2 = some ErrorForbidden) ∧
    (head.TenantID = principal.TenantID →
      (applyPrincipalHeaderFromPrincipal head principal).2 = none ∧
      (applyPrincipalHeaderFromPrincipal head principal).1.TenantID = principal.TenantID) := by
  have hT := (annotatePrincipal_carries head principal).2
  unfold applyPrincipalHeaderFromPrincipal
  simp only [hT]
  refine ⟨?_, ?_, ?_⟩
  · intro h0
    simp [h0, hP]
  · intro h0 hne
    simp [h0, hP, hne, codeOf, hT]
  · intro he
    have h0 : head.TenantID ≠ "" := by rw [he]; exact hP
    simp [h0, he, hP, hT]

/-- The HTTP reconciler on a principal with a tenant: the outcome in each case. -/
theorem applyPrincipalHeader_cases (head : MessageHeader) (principal : Principal)
    (tenantHeader : String) (hP : principal.TenantID ≠ "") :
    (head.TenantID = "" ∨ head.TenantID = principal.TenantID →
      (applyPrincipalHeader head principal tenantHeader).1.TenantID = principal.TenantID ∧
      (applyPrincipalHeader head principal tenantHeader).2 =
        if principal.TenantID = "unknown" then
          some { Code := ErrorInvalidRequest, Message := "tenant_id is required",
                 Retryable := false }
        else none) ∧
    (head.TenantID ≠ "" → head.TenantID ≠ principal.TenantID →
      codeOf (applyPrincipalHeader head principal tenantHeader).2 = some ErrorForbidden) := by
  have hT := (annotatePrincipal_carries head principal).2
  unfold applyPrincipalHeader
  simp only [hT]
  refine ⟨?_, ?_⟩
  · intro h
    rcases h with h0 | he
    · by_cases hu : principal.TenantID = "unknown" <;> simp [h0, hP, hu]
    · have h0 : head.TenantID ≠ "" := by rw [he]; exact hP
      by_cases hu : principal.TenantID = "unknown"
      · have hu' : head.TenantID = "unknown" := by rw [he]; exact hu
        simp [h0, he, hP, hu, hT]
      · have hu' : head.TenantID ≠ "unknown" := by rw [he]; exact hu
        simp [h0, he, hP, hu, hT]
  · intro h0 hne
    simp [h0, hP, hne, codeOf, hT]

/-- C16 (code defect): both reconcilers write the subject and the ascending scope
list of the principal into `meta` in every case.  For a principal with a
non-empty tenant `P` the gRPC reconciler does what the claim says: an empty
`tenant_id` is filled with `P` and accepted, a different one is rejected with
`MIG_FORBIDDEN`, an equal one is accepted.  The HTTP reconciler does the same
for every `P` other than the text `unknown`; for `P = unknown` it rejects the
empty and the equal `tenant_id` with `MIG_INVALID_REQUEST`, because it
compares the reconciled tenant with the placeholder that `tenantFromRequest`
returns for a missing header. -/
theorem applyPrincipalHeader_rejects_unknown :
    (∀ (head : MessageHeader) (principal : Principal) (tenantHeader : String),
      carriesPrincipal (applyPrincipalHeader head principal tenantHeader).1 principal ∧
      carriesPrincipal (applyPrincipalHeaderFromPrincipal head principal).1 principal ∧
      (∀ x, x ∈ principal.ScopesList ↔ x ∈ principal.Scopes) ∧
      List.Pairwise (fun a b => strLess a b = true) principal.ScopesList) ∧
    (∀ (head : MessageHeader) (principal : Principal), principal.TenantID ≠ "" →
      (head.TenantID = "" →
        (applyPrincipalHeaderFromPrincipal head principal).2 = none ∧
        (applyPrincipalHeaderFromPrincipal head principal).1.TenantID = principal.TenantID) ∧
      (head.TenantID ≠ "" → head.TenantID ≠ principal.TenantID →
        codeOf (applyPrincipalHeaderFromPrincipal head principal).2 = some ErrorForbidden) ∧
      (head.TenantID = principal.TenantID →
        (applyPrincipalHeaderFromPrincipal head principal).2 = none)) ∧
    (∀ (head : MessageHeader) (principal : Principal) (tenantHeader : String),
      principal.TenantID ≠ "" → principal.TenantID ≠ "unknown" →
      (head.TenantID = "" →
        (applyPrincipalHeader head principal tenantHeader).2 = none ∧
        (applyPrincipalHeader head principal tenantHeader).1.TenantID = principal.TenantID) ∧
      (head.TenantID ≠ "" → head.TenantID ≠ principal.TenantID →
        codeOf (applyPrincipalHeader head principal tenantHeader).2 = some ErrorForbidden) ∧
      (head.TenantID = principal.TenantID →
        (applyPrincipalHeader head principal tenantHeader).2 = none)) ∧
    (∀ (head : MessageHeader) (principal : Principal) (tenantHeader : String),
      principal.TenantID = "unknown" →
      (head.TenantID = "" ∨ head.TenantID = "unknown") →
        (applyPrincipalHeader head principal tenantHeader).1.TenantID = "unknown" ∧
        (applyPrincipalHeader head principal tenantHeader).2 =
          some { Code := ErrorInvalidRequest, Message := "tenant_id is required",
                 Retryable := false }) ∧
    (codeOf (applyPrincipalHeader (headerOf "") unknownTenantPrincipal "").2
        = some ErrorInvalidRequest ∧
      codeOf (applyPrincipalHeader (headerOf "unknown") unknownTenantPrincipal "").2
        = some ErrorInvalidRequest ∧
      (applyPrincipalHeaderFromPrincipal (headerOf "") unknownTenantPrincipal).2 = none ∧
      (applyPrincipalHeaderFromPrincipal (headerOf "") unknownTenantPrincipal).1.TenantID
        = "unknown" ∧
      (applyPrincipalHeader (headerOf "") acmePrincipal "").2 = none ∧
      acmePrincipal.ScopesList = ["capability:infer", "write"]) := by
  refine ⟨?_, ?_, ?_, ?_, ?_⟩
  · intro head principal tenantHeader
    exact ⟨applyPrincipalHeader_meta head principal tenantHeader,
      applyPrincipalHeaderFromPrincipal_meta head principal,
      ScopesList_mem principal, ScopesList_ascending principal⟩
  · intro head principal hP
    have h := applyPrincipalHeaderFromPrincipal_cases head principal hP
    exact ⟨h.1, h.2.1, fun he => (h.2.2 he).1⟩
  · intro head principal tenantHeader hP hU
    have h := applyPrincipalHeader_cases head principal tenantHeader hP
    refine ⟨?_, h.2, ?_⟩
    · intro h0
      have := h.1 (Or.inl h0)
      rw [if_neg hU] at this
      exact ⟨this.2, this.1⟩
    · intro he
      have := h.1 (Or.inr he)
      rw [if_neg hU] at this
      exact this.2
  · intro head principal tenantHeader hU h0
    have hP : principal.TenantID ≠ "" := by rw [hU]; decide
    have h := (applyPrincipalHeader_cases head principal tenantHeader hP).1
      (by rcases h0 with h0 | h0
          · exact Or.inl h0
          · exact Or.inr (by rw [h0, hU]))
    rw [if_pos hU] at h
    rw [hU] at h
    exact h
  · decide

/-! ## Classification of credential failures -/

/-- The JWT branch of `PrincipalFromAuthHeaders`, decision by decision. -/
theorem PrincipalFromAuthHeaders_jwt (verify : TokenVerifier)
    (authorizationHeader tenantHeader : String) (cfg : AuthConfig)
    (hmode : cfg.Mode = AuthModeJWT) :
    PrincipalFromAuthHeaders verify authorizationHeader tenantHeader cfg =
      if HasPrefix (TrimSpace authorizationHeader) "Bearer " = false then
        Except.error (GoError.errorf "missing bearer token")
      else
        match verify (bearerToken authorizationHeader) cfg.JWTSecret with
        | none => Except.error (GoError.errorf "invalid bearer token")
        | some claims =>
          if tokenTenant claims = "" then
            Except.error (GoError.errorf "token is missing tenant claim")
          else if cfg.RequireTenant = true ∧ TrimSpace tenantHeader = "" then
            Except.error (GoError.errorf "tenant header is required")
          else if TrimSpace tenantHeader ≠ "" ∧ TrimSpace tenantHeader ≠ tokenTenant claims then
            Except.error (GoError.errorf "tenant header does not match token tenant")
          else
            Except.ok { Subject := asStringClaim claims "sub" "unknown"
                        TenantID := tokenTenant claims
                        Scopes := scopesFromClaims claims
                        Authenticated := true } := by
  have hne : ¬ cfg.Mode = AuthModeNone := by rw [hmode]; decide
  unfold PrincipalFromAuthHeaders
  simp only [if_neg hne, if_pos hmode]
  cases hp : HasPrefix (TrimSpace authorizationHeader) "Bearer " with
  | false => simp
  | true =>
    simp only [Bool.not_true, Bool.false_eq_true, if_false, bearerToken]
    cases hv : verify (TrimSpace (TrimPrefix (TrimSpace authorizationHeader) "Bearer "))
        cfg.JWTSecret with
    | none => rfl
    | some claims =>
      simp only [tokenTenant, AnonymousPrincipal]
      by_cases h1 : asStringClaim claims "tenant_id" "" = ""
      · simp [h1]
      · simp [h1]

theorem tokenTenant_absent (claims : GoMap Value) (h1 : claims.lookup "tenant_id" = none)
    (h2 : claims.lookup "tenant" = none) : tokenTenant claims = "" := by
  simp [tokenTenant, asStringClaim, h1, h2]

/-- C17 (amended): in jwt mode a request without a bearer token and a request
whose token the JWT library rejects are refused as unauthorized
(`MIG_UNAUTHORIZED`, 401).  A valid token that names no tenant (in particular
one with neither a `tenant_id` nor a `tenant` claim) is refused as forbidden
(`MIG_FORBIDDEN`, 403), and so is a request whose tenant header differs from
the tenant of the token: every failure whose text mentions the tenant is
classified as forbidden. -/
theorem auth_failure_classes (verify : TokenVerifier)
    (authorizationHeader tenantHeader : String) (cfg : AuthConfig)
    (hmode : cfg.Mode = AuthModeJWT) :
    (HasPrefix (TrimSpace authorizationHeader) "Bearer " = false →
      ∃ e, PrincipalFromAuthHeaders verify authorizationHeader tenantHeader cfg
          = Except.error e ∧
        e.Error = "missing bearer token" ∧
        migCodeForAuthErr e = ErrorUnauthorized ∧ httpStatusForError e = 401) ∧
    (HasPrefix (TrimSpace authorizationHeader) "Bearer " = true →
      verify (bearerToken authorizationHeader) cfg.JWTSecret = none →
      ∃ e, PrincipalFromAuthHeaders verify authorizationHeader tenantHeader cfg
          = Except.error e ∧
        e.Error = "invalid bearer token" ∧
        migCodeForAuthErr e = ErrorUnauthorized ∧ httpStatusForError e = 401) ∧
    (∀ claims, HasPrefix (TrimSpace authorizationHeader) "Bearer " = true →
      verify (bearerToken authorizationHeader) cfg.JWTSecret = some claims →
      tokenTenant claims = "" →
      ∃ e, PrincipalFromAuthHeaders verify authorizationHeader tenantHeader cfg
          = Except.error e ∧
        e.Error = "token is missing tenant claim" ∧
        migCodeForAuthErr e = ErrorForbidden ∧ httpStatusForError e = 403) ∧
    (∀ claims, HasPrefix (TrimSpace authorizationHeader) "Bearer " = true →
      verify (bearerToken authorizationHeader) cfg.JWTSecret = some claims →
      tokenTenant claims ≠ "" →
      TrimSpace tenantHeader ≠ "" → TrimSpace tenantHeader ≠ tokenTenant claims →
      ∃ e, PrincipalFromAuthHeaders verify authorizationHeader tenantHeader cfg
          = Except.error e ∧
        e.Error = "tenant header does not match token tenant" ∧
        migCodeForAuthErr e = ErrorForbidden ∧ httpStatusForError e = 403) ∧
    (∀ claims : GoMap Value, claims.lookup "tenant_id" = none →
      claims.lookup "tenant" = none → tokenTenant claims = "") := by
  have hjwt := PrincipalFromAuthHeaders_jwt verify authorizationHeader tenantHeader cfg hmode
  refine ⟨?_, ?_, ?_, ?_, tokenTenant_absent⟩
  · intro hp
    rw [hjwt, if_pos hp]
    exact ⟨_, rfl, rfl, by decide, by decide⟩
  · intro hp hv
    have hp' : ¬ HasPrefix (TrimSpace authorizationHeader) "Bearer " = false := by
      rw [hp]; decide
    rw [hjwt, if_neg hp', hv]
    exact ⟨_, rfl, rfl, by decide, by decide⟩
  · intro claims hp hv ht
    have hp' : ¬ HasPrefix (TrimSpace authorizationHeader) "Bearer " = false := by
      rw [hp]; decide
    rw [hjwt, if_neg hp', hv]
    simp only [if_pos ht]
    exact ⟨_, rfl, rfl, by decide, by decide⟩
  · intro claims hp hv ht hh hne
    have hp' : ¬ HasPrefix (TrimSpace authorizationHeader) "Bearer " = false := by
      rw [hp]; decide
    have hreq : ¬ (cfg.RequireTenant = true ∧ TrimSpace tenantHeader = "") := fun h => hh h.2
    rw [hjwt, if_neg hp', hv]
    simp only [if_neg ht, if_neg hreq, if_pos (And.intro hh hne)]
    exact ⟨_, rfl, rfl, by decide, by decide⟩

/-- C17 as stated fails: a valid token with neither a `tenant_id` nor a `tenant`
claim is refused with `MIG_FORBIDDEN` and status 403, not as unauthorized. -/
theorem auth_failure_classes_counterexample :
    (sampleVerifier (bearerToken "Bearer notenant") jwtConfig.JWTSecret).map
        (fun claims => ((claims.lookup "tenant_id").isNone, (claims.lookup "tenant").isNone))
      = some (true, true) ∧
    PrincipalFromAuthHeaders sampleVerifier "Bearer notenant" "" jwtConfig
      = Except.error (GoError.errorf "token is missing tenant claim") ∧
    migCodeForAuthErr (GoError.errorf "token is missing tenant claim") = ErrorForbidden ∧
    httpStatusForError (GoError.errorf "token is missing tenant claim") = 403 ∧
    ¬ (∀ e, PrincipalFromAuthHeaders sampleVerifier "Bearer notenant" "" jwtConfig
          = Except.error e →
        migCodeForAuthErr e = ErrorUnauthorized ∧ httpStatusForError e = 401) := by
  refine ⟨by decide, rfl, by decide, by decide, ?_⟩
  intro h
  have := (h (GoError.errorf "token is missing tenant claim") rfl).2
  exact absurd this (by decide)

/-- C17 (amended) on the requests of the auth tests: no bearer token, a token the
verifier rejects, a valid token without tenant, and a tenant header that
differs from the token tenant. -/
theorem auth_failure_classes_witness :
    jwtConfig.Mode = AuthModeJWT ∧
    (∃ e, PrincipalFromAuthHeaders sampleVerifier "" "" jwtConfig = Except.error e ∧
      e.Error = "missing bearer token" ∧
      migCodeForAuthErr e = ErrorUnauthorized ∧ httpStatusForError e = 401) ∧
    (∃ e, PrincipalFromAuthHeaders sampleVerifier "Bearer notenant" "" jwtConfig
        = Except.error e ∧
      e.Error = "token is missing tenant claim" ∧
      migCodeForAuthErr e = ErrorForbidden ∧ httpStatusForError e = 403) ∧
    (∃ e, PrincipalFromAuthHeaders sampleVerifier "Bearer good" "other" jwtConfig
        = Except.error e ∧
      e.Error = "tenant header does not match token tenant" ∧
      migCodeForAuthErr e = ErrorForbidden ∧ httpStatusForError e = 403) :=
  ⟨rfl,
   (auth_failure_classes sampleVerifier "" "" jwtConfig rfl).1 (by decide),
   (auth_failure_classes sampleVerifier "Bearer notenant" "" jwtConfig rfl).2.2.1
     [("sub", Value.str "user-1")] (by decide) rfl (by decide),
   (auth_failure_classes sampleVerifier "Bearer good" "other" jwtConfig rfl).2.2.2.1
     [("sub", Value.str "user-1"), ("tenant_id", Value.str "acme"),
      ("scopes", Value.arr [Value.str "capability:infer"])]
     (by decide) rfl (by decide) (by decide) (by decide)⟩

/-! ## Claims about the Hello result, the gate order of Invoke and its frame -/

theorem selectBinding_eq (bindings : List String) :
    selectBinding bindings = firstNormalizedBinding bindings := by
  induction bindings with
  | nil => rfl
  | cons b rest ih =>
    unfold selectBinding firstNormalizedBinding
    simp only [List.map_cons, List.find?_cons]
    by_cases h : ToLower (TrimSpace b) = "http" ∨ ToLower (TrimSpace b) = "grpc" ∨
        ToLower (TrimSpace b) = "nats"
    · have h' : ToLower (TrimSpace b) = "grpc" ∨ ToLower (TrimSpace b) = "nats" ∨
          ToLower (TrimSpace b) = "http" := by tauto
      rw [if_pos h']
      simp [h]
    · have h' : ¬ (ToLower (TrimSpace b) = "grpc" ∨ ToLower (TrimSpace b) = "nats" ∨
          ToLower (TrimSpace b) = "http") := by tauto
      rw [if_neg h']
      simp only [h, decide_False]
      exact ih

theorem ite_not_ok {α : Type} (b : Bool) (e : MigError) (r resp : α)
    (h : (if (!b) = true then (Except.error e : Except MigError α) else Except.ok r)
      = Except.ok resp) : r = resp := by
  cases b
  · simp at h
  · simpa using h

/-- A successful `Hello` returns the response built from the normalized header. -/
theorem Hello_ok_inv (env : Env) (s : Service) (req : HelloRequest) (resp : HelloResponse)
    (h : Hello env s req = Except.ok resp) :
    ∃ head, resp =
      { Header := AddIDGMeta head "core"
        SelectedVersion := MIGVersion
        SelectedBinding := selectBinding req.RequestedBindings
        EnabledFeatures := req.RequestedFeatures
        ServerID := s.serverID } := by
  unfold Hello at h
  cases hN : Normalize env req.Header with
  | mk head err =>
    rw [hN] at h
    cases err with
    | some msg => simp at h
    | none => exact ⟨head, (ite_not_ok _ _ _ _ h).symm⟩

/-- C23 (as stated, refuted): for the bindings `["GRPC", "nats"]` the first element
that is one of http, grpc, nats is `nats`, but `Hello` selects `grpc`: each
element is trimmed and lower-cased before it is compared, and the selected
binding is the element in that form. -/
theorem Hello_result_counterexample :
    firstListedBinding (helloWith ["GRPC", "nats"] []).RequestedBindings = "nats" ∧
    (response (Hello sampleEnv NewService (helloWith ["GRPC", "nats"] []))).map
      (fun r => r.SelectedBinding) = some "grpc" ∧
    firstListedBinding (helloWith [" Http "] []).RequestedBindings = "http" ∧
    firstListedBinding (helloWith ["GRPC"] []).RequestedBindings = "http" ∧
    (response (Hello sampleEnv NewService (helloWith ["GRPC"] []))).map
      (fun r => r.SelectedBinding) = some "grpc" := by
  refine ⟨by decide, by decide, by decide, by decide, by decide⟩

/-- C23 (amended): for every `Hello` that succeeds, selected_version is `0.1`,
selected_binding is the first element of requested_bindings that, trimmed of
white space and lower-cased, is one of http, grpc, nats (in that trimmed,
lower-cased form), or `http` when no element is, enabled_features equals
requested_features, and server_id is the server id of the service.  `Hello`
only reads the service: it returns no new state. -/
theorem Hello_result (env : Env) (s : Service) (req : HelloRequest) (resp : HelloResponse)
    (h : Hello env s req = Except.ok resp) :
    resp.SelectedVersion = "0.1" ∧
    resp.SelectedBinding = firstNormalizedBinding req.RequestedBindings ∧
    (resp.SelectedBinding = "http" ∨ resp.SelectedBinding = "grpc" ∨
      resp.SelectedBinding = "nats") ∧
    resp.EnabledFeatures = req.RequestedFeatures ∧
    resp.ServerID = s.serverID ∧
    step s Op.query = s := by
  have hr := Hello_ok_inv env s req resp h
  obtain ⟨head, hr⟩ := hr
  subst hr
  refine ⟨rfl, selectBinding_eq _, ?_, rfl, rfl, rfl⟩
  simp only
  rw [selectBinding_eq]
  unfold firstNormalizedBinding
  cases hf : List.find? (fun c => decide (c = "http" ∨ c = "grpc" ∨ c = "nats"))
      (List.map (fun b => ToLower (TrimSpace b)) req.RequestedBindings) with
  | none => exact Or.inl rfl
  | some c =>
    have := List.find?_some hf
    simpa using this

/-- C23 (amended) on a request of the conformance harness with mixed-case bindings. -/
theorem Hello_result_witness :
    (∃ resp, Hello sampleEnv NewService (helloWith ["carrier-pigeon", " NATS ", "http"] ["x"])
        = Except.ok resp ∧
      resp.SelectedVersion = "0.1" ∧ resp.SelectedBinding = "nats" ∧
      resp.EnabledFeatures = ["x"] ∧ resp.ServerID = "migd-core") :=
  ⟨_, rfl,
    (Hello_result sampleEnv NewService (helloWith ["carrier-pigeon", " NATS ", "http"] ["x"])
      _ rfl).1,
    (Hello_result sampleEnv NewService (helloWith ["carrier-pigeon", " NATS ", "http"] ["x"])
      _ rfl).2.1.trans (by decide),
    (Hello_result sampleEnv NewService (helloWith ["carrier-pigeon", " NATS ", "http"] ["x"])
      _ rfl).2.2.2.1,
    (Hello_result sampleEnv NewService (helloWith ["carrier-pigeon", " NATS ", "http"] ["x"])
      _ rfl).2.2.2.2.1⟩

/-- C25: `Invoke` applies its gates in the order header validation, capability
required, descriptor lookup, scope gate, cancellation set, idempotency cache,
quota.  Each line assumes that the earlier gates pass and nothing about the
later ones, so the outcome of the earliest failing gate applies: a cancelled
message id fails with `MIG_TIMEOUT` whether or not a response is cached for
the idempotency key, and a cached response is returned whether or not the
quota of the tenant is exhausted. -/
theorem Invoke_gate_order (env : Env) (s : Service) (capability : String)
    (req : InvokeRequest) (actor : String) (principal : Principal) :
    (¬ normalizes env req.Header →
      errorCode (Invoke env s capability req actor principal).2 = some ErrorInvalidRequest) ∧
    (normalizes env req.Header → effectiveCapability capability req = "" →
      (Invoke env s capability req actor principal).2
        = Except.error (invalid "capability is required")) ∧
    (normalizes env req.Header → effectiveCapability capability req ≠ "" →
      s.capabilities.lookup (effectiveCapability capability req) = none →
      errorCode (Invoke env s capability req actor principal).2
        = some ErrorUnsupportedCapability) ∧
    (∀ capDesc, normalizes env req.Header → effectiveCapability capability req ≠ "" →
      s.capabilities.lookup (effectiveCapability capability req) = some capDesc →
      principal.HasAnyScope capDesc.AuthScopes = false →
      errorCode (Invoke env s capability req actor principal).2 = some ErrorForbidden) ∧
    (∀ capDesc reason, normalizes env req.Header → effectiveCapability capability req ≠ "" →
      s.capabilities.lookup (effectiveCapability capability req) = some capDesc →
      principal.HasAnyScope capDesc.AuthScopes = true →
      s.cancelled.lookup (invokeHead env req).MessageID = some reason →
      (Invoke env s capability req actor principal).2 = Except.error
        { Code := ErrorTimeout, Message := "invocation cancelled: " ++ reason,
          Retryable := true }) ∧
    (∀ capDesc cached, normalizes env req.Header → effectiveCapability capability req ≠ "" →
      s.capabilities.lookup (effectiveCapability capability req) = some capDesc →
      principal.HasAnyScope capDesc.AuthScopes = true →
      s.cancelled.lookup (invokeHead env req).MessageID = none →
      cacheHit env s capability req = some cached →
      (Invoke env s capability req actor principal).2
        = Except.ok { cached with Header := invokeHead env req }) ∧
    (∀ capDesc quota, normalizes env req.Header → effectiveCapability capability req ≠ "" →
      s.capabilities.lookup (effectiveCapability capability req) = some capDesc →
      principal.HasAnyScope capDesc.AuthScopes = true →
      s.cancelled.lookup (invokeHead env req).MessageID = none →
      cacheHit env s capability req = none →
      s.quotas.lookup (invokeHead env req).TenantID = some quota →
      s.tenantInvocations.count (invokeHead env req).TenantID ≥ quota →
      errorCode (Invoke env s capability req actor principal).2 = some ErrorRateLimited) ∧
    (∀ capDesc, normalizes env req.Header → effectiveCapability capability req ≠ "" →
      s.capabilities.lookup (effectiveCapability capability req) = some capDesc →
      principal.HasAnyScope capDesc.AuthScopes = true →
      s.cancelled.lookup (invokeHead env req).MessageID = none →
      cacheHit env s capability req = none →
      (∀ quota, s.quotas.lookup (invokeHead env req).TenantID = some quota →
        s.tenantInvocations.count (invokeHead env req).TenantID < quota) →
      Invoke env s capability req actor principal =
        invokeCommit env s (invokeHead env req) (effectiveCapability capability req) capDesc
          req actor) := by
  refine ⟨?_, ?_, ?_, ?_, ?_, ?_, ?_, ?_⟩
  · intro hn
    obtain ⟨msg, hg⟩ := invokeGate_not_normalizes env s capability req principal hn
    rw [Invoke_of_fail env s capability req actor principal _ hg]
    rfl
  · intro hn he
    rw [Invoke_of_fail env s capability req actor principal _
      (invokeGate_no_capability env s capability req principal hn he)]
  · intro hn hne hcap
    rw [Invoke_of_fail env s capability req actor principal _
      (invokeGate_unknown env s capability req principal hn hne hcap)]
    rfl
  · intro capDesc hn hne hcap hscope
    rw [Invoke_of_fail env s capability req actor principal _
      (invokeGate_forbidden env s capability req principal capDesc hn hne hcap hscope)]
    rfl
  · intro capDesc reason hn hne hcap hscope hc
    rw [Invoke_of_fail env s capability req actor principal _
      (invokeGate_cancelled env s capability req principal capDesc reason hn hne hcap hscope hc)]
  · intro capDesc cached hn hne hcap hscope hc hhit
    rw [Invoke_cached env s capability req actor principal capDesc cached hn hne hcap hscope hc
      hhit]
  · intro capDesc quota hn hne hcap hscope hc hmiss hq hused
    rw [Invoke_rate_limited env s capability req actor principal capDesc quota hn hne hcap hscope
      hc hmiss hq hused]
    rfl
  · intro capDesc hn hne hcap hscope hc hmiss hq
    exact Invoke_fresh env s capability req actor principal capDesc hn hne hcap hscope hc hmiss hq

/-- C25 in a state where the quota of `acme` is exhausted, a response is cached and
`invoke-99` is cancelled: the cancelled request fails with `MIG_TIMEOUT` although
its key is cached, and the cached request succeeds although the quota is
exhausted. -/
theorem Invoke_gate_order_witness :
    gatedState.quotas.lookup "acme" = some 1 ∧
    gatedState.tenantInvocations.count "acme" = 1 ∧
    (cacheHit sampleEnv gatedState "observatory.models.infer" cancelledCachedInvoke).isSome
      = true ∧
    errorCode (Invoke sampleEnv gatedState "observatory.models.infer" cancelledCachedInvoke
      "tester" testerPrincipal).2 = some ErrorTimeout ∧
    (Invoke sampleEnv gatedState "observatory.models.infer" sampleInvoke "tester"
      testerPrincipal).2 = Except.ok sampleResponse :=
  ⟨by decide, by decide, by decide,
   by
     rw [(Invoke_gate_order sampleEnv gatedState "observatory.models.infer"
       cancelledCachedInvoke "tester" testerPrincipal).2.2.2.2.1 bootstrapCapability "operator"
       (by decide) (by decide) (by decide) (by decide) (by decide)]
     rfl,
   (Invoke_gate_order sampleEnv gatedState "observatory.models.infer" sampleInvoke "tester"
     testerPrincipal).2.2.2.2.2.1 bootstrapCapability sampleResponse
     (by decide) (by decide) (by decide) (by decide) (by decide) rfl⟩

/-- C29: `Invoke` changes the state only on a fresh success.  A call that returns
an error, whatever the gate or the deadline that failed it, returns the state it
was given, and so does a call whose idempotency key has a cached response: it
is answered with that response under the header of the call, and no counter,
audit record or cache entry is written. -/
theorem Invoke_state_unchanged (env : Env) (s : Service) (capability : String)
    (req : InvokeRequest) (actor : String) (principal : Principal) :
    (∀ e, (Invoke env s capability req actor principal).2 = Except.error e →
      (Invoke env s capability req actor principal).1 = s) ∧
    (∀ cached, normalizes env req.Header → cacheHit env s capability req = some cached →
      (Invoke env s capability req actor principal).1 = s ∧
      ∀ resp, (Invoke env s capability req actor principal).2 = Except.ok resp →
        resp = { cached with Header := invokeHead env req }) := by
  constructor
  · intro e he
    unfold Invoke at he ⊢
    cases hg : invokeGate env s capability req principal with
    | fail e1 => rfl
    | cached resp => rfl
    | proceed head cap capDesc =>
      rw [hg] at he
      simp only at he ⊢
      cases hd : env.ctxDone with
      | true => rw [invokeCommit_expired env s head cap capDesc req actor hd]
      | false =>
        rw [(invokeCommit_ok env s head cap capDesc req actor hd).1] at he
        exact absurd he (by simp)
  · intro cached hn hhit
    cases hr : (Invoke env s capability req actor principal).2 with
    | error e =>
      refine ⟨?_, fun resp h => absurd h (by simp)⟩
      unfold Invoke at hr ⊢
      cases hg : invokeGate env s capability req principal with
      | fail e1 => rfl
      | cached resp => rfl
      | proceed head cap capDesc =>
        rw [hg] at hr
        simp only at hr ⊢
        cases hd : env.ctxDone with
        | true => rw [invokeCommit_expired env s head cap capDesc req actor hd]
        | false =>
          rw [(invokeCommit_ok env s head cap capDesc req actor hd).1] at hr
          exact absurd hr (by simp)
    | ok resp0 =>
      obtain ⟨_, hne, ⟨capDesc, hcap, hscope⟩, hc⟩ :=
        Invoke_ok_gates env s capability req actor principal resp0 hr
      have hI := Invoke_cached env s capability req actor principal capDesc cached hn hne hcap
        hscope hc hhit
      refine ⟨by rw [hI], ?_⟩
      intro resp h
      rw [hI] at hr
      simp only at hr
      rw [h] at hr
      exact (Except.ok.inj hr).symm

/-- C29 in the state `gatedState`: the cancelled call and the cached call leave the
state as it is. -/
theorem Invoke_state_unchanged_witness :
    (Invoke sampleEnv gatedState "observatory.models.infer" cancelledCachedInvoke
      "tester" testerPrincipal).1 = gatedState ∧
    (Invoke sampleEnv gatedState "observatory.models.infer" sampleInvoke "tester"
      testerPrincipal).1 = gatedState :=
  ⟨(Invoke_state_unchanged sampleEnv gatedState "observatory.models.infer"
      cancelledCachedInvoke "tester" testerPrincipal).1
      { Code := ErrorTimeout, Message := "invocation cancelled: operator", Retryable := true }
      rfl,
   ((Invoke_state_unchanged sampleEnv gatedState "observatory.models.infer" sampleInvoke
      "tester" testerPrincipal).2 sampleResponse (by decide) rfl).1⟩

/-! ## Subjects of the NATS binding -/

theorem splitOnChar_ne_nil (sep : Char) (xs : List Char) : splitOnChar sep xs ≠ [] := by
  induction xs with
  | nil => simp [splitOnChar]
  | cons c rest ih =>
    unfold splitOnChar
    by_cases h : c = sep
    · simp [h]
    · rw [if_neg h]
      cases hs : splitOnChar sep rest with
      | nil => simp
      | cons t ts => simp

theorem splitOnChar_append (sep : Char) (xs ys : List Char) :
    splitOnChar sep (xs ++ sep :: ys) = splitOnChar sep xs ++ splitOnChar sep ys := by
  induction xs with
  | nil => simp [splitOnChar]
  | cons c rest ih =>
    simp only [List.cons_append]
    by_cases h : c = sep
    · simp only [splitOnChar, if_pos h, ih, List.cons_append]
    · simp only [splitOnChar, if_neg h, ih]
      cases hs : splitOnChar sep rest with
      | nil => exact absurd hs (splitOnChar_ne_nil sep rest)
      | cons t ts => simp

theorem splitOnChar_token (sep : Char) (xs : List Char) (h : sep ∉ xs) :
    splitOnChar sep xs = [xs] := by
  induction xs with
  | nil => rfl
  | cons c rest ih =>
    have hc : ¬ c = sep := fun e => h (by rw [e]; exact List.mem_cons_self _ _)
    have hr : sep ∉ rest := fun hm => h (List.mem_cons_of_mem _ hm)
    unfold splitOnChar
    rw [if_neg hc, ih hr]

theorem joinChars_split (sep : Char) (xs : List Char) :
    joinChars sep (splitOnChar sep xs) = xs := by
  induction xs with
  | nil => rfl
  | cons c rest ih =>
    unfold splitOnChar
    by_cases h : c = sep
    · rw [if_pos h]
      cases hs : splitOnChar sep rest with
      | nil => exact absurd hs (splitOnChar_ne_nil sep rest)
      | cons t ts =>
        rw [hs] at ih
        simp only [joinChars, List.nil_append, ih, h]
    · rw [if_neg h]
      cases hs : splitOnChar sep rest with
      | nil => exact absurd hs (splitOnChar_ne_nil sep rest)
      | cons t ts =>
        rw [hs] at ih
        cases ts with
        | nil =>
          simp only [joinChars] at ih ⊢
          rw [ih]
        | cons t2 ts2 =>
          simp only [joinChars, List.cons_append] at ih ⊢
          rw [ih]

theorem Join_Split (s : String) : Join (Split s '.') '.' = s := by
  unfold Join Split
  rw [List.map_map]
  have : (String.data ∘ String.mk) = (id : List Char → List Char) := by
    funext l; rfl
  rw [this, List.map_id, joinChars_split]

/-- The tokens of a subject with a four-token head. -/
theorem subjectTokens_four (a b c d rest : String)
    (ha : '.' ∉ a.data) (hb : '.' ∉ b.data) (hc : '.' ∉ c.data) (hd : '.' ∉ d.data) :
    Split (a ++ "." ++ b ++ "." ++ c ++ "." ++ d ++ "." ++ rest) '.' =
      a :: b :: c :: d :: Split rest '.' := by
  unfold Split
  have hdata : (a ++ "." ++ b ++ "." ++ c ++ "." ++ d ++ "." ++ rest).data =
      a.data ++ '.' :: (b.data ++ '.' :: (c.data ++ '.' :: (d.data ++ '.' :: rest.data))) := by
    simp [String.data_append]
  rw [hdata, splitOnChar_append, splitOnChar_append, splitOnChar_append, splitOnChar_append,
    splitOnChar_token _ _ ha, splitOnChar_token _ _ hb, splitOnChar_token _ _ hc,
    splitOnChar_token _ _ hd]
  rfl

theorem matchTokens_length : ∀ (ps ts : List String), matchTokens ps ts = true →
    ps.getLast? = some ">" → ps.length ≤ ts.length
  | [], _, _, hl => by simp at hl
  | _ :: _, [], h, _ => by simp [matchTokens] at h
  | p :: ps, t :: ts, h, hl => by
    unfold matchTokens at h
    by_cases hp : p = ">" ∧ ps = []
    · rw [hp.2]; simp
    · rw [if_neg hp] at h
      have hm : matchTokens ps ts = true := by
        simp only [Bool.and_eq_true] at h
        exact h.2
      cases ps with
      | nil =>
        simp only [List.getLast?_singleton, Option.some.injEq] at hl
        exact absurd ⟨hl, rfl⟩ hp
      | cons p2 ps2 =>
        have hl2 : (p2 :: ps2).getLast? = some ">" := by
          rw [List.getLast?_cons_cons] at hl
          exact hl
        have := matchTokens_length (p2 :: ps2) ts hm hl2
        simp only [List.length_cons] at this ⊢
        omega

theorem Split_cons (a rest : String) (ha : '.' ∉ a.data) :
    Split (a ++ "." ++ rest) '.' = a :: Split rest '.' := by
  unfold Split
  have hdata : (a ++ "." ++ rest).data = a.data ++ '.' :: rest.data := by
    simp [String.data_append]
  rw [hdata, splitOnChar_append, splitOnChar_token _ _ ha]
  rfl

/-- The tokens of a subject `mig.v0_1.<tenant>.<verb>.<rest>`. -/
theorem subject_tokens_verb (tenant verb rest : String) (ht : '.' ∉ tenant.data)
    (hv : '.' ∉ verb.data) :
    subjectTokens ("mig.v0_1." ++ tenant ++ "." ++ verb ++ "." ++ rest) =
      "mig" :: "v0_1" :: tenant :: verb :: Split rest '.' := by
  have hne : "mig.v0_1." ++ tenant ++ "." ++ verb ++ "." ++ rest ≠ "" := by
    intro h
    have := congrArg String.length h
    simp [String.length_append] at this
    have h2 : ("mig.v0_1." : String).length = 9 := by decide
    omega
  have hform : "mig.v0_1." ++ tenant ++ "." ++ verb ++ "." ++ rest =
      "mig" ++ "." ++ ("v0_1" ++ "." ++ (tenant ++ "." ++ (verb ++ "." ++ rest))) := by
    apply String.ext
    simp [String.data_append]
  unfold subjectTokens
  rw [if_neg hne, hform, Split_cons _ _ (by decide), Split_cons _ _ (by decide),
    Split_cons _ _ ht, Split_cons _ _ hv]

theorem matches_length (pattern subject : String)
    (hl : (Split pattern '.').getLast? = some ">")
    (h2 : 2 ≤ (Split pattern '.').length)
    (h : subjectMatches pattern subject = true) :
    (Split pattern '.').length ≤ (subjectTokens subject).length := by
  unfold subjectMatches at h
  have hlen := matchTokens_length _ _ h hl
  unfold subjectTokens
  by_cases he : subject = ""
  · subst he
    have h1 : (Split "" '.').length = 1 := by decide
    rw [h1] at hlen
    omega
  · rw [if_neg he]; exact hlen

theorem subjectToken_two (subject a b c : String) (rest : List String)
    (h : subjectTokens subject = a :: b :: c :: rest) : subjectToken subject 2 = c := by
  unfold subjectToken
  rw [h]
  have hlt : ¬ ((2 : Int) < 0 ∨ (2 : Int) ≥ (((a :: b :: c :: rest).length : Nat) : Int)) := by
    simp only [List.length_cons]
    omega
  rw [if_neg hlt]
  rfl

/-- A subject whose tokens match the tokens of a pattern matches the pattern. -/
theorem matches_of_tokens (pattern subject : String) (tokens : List String)
    (hne : tokens ≠ []) (ht : subjectTokens subject = tokens)
    (hm : matchTokens (Split pattern '.') tokens = true) :
    subjectMatches pattern subject = true := by
  unfold subjectMatches
  unfold subjectTokens at ht
  by_cases he : subject = ""
  · rw [if_pos he] at ht; exact absurd ht.symm hne
  · rw [if_neg he] at ht; rw [ht]; exact hm

/-- C22: for a tenant without a dot and any capability text (empty or not, with
or without dots), the binding decodes the
subject `mig.v0_1.<tenant>.invoke.<capability>` to that tenant (token 2) and,
joining the tokens from index 4 on, to that capability; likewise the topic of
an events subject and, from index 5 on, the message id of a control.cancel
subject.  The subjects are delivered to their handlers, and for every subject
that matches a subscribed pattern ending in `>` the slice is in range. -/
theorem subject_decoding (tenant rest : String) (hd : '.' ∉ tenant.data) :
    subjectToken ("mig.v0_1." ++ tenant ++ ".invoke." ++ rest) 2 = tenant ∧
    invokeSubject ("mig.v0_1." ++ tenant ++ ".invoke." ++ rest) = some (tenant, rest) ∧
    publishSubject ("mig.v0_1." ++ tenant ++ ".events." ++ rest) = some (tenant, rest) ∧
    cancelSubject ("mig.v0_1." ++ tenant ++ ".control.cancel." ++ rest)
      = some (tenant, rest) ∧
    subjectMatches "mig.v0_1.*.invoke.>" ("mig.v0_1." ++ tenant ++ ".invoke." ++ rest)
      = true ∧
    subjectMatches "mig.v0_1.*.events.>" ("mig.v0_1." ++ tenant ++ ".events." ++ rest)
      = true ∧
    subjectMatches "mig.v0_1.*.control.cancel.>"
      ("mig.v0_1." ++ tenant ++ ".control.cancel." ++ rest) = true ∧
    (∀ subject, subjectMatches "mig.v0_1.*.invoke.>" subject = true →
      (invokeSubject subject).isSome = true) ∧
    (∀ subject, subjectMatches "mig.v0_1.*.events.>" subject = true →
      (publishSubject subject).isSome = true) ∧
    (∀ subject, subjectMatches "mig.v0_1.*.control.cancel.>" subject = true →
      (cancelSubject subject).isSome = true) := by
  have hinv : "mig.v0_1." ++ tenant ++ ".invoke." ++ rest =
      "mig.v0_1." ++ tenant ++ "." ++ "invoke" ++ "." ++ rest := by
    apply String.ext; simp [String.data_append]
  have hev : "mig.v0_1." ++ tenant ++ ".events." ++ rest =
      "mig.v0_1." ++ tenant ++ "." ++ "events" ++ "." ++ rest := by
    apply String.ext; simp [String.data_append]
  have hcan : "mig.v0_1." ++ tenant ++ ".control.cancel." ++ rest =
      "mig.v0_1." ++ tenant ++ "." ++ "control" ++ "." ++ ("cancel" ++ "." ++ rest) := by
    apply String.ext; simp [String.data_append]
  have htok1 := subject_tokens_verb tenant "invoke" rest hd (by decide)
  have htok2 := subject_tokens_verb tenant "events" rest hd (by decide)
  have htok3 := subject_tokens_verb tenant "control" ("cancel" ++ "." ++ rest) hd (by decide)
  rw [Split_cons _ _ (by decide)] at htok3
  refine ⟨?_, ?_, ?_, ?_, ?_, ?_, ?_, ?_, ?_, ?_⟩
  · rw [hinv]; exact subjectToken_two _ _ _ _ _ htok1
  · unfold invokeSubject sliceFrom
    rw [hinv, subjectToken_two _ _ _ _ _ htok1, htok1]
    simp [Join_Split]
  · unfold publishSubject sliceFrom
    rw [hev, subjectToken_two _ _ _ _ _ htok2, htok2]
    simp [Join_Split]
  · unfold cancelSubject sliceFrom
    rw [hcan, subjectToken_two _ _ _ _ _ htok3, htok3]
    simp [Join_Split]
  · rw [hinv]
    refine matches_of_tokens _ _ _ (List.cons_ne_nil _ _) htok1 ?_
    have hp : Split "mig.v0_1.*.invoke.>" '.' = ["mig", "v0_1", "*", "invoke", ">"] := by
      decide
    rw [hp]
    cases hs : Split rest '.' with
    | nil => exact absurd hs (by unfold Split; simp [splitOnChar_ne_nil])
    | cons t ts => simp [matchTokens]
  · rw [hev]
    refine matches_of_tokens _ _ _ (List.cons_ne_nil _ _) htok2 ?_
    have hp : Split "mig.v0_1.*.events.>" '.' = ["mig", "v0_1", "*", "events", ">"] := by
      decide
    rw [hp]
    cases hs : Split rest '.' with
    | nil => exact absurd hs (by unfold Split; simp [splitOnChar_ne_nil])
    | cons t ts => simp [matchTokens]
  · rw [hcan]
    refine matches_of_tokens _ _ _ (List.cons_ne_nil _ _) htok3 ?_
    have hp : Split "mig.v0_1.*.control.cancel.>" '.' =
        ["mig", "v0_1", "*", "control", "cancel", ">"] := by decide
    rw [hp]
    cases hs : Split rest '.' with
    | nil => exact absurd hs (by unfold Split; simp [splitOnChar_ne_nil])
    | cons t ts => simp [matchTokens]
  · intro subject h
    have := matches_length _ _ (by decide) (by decide) h
    have hp : (Split "mig.v0_1.*.invoke.>" '.').length = 5 := by decide
    rw [hp] at this
    unfold invokeSubject sliceFrom
    rw [if_pos (by omega)]
    rfl
  · intro subject h
    have := matches_length _ _ (by decide) (by decide) h
    have hp : (Split "mig.v0_1.*.events.>" '.').length = 5 := by decide
    rw [hp] at this
    unfold publishSubject sliceFrom
    rw [if_pos (by omega)]
    rfl
  · intro subject h
    have := matches_length _ _ (by decide) (by decide) h
    have hp : (Split "mig.v0_1.*.control.cancel.>" '.').length = 6 := by decide
    rw [hp] at this
    unfold cancelSubject sliceFrom
    rw [if_pos (by omega)]
    rfl

/-- C22 on the subjects of the bootstrap capability, of its event topic and of a
cancel for the message id `msg.1`. -/
theorem subject_decoding_witness :
    invokeSubject "mig.v0_1.acme.invoke.observatory.models.infer"
      = some ("acme", "observatory.models.infer") ∧
    dispatch "mig.v0_1.acme.invoke.observatory.models.infer" = [NatsHandler.handleInvoke] ∧
    cancelSubject "mig.v0_1.acme.control.cancel.msg.1" = some ("acme", "msg.1") ∧
    dispatch "mig.v0_1.acme.control.cancel.msg.1" = [NatsHandler.handleCancel] :=
  ⟨(subject_decoding "acme" "observatory.models.infer" (by decide)).2.1,
   by decide,
   (subject_decoding "acme" "msg.1" (by decide)).2.2.2.1,
   by decide⟩

/-! ## The event mirror and the NATS binding -/

theorem publishSubject_events (tenant rest : String) (hd : '.' ∉ tenant.data) :
    publishSubject ("mig.v0_1." ++ tenant ++ ".events." ++ rest) = some (tenant, rest) ∧
    subjectMatches "mig.v0_1.*.events.>" ("mig.v0_1." ++ tenant ++ ".events." ++ rest)
      = true := by
  have hev : "mig.v0_1." ++ tenant ++ ".events." ++ rest =
      "mig.v0_1." ++ tenant ++ "." ++ "events" ++ "." ++ rest := by
    apply String.ext; simp [String.data_append]
  have htok := subject_tokens_verb tenant "events" rest hd (by decide)
  constructor
  · unfold publishSubject sliceFrom
    rw [hev, subjectToken_two _ _ _ _ _ htok, htok]
    simp [Join_Split]
  · rw [hev]
    refine matches_of_tokens _ _ _ (List.cons_ne_nil _ _) htok ?_
    have hp : Split "mig.v0_1.*.events.>" '.' = ["mig", "v0_1", "*", "events", ">"] := by
      decide
    rw [hp]
    cases hs : Split rest '.' with
    | nil => exact absurd hs (by unfold Split; simp [splitOnChar_ne_nil])
    | cons t ts => simp [matchTokens]

theorem containsDot_ne_empty (s : String) (h : containsDot s = true) : s ≠ "" := by
  intro he
  subst he
  simp [containsDot] at h

theorem logLength_publishCommit (env : Env) (s : Service) (head : MessageHeader)
    (topic : String) (req : PublishRequest) :
    logLength (publishCommit env s head topic req).1 topic = logLength s topic + 1 := by
  unfold logLength
  rw [(publishCommit_frame env s head topic req).2.2.2.1, GoMap.lookup_insert_self]
  simp

/-- The handler of the events subjects, given a mirrored event, publishes it
again. -/
theorem handlePublish_mirrored (env : Env) (s : Service) (event : EventMessage)
    (hn : normalizes env event.Header) (ht : containsDot event.Topic = true)
    (hd : '.' ∉ (sanitizeNATSSegment event.Header.TenantID).data) :
    handlePublish env s (mirrorSubject event) (some (decodeMirrored event)) =
      some (publishCommit env s (AddIDGMeta (Normalize env event.Header).1 "core")
        event.Topic (decodeMirrored event)) := by
  have hT : event.Header.TenantID ≠ "" := ((normalizes_iff env event.Header).1 hn).1
  have hne : event.Topic ≠ "" := containsDot_ne_empty _ ht
  unfold handlePublish mirrorSubject
  rw [(publishSubject_events _ _ hd).1]
  simp only [decodeMirrored, if_neg hT, if_neg hne]
  have hP := Publish_eq env s event.Topic
    { Header := event.Header, Topic := event.Topic, Key := "", Payload := event.Payload } hn
  have he : effectiveTopic event.Topic
      { Header := event.Header, Topic := event.Topic, Key := "", Payload := event.Payload }
      = event.Topic := by
    simp [effectiveTopic, hne]
  rw [he, if_neg hne, ht] at hP
  rw [hP]
  simp

/-- C30 (code defect): the subject on which `Publish` mirrors a stored event matches
the pattern `mig.v0_1.*.events.>` that the binding subscribes with its publish
handler, whenever the sanitized tenant is a single token.  The body of the
mirrored message decodes as a publish request, so the handler publishes the
event again: in every state without closed subscribers the log of the topic
grows by a further entry, which is mirrored in turn.  On a service with the
binding started, one `Publish` of tenant `acme` leaves one message on the
connection; delivering it to the binding makes a second log entry and a second
message on the same subject. -/
theorem mirror_feedback :
    (∀ event : EventMessage, '.' ∉ (sanitizeNATSSegment event.Header.TenantID).data →
      NatsHandler.handlePublish ∈ dispatch (mirrorSubject event)) ∧
    (∀ (env : Env) (s : Service) (event : EventMessage),
      normalizes env event.Header → containsDot event.Topic = true →
      '.' ∉ (sanitizeNATSSegment event.Header.TenantID).data → SubscribersOpen s →
      ∃ s1 ack, handlePublish env s (mirrorSubject event) (some (decodeMirrored event))
          = some (s1, Outcome.ok ack) ∧
        ack.Topic = event.Topic ∧
        ack.Sequence = (logLength s event.Topic : Int) + 1 ∧
        logLength s1 event.Topic = logLength s event.Topic + 1) ∧
    (natsState.natsBinding = true ∧ mirrored natsState = [] ∧
      logLength mirroredOnce "observatory.inference.completed" = 1 ∧
      (mirrored mirroredOnce).map (fun m => m.subject)
        = ["mig.v0_1.acme.events.observatory.inference.completed"] ∧
      (mirrored mirroredOnce).map (fun m => dispatch m.subject)
        = [[NatsHandler.handlePublish]] ∧
      (mirrored mirroredOnce).map (fun m =>
          (handlePublish sampleEnv mirroredOnce m.subject (some (decodeMirrored m.event))).map
            (fun r => (logLength r.1 "observatory.inference.completed",
              (mirrored r.1).map (fun m2 => m2.subject))))
        = [some (2, ["mig.v0_1.acme.events.observatory.inference.completed",
                     "mig.v0_1.acme.events.observatory.inference.completed"])]) := by
  refine ⟨?_, ?_, ?_⟩
  · intro event hd
    unfold dispatch
    rw [List.mem_map]
    refine ⟨("mig.v0_1.*.events.>", NatsHandler.handlePublish), ?_, rfl⟩
    rw [List.mem_filter]
    refine ⟨by decide, ?_⟩
    exact (publishSubject_events _ _ hd).2
  · intro env s event hn ht hd hopen
    rw [handlePublish_mirrored env s event hn ht hd]
    have hok := publishCommit_ok env s (AddIDGMeta (Normalize env event.Header).1 "core")
      event.Topic (decodeMirrored event) hopen
    refine ⟨_, _, Prod.ext rfl hok |> congrArg some, rfl, rfl, ?_⟩
    exact logLength_publishCommit _ _ _ _ _
  · refine ⟨by decide, rfl, by decide, by decide, by decide, by decide⟩

/-! ## The registry of live connections -/

theorem GoMap.keys_erase {V : Type} (m : GoMap V) (k : String) :
    (m.erase k).keys = m.keys.filter (fun x => x ≠ k) := by
  induction m with
  | nil => rfl
  | cons p rest ih =>
    obtain ⟨k1, v1⟩ := p
    simp only [GoMap.keys] at ih
    by_cases h : k1 = k
    · simp [GoMap.erase, GoMap.keys, h, ih]
    · simp [GoMap.erase, GoMap.keys, h, ih]

theorem GoMap.erase_absent {V : Type} (m : GoMap V) (k : String) (h : k ∉ m.keys) :
    m.erase k = m := by
  induction m with
  | nil => rfl
  | cons p rest ih =>
    obtain ⟨k1, v1⟩ := p
    have h1 : ¬ k1 = k := fun e => h (by simp [GoMap.keys, e])
    have h2 : k ∉ GoMap.keys rest := fun hm => h (by
      simp only [GoMap.keys, List.map_cons, List.mem_cons] at hm ⊢
      exact Or.inr hm)
    simp only [GoMap.erase, if_neg h1]
    rw [ih h2]

theorem filter_ne_of_not_mem (l : List String) (k : String) (h : k ∉ l) :
    l.filter (fun x => x ≠ k) = l := by
  rw [List.filter_eq_self]
  intro a ha
  have : a ≠ k := fun e => h (e ▸ ha)
  simpa using this

theorem activeIds_subset (regs : List (String × Bool)) (x : String) (h : x ∈ activeIds regs) :
    x ∈ regs.map Prod.fst := by
  unfold activeIds at h
  obtain ⟨r, hr, e⟩ := List.mem_map.mp h
  exact List.mem_map.mpr ⟨r, (List.mem_filter.mp hr).1, e⟩

/-- Releasing registration `k` removes its id, and only its id, from the active
ids, when no two registrations share an id. -/
theorem activeIds_set : ∀ (regs : List (String × Bool)) (k : Nat) (id : String) (f : Bool),
    (regs.map Prod.fst).Nodup → regs.get? k = some (id, f) →
    activeIds (regs.set k (id, true)) = (activeIds regs).filter (fun x => x ≠ id)
  | [], k, id, f, _, h => by simp at h
  | (a, fa) :: rest, 0, id, f, hnd, h => by
    simp only [List.get?_cons_zero, Option.some.injEq, Prod.mk.injEq] at h
    obtain ⟨ha, hf⟩ := h
    subst ha
    have hnot : a ∉ rest.map Prod.fst := (List.nodup_cons.mp hnd).1
    have hna : a ∉ activeIds rest := fun hm => hnot (activeIds_subset rest a hm)
    have hrest := filter_ne_of_not_mem (activeIds rest) a hna
    have e1 : activeIds (((a, fa) :: rest).set 0 (a, true)) = activeIds rest := rfl
    rw [e1]
    cases fa
    · have e2 : activeIds ((a, false) :: rest) = a :: activeIds rest := rfl
      rw [e2, List.filter_cons]
      simp only [ne_eq, not_true_eq_false, decide_False, Bool.false_eq_true, if_false]
      exact hrest.symm
    · have e2 : activeIds ((a, true) :: rest) = activeIds rest := rfl
      rw [e2]
      exact hrest.symm
  | (a, fa) :: rest, k + 1, id, f, hnd, h => by
    simp only [List.get?_cons_succ] at h
    have hnd2 : (rest.map Prod.fst).Nodup := (List.nodup_cons.mp hnd).2
    have hnot : a ∉ rest.map Prod.fst := (List.nodup_cons.mp hnd).1
    have hid : id ∈ rest.map Prod.fst :=
      List.mem_map.mpr ⟨(id, f), List.get?_mem h, rfl⟩
    have hne : a ≠ id := fun e => hnot (e ▸ hid)
    have ih := activeIds_set rest k id f hnd2 h
    cases fa
    · have e1 : activeIds (((a, false) :: rest).set (k + 1) (id, true)) =
          a :: activeIds (rest.set k (id, true)) := rfl
      have e2 : activeIds ((a, false) :: rest) = a :: activeIds rest := rfl
      rw [e1, e2, ih, List.filter_cons]
      simp [hne]
    · have e1 : activeIds (((a, true) :: rest).set (k + 1) (id, true)) =
          activeIds (rest.set k (id, true)) := rfl
      have e2 : activeIds ((a, true) :: rest) = activeIds rest := rfl
      rw [e1, e2, ih]

theorem RegisterConnection_connections (env : Env) (s : Service) (conn : ConnectionSnapshot) :
    ∃ stored, (RegisterConnection env s conn).1.connections =
      s.connections.insert (RegisterConnection env s conn).2 stored := by
  unfold RegisterConnection
  exact ⟨_, rfl⟩

theorem ids_set (regs : List (String × Bool)) (k : Nat) (id : String) (f : Bool)
    (h : regs.get? k = some (id, f)) :
    (regs.set k (id, true)).map Prod.fst = regs.map Prod.fst := by
  induction regs generalizing k with
  | nil => rfl
  | cons r rest ih =>
    cases k with
    | zero =>
      simp only [List.get?_cons_zero, Option.some.injEq] at h
      subst h
      rfl
    | succ n =>
      simp only [List.get?_cons_succ] at h
      simp only [List.set_cons_succ, List.map_cons, ih n h]

theorem connStep_ids (t : ConnTrace) (c : ConnCall) :
    ∃ l, (connStep t c).regs.map Prod.fst = t.regs.map Prod.fst ++ l := by
  cases c with
  | register env conn => exact ⟨[(RegisterConnection env t.service conn).2], by simp [connStep]⟩
  | unregister k =>
    unfold connStep
    cases h : t.regs.get? k with
    | none => exact ⟨[], by simp only [h, List.append_nil]⟩
    | some r =>
      obtain ⟨id, f⟩ := r
      exact ⟨[], by simp only [h, List.append_nil]; exact ids_set t.regs k id f h⟩

theorem connRun_ids (calls : List ConnCall) :
    ∀ t : ConnTrace, ∃ l, (calls.foldl connStep t).regs.map Prod.fst
      = t.regs.map Prod.fst ++ l := by
  induction calls with
  | nil => intro t; exact ⟨[], by simp⟩
  | cons c rest ih =>
    intro t
    obtain ⟨l1, h1⟩ := connStep_ids t c
    obtain ⟨l2, h2⟩ := ih (connStep t c)
    exact ⟨l1 ++ l2, by rw [List.foldl_cons, h2, h1, List.append_assoc]⟩

/-- One call keeps the registry keyed by the active ids, as long as no two
registrations share an id. -/
theorem connStep_keys (t : ConnTrace) (c : ConnCall)
    (hkeys : t.service.connections.keys = activeIds t.regs)
    (hnd : ((connStep t c).regs.map Prod.fst).Nodup) :
    (connStep t c).service.connections.keys = activeIds (connStep t c).regs := by
  cases c with
  | register env conn =>
    obtain ⟨stored, hs⟩ := RegisterConnection_connections env t.service conn
    simp only [connStep] at hnd ⊢
    rw [hs, GoMap.keys_insert, hkeys]
    have hnew : (RegisterConnection env t.service conn).2 ∉ t.regs.map Prod.fst := by
      rw [List.map_append, List.nodup_append] at hnd
      intro hm
      exact hnd.2.2 hm (by simp)
    have hna : (RegisterConnection env t.service conn).2 ∉ activeIds t.regs :=
      fun hm => hnew (activeIds_subset _ _ hm)
    rw [if_neg hna]
    simp [activeIds, List.filter_append]
  | unregister k =>
    unfold connStep at hnd ⊢
    cases h : t.regs.get? k with
    | none => simp only [h] at hnd ⊢; exact hkeys
    | some r =>
      obtain ⟨id, f⟩ := r
      simp only [h] at hnd ⊢
      rw [ids_set t.regs k id f h] at hnd
      rw [activeIds_set t.regs k id f hnd h, ← hkeys]
      exact GoMap.keys_erase _ _

theorem connRun_keys (calls : List ConnCall) :
    ∀ t : ConnTrace, t.service.connections.keys = activeIds t.regs →
      ((calls.foldl connStep t).regs.map Prod.fst).Nodup →
      (calls.foldl connStep t).service.connections.keys
        = activeIds (calls.foldl connStep t).regs := by
  induction calls with
  | nil => intro t h _; exact h
  | cons c rest ih =>
    intro t hkeys hnd
    rw [List.foldl_cons] at hnd ⊢
    obtain ⟨l, hl⟩ := connRun_ids rest (connStep t c)
    have hnd1 : ((connStep t c).regs.map Prod.fst).Nodup := by
      rw [hl] at hnd
      exact List.Nodup.of_append_left hnd
    exact ih (connStep t c) (connStep_keys t c hkeys hnd1) hnd

theorem length_filter_ne (l : List String) (a : String) (hnd : l.Nodup) (ha : a ∈ l) :
    (l.filter (fun x => x ≠ a)).length + 1 = l.length := by
  induction l with
  | nil => simp at ha
  | cons b rest ih =>
    obtain ⟨hb, hrest⟩ := List.nodup_cons.mp hnd
    by_cases hba : b = a
    · subst hba
      rw [List.filter_cons]
      simp only [ne_eq, not_true_eq_false, decide_False, Bool.false_eq_true, if_false,
        List.length_cons]
      rw [filter_ne_of_not_mem rest b hb]
    · have ha2 : a ∈ rest := by
        rcases List.mem_cons.mp ha with e | h
        · exact absurd e.symm hba
        · exact h
      rw [List.filter_cons]
      simp only [ne_eq, hba, not_false_eq_true, decide_True, if_true, List.length_cons]
      rw [ih hrest ha2]

/-- C21 (as stated, refuted): two registrations that carry the same explicit id
`c1` share one registry entry, so with both closures uncalled the registry has
one entry for two registrations; the closure of the first then removes the
entry of the second, and the registry is empty with one registration still
open. -/
theorem registry_size_counterexample :
    activeCount (connRun NewService
      [ConnCall.register sampleEnv (explicitConn "alice"),
       ConnCall.register sampleEnv (explicitConn "bob")]).regs = 2 ∧
    registrySize (connRun NewService
      [ConnCall.register sampleEnv (explicitConn "alice"),
       ConnCall.register sampleEnv (explicitConn "bob")]).service = 1 ∧
    activeCount (connRun NewService
      [ConnCall.register sampleEnv (explicitConn "alice"),
       ConnCall.register sampleEnv (explicitConn "bob"),
       ConnCall.unregister 0]).regs = 1 ∧
    registrySize (connRun NewService
      [ConnCall.register sampleEnv (explicitConn "alice"),
       ConnCall.register sampleEnv (explicitConn "bob"),
       ConnCall.unregister 0]).service = 0 := by
  decide

/-- C21 (amended): for every run of `RegisterConnection` calls and calls of the
returned closures, from a service with an empty registry, in which no two
registrations got the same id, the registry holds exactly the ids of the
registrations whose closure has not been called, so its size is their number;
the closure of an open registration removes the entry of its id and no other,
and a closure that has been called changes nothing when it is called again. -/
theorem registry_size (s : Service) (calls : List ConnCall)
    (hempty : s.connections = GoMap.empty)
    (hids : ((connRun s calls).regs.map Prod.fst).Nodup) :
    (connRun s calls).service.connections.keys = activeIds (connRun s calls).regs ∧
    registrySize (connRun s calls).service = activeCount (connRun s calls).regs ∧
    (∀ k id, (connRun s calls).regs.get? k = some (id, false) →
      id ∈ (connRun s calls).service.connections.keys ∧
      (connStep (connRun s calls) (ConnCall.unregister k)).service.connections.keys
        = (connRun s calls).service.connections.keys.filter (fun x => x ≠ id) ∧
      registrySize (connStep (connRun s calls) (ConnCall.unregister k)).service + 1
        = registrySize (connRun s calls).service) ∧
    (∀ k id, (connRun s calls).regs.get? k = some (id, true) →
      (connStep (connRun s calls) (ConnCall.unregister k)).service
        = (connRun s calls).service) := by
  have hkeys : (connRun s calls).service.connections.keys = activeIds (connRun s calls).regs :=
    connRun_keys calls { service := s, regs := [] } (by rw [hempty]; rfl) hids
  have hknd : (connRun s calls).service.connections.keys.Nodup := by
    rw [hkeys]
    unfold activeIds
    exact List.Nodup.sublist (List.Sublist.map _ (List.filter_sublist _)) hids
  refine ⟨hkeys, ?_, ?_, ?_⟩
  · unfold registrySize activeCount
    rw [hkeys]; simp [activeIds]
  · intro k id hk
    have hmem : id ∈ (connRun s calls).service.connections.keys := by
      rw [hkeys]
      exact List.mem_map.mpr ⟨(id, false), List.mem_filter.mpr ⟨List.get?_mem hk, rfl⟩, rfl⟩
    have hstep : (connStep (connRun s calls) (ConnCall.unregister k)).service.connections.keys
        = (connRun s calls).service.connections.keys.filter (fun x => x ≠ id) := by
      simp only [connStep, hk, UnregisterConnection]
      exact GoMap.keys_erase _ _
    refine ⟨hmem, hstep, ?_⟩
    unfold registrySize
    rw [hstep]
    exact length_filter_ne _ _ hknd hmem
  · intro k id hk
    have hnot : id ∉ (connRun s calls).service.connections.keys := by
      rw [hkeys]
      intro hm
      unfold activeIds at hm
      obtain ⟨r, hr, e⟩ := List.mem_map.mp hm
      obtain ⟨hrm, hrf⟩ := List.mem_filter.mp hr
      obtain ⟨rid, rf⟩ := r
      simp only at e hrf
      subst e
      have hrf' : rf = false := by simpa using hrf
      subst hrf'
      -- two entries with the same id contradict the distinctness of the ids
      have h1 : (rid, true) ∈ (connRun s calls).regs := List.get?_mem hk
      have hinj := List.inj_on_of_nodup_map hids hrm h1 rfl
      simp at hinj
    simp only [connStep, hk, UnregisterConnection]
    rw [GoMap.erase_absent _ _ hnot]

/-- C21 (amended) on the run of the registry test: two registrations with generated
ids, the first closure called twice. -/
theorem registry_size_witness :
    registrySize (connRun NewService
      [ConnCall.register sampleEnv (anonymousConn "alice"),
       ConnCall.register secondEnv (anonymousConn "bob"),
       ConnCall.unregister 0, ConnCall.unregister 0]).service = 1 ∧
    activeCount (connRun NewService
      [ConnCall.register sampleEnv (anonymousConn "alice"),
       ConnCall.register secondEnv (anonymousConn "bob"),
       ConnCall.unregister 0, ConnCall.unregister 0]).regs = 1 :=
  ⟨(registry_size NewService
      [ConnCall.register sampleEnv (anonymousConn "alice"),
       ConnCall.register secondEnv (anonymousConn "bob"),
       ConnCall.unregister 0, ConnCall.unregister 0] rfl (by decide)).2.1.trans (by decide),
   by decide⟩

/-! ## Usage accounting -/

/-- What `Invoke` does to the state: nothing, or the second critical section on the
normalized header of a request that passed every gate. -/
theorem Invoke_effect (env : Env) (s : Service) (capability : String) (req : InvokeRequest)
    (actor : String) (principal : Principal) :
    (Invoke env s capability req actor principal).1 = s ∨
    (normalizes env req.Header ∧ env.ctxDone = false ∧
      ∃ capDesc, Invoke env s capability req actor principal =
        invokeCommit env s (invokeHead env req) (effectiveCapability capability req) capDesc
          req actor) := by
  by_cases hn : normalizes env req.Header
  swap
  · obtain ⟨msg, hg⟩ := invokeGate_not_normalizes env s capability req principal hn
    left; rw [Invoke_of_fail env s capability req actor principal _ hg]
  by_cases hne : effectiveCapability capability req = ""
  · left
    rw [Invoke_of_fail env s capability req actor principal _
      (invokeGate_no_capability env s capability req principal hn hne)]
  cases hcap : s.capabilities.lookup (effectiveCapability capability req) with
  | none =>
    left
    rw [Invoke_of_fail env s capability req actor principal _
      (invokeGate_unknown env s capability req principal hn hne hcap)]
  | some capDesc =>
    cases hscope : principal.HasAnyScope capDesc.AuthScopes with
    | false =>
      left
      rw [Invoke_of_fail env s capability req actor principal _
        (invokeGate_forbidden env s capability req principal capDesc hn hne hcap hscope)]
    | true =>
      cases hc : s.cancelled.lookup (invokeHead env req).MessageID with
      | some reason =>
        left
        rw [Invoke_of_fail env s capability req actor principal _
          (invokeGate_cancelled env s capability req principal capDesc reason hn hne hcap
            hscope hc)]
      | none =>
        cases hhit : cacheHit env s capability req with
        | some cached =>
          left
          rw [Invoke_cached env s capability req actor principal capDesc cached hn hne hcap
            hscope hc hhit]
        | none =>
          by_cases hq : ∀ quota, s.quotas.lookup (invokeHead env req).TenantID = some quota →
              s.tenantInvocations.count (invokeHead env req).TenantID < quota
          · have hI := Invoke_fresh env s capability req actor principal capDesc hn hne hcap
              hscope hc hhit hq
            cases hd : env.ctxDone with
            | true =>
              left
              rw [hI, invokeCommit_expired env s _ _ capDesc req actor hd]
            | false => exact Or.inr ⟨hn, rfl, capDesc, hI⟩
          · left
            simp only [not_forall] at hq
            obtain ⟨quota, hquota, hnlt⟩ := hq
            rw [Invoke_rate_limited env s capability req actor principal capDesc quota hn hne
              hcap hscope hc hhit hquota (by omega)]

theorem sumValues_increment (m : GoMap Int) (k : String) :
    sumValues (m.insert k (m.count k + 1)) = sumValues m + 1 := by
  unfold sumValues GoMap.count
  induction m with
  | nil => simp [GoMap.insert, GoMap.values, GoMap.lookup]
  | cons p rest ih =>
    obtain ⟨k1, v1⟩ := p
    by_cases h : k1 = k
    · simp only [GoMap.insert, GoMap.lookup, if_pos h, GoMap.values, List.map_cons,
        List.sum_cons, Option.getD_some]
      ring
    · simp only [GoMap.insert, GoMap.lookup, if_neg h, GoMap.values, List.map_cons,
        List.sum_cons]
      simp only [GoMap.values] at ih
      rw [ih]; ring

/-- The accounting fields after one step: unchanged, or one audit record of a
non-empty tenant is appended and the counters of its tenant and capability are
incremented. -/
theorem step_usage (s : Service) (op : Op) :
    ((step s op).audit = s.audit ∧ (step s op).tenantInvocations = s.tenantInvocations ∧
      (step s op).capabilityInvocations = s.capabilityInvocations) ∨
    ∃ record capability, record.TenantID ≠ "" ∧
      (step s op).audit = s.audit ++ [record] ∧
      (step s op).tenantInvocations =
        s.tenantInvocations.insert record.TenantID
          (s.tenantInvocations.count record.TenantID + 1) ∧
      (step s op).capabilityInvocations =
        s.capabilityInvocations.insert capability
          (s.capabilityInvocations.count capability + 1) := by
  cases op with
  | query => exact Or.inl ⟨rfl, rfl, rfl⟩
  | invoke env capability req actor principal =>
    rcases Invoke_effect env s capability req actor principal with h | ⟨hn, hd, capDesc, h⟩
    · left; simp only [step, h]; simp
    · right
      obtain ⟨_, _, ht, hc, ha⟩ := invokeCommit_ok env s (invokeHead env req)
        (effectiveCapability capability req) capDesc req actor hd
      have hT : (invokeHead env req).TenantID ≠ "" := by
        rw [(invokeHead_fields env req hn).1]
        exact ((normalizes_iff env req.Header).1 hn).1
      refine ⟨{ Actor := actor, TenantID := (invokeHead env req).TenantID,
                Capability := effectiveCapability capability req, Outcome := "success",
                Timestamp := formatRFC3339 env.later,
                MessageID := (invokeHead env req).MessageID },
        effectiveCapability capability req, ?_, ?_, ?_, ?_⟩
      · exact hT
      · simp only [step, h]; exact ha
      · simp only [step, h]; exact ht
      · simp only [step, h]; exact hc
  | publish env topic req =>
    left
    rcases Publish_cases env s topic req with ⟨e, h⟩ | ⟨head, _, _, h⟩
    · simp [step, h]
    · simp only [step, h]
      unfold publishCommit publishEventToNATS
      simp only
      cases hf : fanOut s.chans ((s.subscribers.lookup (effectiveTopic topic req)).getD [])
          { Header := head, Topic := effectiveTopic topic req,
            EventID := newMessageID env.auxSource,
            Sequence := (((s.events.lookup (effectiveTopic topic req)).getD []).length : Int) + 1,
            Payload := req.Payload, PublishedAt := formatRFC3339 env.later,
            Replay := false } with
      | mk chans flag =>
        cases flag with
        | true => simp
        | false => cases hc : s.natsConn <;> simp
  | subscribe topic cursor =>
    left
    rcases Subscribe_cases s topic cursor with ⟨e, h⟩ | ⟨start0, _, _, _, h⟩
    · simp [step, h]
    · simp [step, h, subscribeCommit]
  | unsubscribe ch =>
    left; simp only [step]; unfold Unsubscribe
    split
    · simp
    · split <;> split <;> simp
  | receive ch =>
    left; simp only [step]; unfold Receive
    split
    · simp
    · split <;> simp
  | cancel env req messageID =>
    left; simp only [step]; unfold Cancel
    split
    · simp
    · split <;> simp
  | setQuota req =>
    left; simp only [step]; unfold SetQuota; split <;> (try split) <;> simp
  | addCapability req =>
    left; simp only [step]; unfold AddCapability; split <;> (try split) <;> simp
  | addSchema req =>
    left; simp only [step]; unfold AddSchema; split <;> (try split) <;> simp
  | createOrg env org =>
    left; simp only [step]; unfold CreateOrg; split <;> simp
  | createTenant env t =>
    left; simp only [step]; unfold CreateTenant
    by_cases h1 : (t.Name = "" ∨ t.OrgID = "") <;> by_cases h2 : t.ID = "" <;>
      cases h3 : s.orgs.contains t.OrgID <;> simp [h1, h2, h3]
  | createGateway env g =>
    left; simp only [step]; unfold CreateGateway
    by_cases h1 : (g.TenantID = "" ∨ g.Region = "" ∨ g.Binding = "") <;>
      by_cases h2 : g.ID = "" <;>
      cases h3 : s.tenants.contains g.TenantID <;> simp [h1, h2, h3]
  | registerConnection env c => left; simp [step, RegisterConnection]
  | unregisterConnection id => exact Or.inl ⟨rfl, rfl, rfl⟩
  | setMetrics b => exact Or.inl ⟨rfl, rfl, rfl⟩
  | startNATSBinding b =>
    left; simp only [step]; unfold StartNATSBinding
    split <;> (try split) <;> (try split) <;> simp
  | close => exact Or.inl ⟨rfl, rfl, rfl⟩

theorem UsageBalanced_step (s : Service) (op : Op) (h : UsageBalanced s) :
    UsageBalanced (step s op) := by
  rcases step_usage s op with ⟨ha, ht, hc⟩ | ⟨record, capability, hne, ha, ht, hc⟩
  · unfold UsageBalanced at h ⊢
    rw [ha, ht, hc]; exact h
  · obtain ⟨h1, h2, h3, h4⟩ := h
    unfold UsageBalanced
    rw [ha, ht, hc]
    refine ⟨?_, ?_, ?_, ?_⟩
    · rw [sumValues_increment, h1]; simp
    · rw [sumValues_increment, h2]; simp
    · intro t
      by_cases e : record.TenantID = t
      · subst e
        rw [GoMap.count_insert_self, h3]
        simp [List.filter_append]
      · rw [GoMap.count_insert_of_ne _ _ _ _ e, h3]
        simp [List.filter_append, e]
    · intro r hr
      rcases List.mem_append.mp hr with hr | hr
      · exact h4 r hr
      · simp only [List.mem_singleton] at hr
        rw [hr]; exact hne

theorem NewService_balanced : UsageBalanced NewService := by
  refine ⟨rfl, rfl, ?_, ?_⟩
  · intro t; rfl
  · intro r hr; simp [NewService] at hr

theorem Reachable_balanced (s : Service) (h : Reachable s) : UsageBalanced s := by
  obtain ⟨ops, hops⟩ := h
  rw [← hops]
  have key : ∀ (ops : List Op) (s0 : Service), UsageBalanced s0 → UsageBalanced (run s0 ops) := by
    intro ops
    induction ops with
    | nil => intro s0 h0; exact h0
    | cons op rest ih => intro s0 h0; exact ih (step s0 op) (UsageBalanced_step s0 op h0)
  exact key ops NewService NewService_balanced

theorem Usage_total (s : Service) : (Usage s).TotalInvocations = sumValues s.capabilityInvocations := by
  unfold Usage sumValues GoMap.values
  simp only
  have key : ∀ (l : List (String × Int)) (acc : GoMap Int × Int),
      (List.foldl (fun (acc : GoMap Int × Int) (kv : String × Int) =>
        (acc.1.insert kv.1 kv.2, acc.2 + kv.2)) acc l).2 = acc.2 + (l.map Prod.snd).sum := by
    intro l
    induction l with
    | nil => intro acc; simp
    | cons p rest ih =>
      intro acc
      rw [List.foldl_cons, ih]
      simp only [List.map_cons, List.sum_cons]
      ring
  rw [key]
  simp

/-- C28: in every state reachable from `NewService` the tenant counters and the
capability counters both sum to the length of the audit trail, which is also
`Usage().total_invocations`; for every tenant `t` the counter of `t` is the
number of records `AuditExport(t)` returns.  A tenant id is not empty
(`Normalize` rejects the empty id): the empty text is the argument with which
`AuditExport` returns the trail of all tenants, and no counter or record
belongs to it. -/
theorem Usage_accounting (s : Service) (h : Reachable s) :
    sumValues s.tenantInvocations = (s.audit.length : Int) ∧
    sumValues s.capabilityInvocations = (s.audit.length : Int) ∧
    (Usage s).TotalInvocations = (s.audit.length : Int) ∧
    (∀ t, t ≠ "" → s.tenantInvocations.count t = ((AuditExport s t).length : Int)) ∧
    s.tenantInvocations.count "" = 0 ∧
    AuditExport s "" = s.audit := by
  obtain ⟨h1, h2, h3, h4⟩ := Reachable_balanced s h
  refine ⟨h1, h2, ?_, ?_, ?_, ?_⟩
  · rw [Usage_total, h2]
  · intro t ht
    unfold AuditExport
    rw [if_neg ht]
    exact h3 t
  · rw [h3 ""]
    have : s.audit.filter (fun record => decide (record.TenantID = "")) = [] := by
      rw [List.filter_eq_nil_iff]
      intro r hr
      simpa using h4 r hr
    rw [this]; rfl
  · unfold AuditExport
    rw [if_pos rfl]

/-- C28 after one invoke of tenant `acme`: one record, one invocation of `acme`, and
the whole trail for the empty argument. -/
theorem Usage_accounting_witness :
    Reachable invokedOnce ∧
    (Usage invokedOnce).TotalInvocations = 1 ∧
    invokedOnce.tenantInvocations.count "acme" = 1 ∧
    ((AuditExport invokedOnce "acme").length : Int) = 1 ∧
    invokedOnce.tenantInvocations.count "" = 0 ∧
    (AuditExport invokedOnce "").length = 1 :=
  ⟨⟨_, rfl⟩,
   (Usage_accounting invokedOnce ⟨_, rfl⟩).2.2.1.trans (by decide),
   by decide,
   ((Usage_accounting invokedOnce ⟨_, rfl⟩).2.2.2.1 "acme" (by decide)).symm.trans (by decide),
   (Usage_accounting invokedOnce ⟨_, rfl⟩).2.2.2.2.1,
   by decide⟩

/-! ## Two Invoke calls in flight -/

/-- A call that runs both critical sections without interruption is `Invoke`. -/
theorem threadStep_twice (s : Service) (call : InvokeCall) :
    (threadStep (threadStep s (InvokeThread.ready call)).1
        (threadStep s (InvokeThread.ready call)).2)
      = ((Invoke call.env s call.capability call.req call.actor call.principal).1,
         InvokeThread.returned
           (Invoke call.env s call.capability call.req call.actor call.principal).2) := by
  unfold Invoke
  simp only [threadStep]
  cases hg : invokeGate call.env s call.capability call.req call.principal with
  | fail e => rfl
  | cached resp => rfl
  | proceed head capability capDesc => rfl

/-- C27 (code defect): the idempotency check and the store are two critical
sections of `Invoke`, the check under the shared lock and the store under the
exclusive lock, with the lock released in between.  When two calls run one
after the other the model is `Invoke` twice.  When both calls pass the gates
before either stores, both compute and both store: from any state in which
each call is decided to proceed and no deadline expires, the audit trail grows
by two records.  For two calls with the same tenant, capability and
idempotency key on a new service both return a fresh success and the tenant
counter, the capability counter and the audit trail grow by two; with a quota
of one invocation both calls pass the quota gate and `tenant_invocations`
reaches 2. -/
theorem Invoke_race :
    (∀ (s : Service) (a b : InvokeCall),
      (runSchedule s (InvokeThread.ready a) (InvokeThread.ready b)
          [false, false, true, true]).1
        = (invokeAll s [a, b]).1) ∧
    (∀ (s : Service) (a b : InvokeCall) headA capA descA headB capB descB,
      invokeGate a.env s a.capability a.req a.principal
        = InvokeDecision.proceed headA capA descA →
      invokeGate b.env s b.capability b.req b.principal
        = InvokeDecision.proceed headB capB descB →
      a.env.ctxDone = false → b.env.ctxDone = false →
      (runSchedule s (InvokeThread.ready a) (InvokeThread.ready b)
          [false, true, false, true]).1.audit.length = s.audit.length + 2 ∧
      returnedOk (runSchedule s (InvokeThread.ready a) (InvokeThread.ready b)
          [false, true, false, true]).2.1 = true ∧
      returnedOk (runSchedule s (InvokeThread.ready a) (InvokeThread.ready b)
          [false, true, false, true]).2.2 = true) ∧
    ((keyedCall sampleEnv).req.Header.IdempotencyKey = "id-1" ∧
      (runSchedule NewService (InvokeThread.ready (keyedCall sampleEnv))
          (InvokeThread.ready (keyedCall secondEnv))
          [false, false, true, true]).1.tenantInvocations.count "acme" = 1 ∧
      (runSchedule NewService (InvokeThread.ready (keyedCall sampleEnv))
          (InvokeThread.ready (keyedCall secondEnv))
          [false, true, false, true]).1.tenantInvocations.count "acme" = 2 ∧
      (runSchedule NewService (InvokeThread.ready (keyedCall sampleEnv))
          (InvokeThread.ready (keyedCall secondEnv))
          [false, true, false, true]).1.capabilityInvocations.count
            "observatory.models.infer" = 2 ∧
      (runSchedule NewService (InvokeThread.ready (keyedCall sampleEnv))
          (InvokeThread.ready (keyedCall secondEnv))
          [false, true, false, true]).1.audit.length = 2 ∧
      quotaOne.quotas.lookup "acme" = some 1 ∧
      (runSchedule quotaOne (InvokeThread.ready (keyedCall sampleEnv))
          (InvokeThread.ready (keyedCall secondEnv))
          [false, true, false, true]).1.tenantInvocations.count "acme" = 2) := by
  refine ⟨?_, ?_, ?_⟩
  · intro s a b
    simp only [runSchedule, invokeAll]
    rw [threadStep_twice s a]
    simp only
    rw [threadStep_twice _ b]
  · intro s a b headA capA descA headB capB descB hA hB hdA hdB
    have e : runSchedule s (InvokeThread.ready a) (InvokeThread.ready b)
        [false, true, false, true] =
        ((invokeCommit b.env (invokeCommit a.env s headA capA descA a.req a.actor).1
            headB capB descB b.req b.actor).1,
         InvokeThread.returned (invokeCommit a.env s headA capA descA a.req a.actor).2,
         InvokeThread.returned
           (invokeCommit b.env (invokeCommit a.env s headA capA descA a.req a.actor).1
             headB capB descB b.req b.actor).2) := by
      simp only [runSchedule, threadStep, hA, hB]
    rw [e]
    have h1 := invokeCommit_ok a.env s headA capA descA a.req a.actor hdA
    have h2 := invokeCommit_ok b.env (invokeCommit a.env s headA capA descA a.req a.actor).1
      headB capB descB b.req b.actor hdB
    refine ⟨?_, ?_, ?_⟩
    · simp only
      rw [h2.2.2.2.2, h1.2.2.2.2]
      simp
    · simp only
      rw [h1.1]; rfl
    · simp only
      rw [h2.1]; rfl
  · refine ⟨by decide, by decide, by decide, by decide, by decide, by decide, by decide⟩

/-! ## Frames of the WebSocket stream -/

end Mig
